import Mathlib

/-!
# Trinacia: the genetic engine and the population refresh

A shallow embedding of `core/genetic` (facebook.go, genetic.go,
samplingDistributions.go) and of `newPopulation` from
`core/facebook/campaign/create.go`.

Modelling conventions

* Go pointers (`*Gene`, `*Chromosome`) are addresses (`Ptr`) into a `Store`;
  two slices or structs holding the same address alias the same cell, exactly
  as in Go. Addresses are non-nil: a nil dereference is outside the model.
* `float64` is modelled by `ℚ`, that is by exact arithmetic. Division by zero
  is `0` in `ℚ` where Go gives `NaN` or `±Inf`; statements that depend on a
  quotient say that the divisor is not zero.
* The sampler `d func() float64` is a stream `Nat → ℚ`; the store counts the
  draws made so far, and the next draw is `d s.draws`.
* A Go `(value, error)` result is an `Except GoError value`; a run-time panic
  and an exhausted fuel are the `Run.panic` and `Run.timeout` outcomes.
* `Mutate` spawns goroutines around `binaryMutation`; the embedding is the
  sequential traversal (recursive calls made in child order).
-/

namespace genetic

/-- Address of a heap cell. -/
abbrev Ptr := Nat

/-- Go `error` values that the engine can return. -/
inductive GoError where
  | ErrorInvalidQualityStandardFitness
  | ErrorInvalidPopulation
  | other (msg : String)
  deriving DecidableEq, Repr

/-- Outcome of running a piece of Go code: a result, a run-time panic, or
not enough fuel for the loop or recursion to finish. -/
inductive Run (α : Type) where
  | ok (a : α)
  | panic (msg : String)
  | timeout
  deriving DecidableEq, Repr

/-- The `Gene` struct of genetic.go; `Parent` and `Children` hold addresses,
and `Typ` is the field `Type` (a reserved word here). -/
structure Gene where
  ID : String
  Name : String
  Typ : String
  Value : ℚ
  Parent : Option Ptr
  Children : List Ptr
  deriving DecidableEq

/-- The `Chromosome` struct of genetic.go; `Root` holds the address of a gene. -/
structure Chromosome where
  ID : String
  Root : Ptr
  Fitness : ℚ
  Quality : ℚ
  deriving DecidableEq

/-- Memory and sampler state: the gene cells, the chromosome cells, the first
chromosome address not yet allocated, and the number of draws made. -/
structure Store where
  genes : Ptr → Gene
  chromosomes : Ptr → Chromosome
  next : Ptr
  draws : Nat

/-- Assignment `p.Fitness = x`. -/
def setFitness (s : Store) (p : Ptr) (x : ℚ) : Store :=
  { s with chromosomes := Function.update s.chromosomes p { s.chromosomes p with Fitness := x } }

/-- Assignment `p.Quality = x`. -/
def setQuality (s : Store) (p : Ptr) (x : ℚ) : Store :=
  { s with chromosomes := Function.update s.chromosomes p { s.chromosomes p with Quality := x } }

/-- Assignment `g.Value = x`. -/
def setValue (s : Store) (g : Ptr) (x : ℚ) : Store :=
  { s with genes := Function.update s.genes g { s.genes g with Value := x } }

/-- One call `d()` of the sampler: the value drawn and the store after it. -/
def draw (d : Nat → ℚ) (s : Store) : ℚ × Store :=
  (d s.draws, { s with draws := s.draws + 1 })

/-! ## Fitness -/

/-- Function `standardFitness` (facebook.go 104-113): with exactly one
variadic argument `q`, every chromosome of the population gets
`Fitness = Quality / q`. -/
def standardFitness (s : Store) (population : List Ptr) (q : List ℚ) : Store × Option GoError :=
  match q with
  | [q0] => (population.foldl (fun st p => setFitness st p ((st.chromosomes p).Quality / q0)) s, none)
  | _ => (s, some GoError.ErrorInvalidQualityStandardFitness)

/-- Function `sumQuality` (facebook.go 165-172). -/
def sumQuality (s : Store) (population : List Ptr) : ℚ :=
  population.foldl (fun q p => q + (s.chromosomes p).Quality) 0

/-! ## Selection -/

/-- Running sums `a += x; d[i] = a` of the loop of `cumulative`. -/
def prefixSums : ℚ → List ℚ → List ℚ
  | _, [] => []
  | a, x :: xs => (a + x) :: prefixSums (a + x) xs

/-- Function `cumulative` (facebook.go 151-163): running sums of the fitness
of all chromosomes but the last, and `1` in the last entry. On an empty
population `d[len(d)-1]` is out of range. -/
def cumulative (s : Store) (population : List Ptr) : Run (List ℚ) :=
  match population with
  | [] => Run.panic "index out of range [-1]"
  | _ => Run.ok (prefixSums 0 (population.dropLast.map (fun p => (s.chromosomes p).Fitness)) ++ [1])

/-- The loop of Go's `sort.Search`: `for i < j { h := (i+j)/2; if !f(h) { i = h+1 } else { j = h } }`.
Every iteration shrinks `j - i`, so `j - i` units of fuel run it to its end. -/
def searchLoop (f : Nat → Bool) : Nat → Nat → Nat → Nat
  | 0, i, _ => i
  | fuel + 1, i, j =>
    if i < j then
      if !f ((i + j) / 2) then searchLoop f fuel ((i + j) / 2 + 1) j
      else searchLoop f fuel i ((i + j) / 2)
    else i

/-- Go's `sort.Search(n, f)`. -/
def Search (n : Nat) (f : Nat → Bool) : Nat :=
  searchLoop f n 0 n

/-- Go's `sort.SearchFloat64s(a, x)`, which is `Search(len(a), a[i] >= x)`. -/
def SearchFloat64s (a : List ℚ) (x : ℚ) : Nat :=
  Search a.length (fun i => decide (x ≤ a.getD i 0))

/-- One element of Go's insertion sort, on the reversed sorted prefix: the
new element `x` is swapped leftwards while `less x y` holds for its left
neighbour `y`. -/
def insertLeftwards {α : Type} (less : α → α → Bool) (x : α) : List α → List α
  | [] => [x]
  | y :: ys => if less x y then y :: insertLeftwards less x ys else x :: y :: ys

/-- Go's `sort.SliceStable` as the insertion sort it runs on slices of at
most 20 elements (longer slices are insertion-sorted in blocks of 20 that
are then merged stably). -/
def SliceStable {α : Type} (less : α → α → Bool) (l : List α) : List α :=
  (l.foldl (fun acc x => insertLeftwards less x acc) []).reverse

/-- The `for i < len(selected)` loop of `standardSelection` (facebook.go
129-142), `n` iterations left: pick by binary search in the cumulative
vector, remove the pick from the working population, renormalise. -/
def selectionLoop (d : Nat → ℚ)
    (fitness : Store → List Ptr → List ℚ → Store × Option GoError) :
    Nat → Store → List Ptr → List Ptr → Run (Store × Except GoError (List Ptr))
  | 0, s, _, selected => Run.ok (s, Except.ok selected)
  | n + 1, s, population, selected =>
    match cumulative s population with
    | Run.panic msg => Run.panic msg
    | Run.timeout => Run.timeout
    | Run.ok f =>
      let idx := SearchFloat64s f (draw d s).1
      let s1 := (draw d s).2
      match population[idx]? with
      | none => Run.panic "index out of range"
      | some c =>
        let population1 :=
          if idx = population.length then population.take (idx - 1)
          else population.take idx ++ population.drop (idx + 1)
        match fitness s1 population1 [sumQuality s1 population1] with
        | (s2, some err) => Run.ok (s2, Except.error err)
        | (s2, none) => selectionLoop d fitness n s2 population1 (selected ++ [c])

/-- Function `standardSelection` (facebook.go 119-149). -/
def standardSelection (s : Store) (population : List Ptr) (size : Int) (d : Nat → ℚ)
    (fitness : Store → List Ptr → List ℚ → Store × Option GoError) :
    Run (Store × Except GoError (List Ptr)) :=
  if (population.length : Int) = size then Run.ok (s, Except.ok population)
  else if (population.length : Int) < size then Run.ok (s, Except.error GoError.ErrorInvalidPopulation)
  else if size < 0 then Run.panic "makeslice: len out of range"
  else
    match selectionLoop d fitness size.toNat s population [] with
    | Run.ok (s1, Except.ok selected) =>
      Run.ok (s1, Except.ok
        (SliceStable (fun a b => decide ((s1.chromosomes b).Quality < (s1.chromosomes a).Quality)) selected))
    | r => r

/-! ## Genesis -/

/-- Statement `result[t] = append(result[t], g)` on a `map[string][]*Gene`;
a key that was never written reads as the empty slice. -/
def appendGene (result : String → List Ptr) (t : String) (g : Ptr) : String → List Ptr :=
  Function.update result t (result t ++ [g])

/-- The `for` loop of `Genesis` (facebook.go 38-52) on the queue of gene
addresses. Indexing `queue[0]` on an empty queue panics. -/
def genesisLoop (s : Store) (root : Ptr) :
    Nat → List Ptr → (String → List Ptr) → Run (String → List Ptr)
  | 0, _, _ => Run.timeout
  | fuel + 1, queue, result =>
    match queue with
    | [] => Run.panic "index out of range [0] with length 0"
    | q0 :: rest =>
      if (q0 :: rest).length = 1 ∧ q0 ≠ root then
        if (s.genes q0).ID ≠ "" ∧ (s.genes q0).Value = 1 then
          Run.ok (appendGene result (s.genes q0).Typ q0)
        else Run.ok result
      else
        genesisLoop s root fuel (rest ++ (s.genes q0).Children)
          (if (s.genes q0).ID ≠ "" then
            if (s.genes q0).Value = 1 then appendGene result (s.genes q0).Typ q0 else result
          else result)

/-! ## Mutation -/

/-- Lines 71-79 of `binaryMutation`: a gene with a non-empty id makes one
draw and, when the draw is at most `rate`, flips its value (1 becomes 0,
anything else becomes 1). -/
def mutateGene (d : Nat → ℚ) (rate : ℚ) (s : Store) (gene : Ptr) : Store :=
  if (s.genes gene).ID ≠ "" then
    if (draw d s).1 ≤ rate then
      if ((draw d s).2.genes gene).Value = 1 then setValue (draw d s).2 gene 0
      else setValue (draw d s).2 gene 1
    else (draw d s).2
  else s

/-- A `for` loop over the children that runs `body` on each in turn; a run
that did not finish stays as it is. -/
def forEachChild (body : Store → Ptr → Run Store) (children : List Ptr) (start : Run Store) :
    Run Store :=
  children.foldl
    (fun acc child =>
      match acc with
      | Run.ok st => body st child
      | r => r)
    start

/-- Function `binaryMutation` (facebook.go 68-87), run sequentially: the
gene itself, then its children in order. The fuel bounds the depth of the
recursion. Only `Value` fields are written, so the `Children` read by the
loop are those read at its start. -/
def binaryMutation (d : Nat → ℚ) (rate : ℚ) : Nat → Store → Ptr → Run Store
  | 0, _, _ => Run.timeout
  | fuel + 1, s, gene =>
    forEachChild (binaryMutation d rate fuel) ((mutateGene d rate s gene).genes gene).Children
      (Run.ok (mutateGene d rate s gene))

/-! ## The engine -/

/-- The `facebook` struct of facebook.go: sampler, quality oracle, fitness
and selection functions. The oracle reads the chromosome it is given. -/
structure facebook where
  distribution : Nat → ℚ
  quality : Chromosome → Except GoError ℚ
  fitness : Store → List Ptr → List ℚ → Store × Option GoError
  selection : Store → List Ptr → Int → (Nat → ℚ) →
    (Store → List Ptr → List ℚ → Store × Option GoError) →
    Run (Store × Except GoError (List Ptr))

/-- Function `generateRandom` (samplingDistributions.go 10-18) on the integer
`n` that `rand.Int(rand.Reader, big.NewInt(100))` returned, uniform in
`[0, 100)`: the float `n / 100.0`. When the random source fails the process
ends (`log.Fatal`), so there is no other outcome. -/
def generateRandom (n : Fin 100) : ℚ :=
  (n.val : ℚ) / 100

/-- Function `New` (facebook.go 25-32); `distribution` is the stream of
values that `generateRandom` returns. -/
def New (distribution : Nat → ℚ) (quality : Chromosome → Except GoError ℚ) : facebook :=
  { distribution := distribution, quality := quality,
    fitness := standardFitness, selection := standardSelection }

/-- Method `Genesis` (facebook.go 34-55). -/
def Genesis (s : Store) (c : Ptr) (fuel : Nat) : Run (String → List Ptr) :=
  genesisLoop s (s.chromosomes c).Root fuel [(s.chromosomes c).Root] (fun _ => [])

/-- Method `Mutate` (facebook.go 57-66), as the sequential traversal. -/
def Mutate (f : facebook) (s : Store) (c : Ptr) (rate : ℚ) (fuel : Nat) : Run Store :=
  binaryMutation f.distribution rate fuel s (s.chromosomes c).Root

/-- The loop of `Fitness` (facebook.go 91-98): ask the oracle, store the
quality, add it to the running sum `q`. -/
def qualityLoop (quality : Chromosome → Except GoError ℚ) :
    Store → ℚ → List Ptr → Store × Except GoError ℚ
  | s, q, [] => (s, Except.ok q)
  | s, q, p :: ps =>
    match quality (s.chromosomes p) with
    | Except.error err => (s, Except.error err)
    | Except.ok qi => qualityLoop quality (setQuality s p qi) (q + qi) ps

/-- Method `Fitness` (facebook.go 89-101). -/
def Fitness (f : facebook) (s : Store) (population : List Ptr) : Store × Option GoError :=
  match qualityLoop f.quality s 0 population with
  | (s1, Except.error err) => (s1, some err)
  | (s1, Except.ok q) => f.fitness s1 population [q]

/-- Method `Selection` (facebook.go 115-117). -/
def Selection (f : facebook) (s : Store) (population : List Ptr) (size : Int) :
    Run (Store × Except GoError (List Ptr)) :=
  f.selection s population size f.distribution standardFitness

end genetic

namespace campaign

open genetic

/-- Constant `populationSize` (create.go 19). -/
def populationSize : Nat := 30

/-- Constant `selectionSize` (create.go 20). -/
def selectionSize : Nat := 5

/-- Statement `c := *selected[idx]` followed by taking `&c`: a new
chromosome cell that holds a copy of the fields of `p`, the gene address
`Root` included. -/
def copyChromosome (s : Store) (p : Ptr) : Ptr × Store :=
  (s.next, { s with chromosomes := Function.update s.chromosomes s.next (s.chromosomes p),
                    next := s.next + 1 })

/-- The `for len(population) < populationSize` loop of `newPopulation`
(create.go 368-376). Every iteration appends one chromosome, so
`populationSize` units of fuel run it to its end; `mfuel` is the fuel of
each `Mutate`. -/
def fillLoop (g : genetic.facebook) (mutationRate : ℚ) (selected : List Ptr) (mfuel : Nat) :
    Nat → Store → List Ptr → Nat → Run (Store × List Ptr)
  | 0, _, _, _ => Run.timeout
  | fuel + 1, s, population, idx =>
    if population.length < populationSize then
      match selected[if idx = selectionSize then 0 else idx]? with
      | none => Run.panic "index out of range"
      | some p =>
        match Mutate g (copyChromosome s p).2 (copyChromosome s p).1 mutationRate mfuel with
        | Run.ok s2 =>
          fillLoop g mutationRate selected mfuel fuel s2
            (population ++ [(copyChromosome s p).1]) ((if idx = selectionSize then 0 else idx) + 1)
        | Run.panic msg => Run.panic msg
        | Run.timeout => Run.timeout
    else Run.ok (s, population)

/-- Method `newPopulation` (create.go 352-379). -/
def newPopulation (g : genetic.facebook) (s : Store) (initialPopulation : List Ptr)
    (mutationRate : ℚ) (mfuel : Nat) : Run (Store × Except GoError (List Ptr)) :=
  match Fitness g s initialPopulation with
  | (s1, some err) => Run.ok (s1, Except.error err)
  | (s1, none) =>
    match Selection g s1 initialPopulation selectionSize with
    | Run.ok (s2, Except.ok selected) =>
      match fillLoop g mutationRate selected mfuel (populationSize + 1) s2 selected 0 with
      | Run.ok (s3, population) => Run.ok (s3, Except.ok population)
      | Run.panic msg => Run.panic msg
      | Run.timeout => Run.timeout
    | r => r

end campaign

/-!
# The campaign package: requests, validation and the payloads

Further conventions

* A Go slice is a `List`; where the code or the JSON encoding tells a nil
  slice from an empty one (`SpecialAdCategory == nil`, `reflect.DeepEqual`
  against the zero `geolocation`, the targeting arrays) it is an
  `Option (List _)`, `none` being nil.
* Go `int` is `Int`; no arithmetic is done on these fields.
* `json.Marshal` cannot fail on the payload structs (strings, ints, slices and
  structs of these), so a request body is modelled by the struct itself and the
  branches for a marshalling error are left out.
-/

namespace entities

open genetic

/-- Struct `Instagram` (entities/user.go 37-40). -/
structure Instagram where
  ID : String
  Name : String
  deriving DecidableEq

/-- Struct `Page` (entities/user.go 28-34). -/
structure Page where
  Category : String
  Name : String
  ID : String
  Instagram : List Instagram
  AccessToken : String
  deriving DecidableEq

/-- Struct `AdAccount` (entities/user.go 43-48). -/
structure AdAccount where
  AccountID : String
  ID : String
  Name : String
  Currency : String
  deriving DecidableEq

/-- Struct `Facebook` (entities/user.go 20-25). -/
structure Facebook where
  ID : String
  Pages : List Page
  AdAccounts : List AdAccount
  AccessToken : String
  deriving DecidableEq

/-- Struct `Media` (entities/campaign.go 16-22). -/
structure Media where
  Title : String
  Body : String
  VideoID : String
  URL : String
  ImageHash : String
  deriving DecidableEq

/-- Struct `Campaign` (entities/campaign.go 6-13); `Targeting` holds the
addresses of the chromosomes. -/
structure Campaign where
  ID : String
  Budget : String
  StartTime : String
  EndTime : String
  Targeting : List Ptr
  Media : List Media
  deriving DecidableEq

end entities

namespace internal

/-- Struct `FacebookError` (internal/facebook.go 26-32); `Typ` is the field
`Type`. -/
structure FacebookError where
  Title : String
  Message : String
  Typ : String
  Code : Int
  SubCode : Int
  deriving DecidableEq

end internal

namespace campaign

open genetic

/-- Struct `callToActionValue` (campaign.go 49-52). -/
structure callToActionValue where
  Link : String
  Page : String
  deriving DecidableEq

/-- Struct `callToAction` (campaign.go 44-47); `Typ` is the field `Type`. -/
structure callToAction where
  Typ : String
  Value : callToActionValue
  deriving DecidableEq

/-- Element of `geolocation.Cities` (campaign.go 67-70). -/
structure city where
  Key : String
  Radius : String
  deriving DecidableEq

/-- Element of `geolocation.Regions` and of `geolocation.Zips` (campaign.go 73-78). -/
structure keyed where
  Key : String
  deriving DecidableEq

/-- Struct `geolocation` (campaign.go 66-79). -/
structure geolocation where
  Cities : Option (List city)
  CountryGroups : Option (List String)
  Countries : Option (List String)
  Regions : Option (List keyed)
  Zips : Option (List keyed)
  deriving DecidableEq

/-- Struct `Request` (campaign.go 14-42). `Gender` is a `[2]int`: a list of
integers whose length is 2. -/
structure Request where
  Name : String
  Objective : String
  Budget : String
  SpecialAdCategory : Option (List String)
  Segment : String
  MutationRate : ℚ
  PixelID : String
  StartTime : String
  EndTime : String
  Location : geolocation
  Gender : { l : List Int // l.length = 2 }
  AgeMin : Int
  AgeMax : Int
  Page : entities.Page
  CreativeName : String
  ImageHash : String
  MediaURL : String
  VideoID : String
  Title : String
  Message : String
  CallToAction : callToAction
  AdAccount : String
  deriving DecidableEq

/-- Struct `targetingByType` (campaign.go 89-95); `Typ` is the field `Type`. -/
structure targetingByType where
  RawName : String
  Name : String
  ID : String
  Typ : String
  Path : Option (List String)
  deriving DecidableEq

/-- Struct `targeting` (campaign.go 54-64). -/
structure targeting where
  GeoLocation : geolocation
  Gender : { l : List Int // l.length = 2 }
  AgeMin : Int
  AgeMax : Int
  Behaviors : Option (List targetingByType)
  Interests : Option (List targetingByType)
  LifeEvents : Option (List targetingByType)
  FamilyStatuses : Option (List targetingByType)
  Industries : Option (List targetingByType)
  deriving DecidableEq

/-- Struct `geneticTargeting` (campaign.go 81-87). -/
structure geneticTargeting where
  Behaviors : List targetingByType
  Interests : List targetingByType
  LifeEvents : List targetingByType
  FamilyStatuses : List targetingByType
  Industries : List targetingByType
  deriving DecidableEq

/-- Struct `newCampaign` (create.go 52-60). -/
structure newCampaign where
  Name : String
  Objective : String
  DailyBudget : String
  BidStrategy : String
  Status : String
  SpecialAdCategory : Option (List String)
  Token : String
  deriving DecidableEq

/-- Struct `promotedObject` (create.go 74-78). -/
structure promotedObject where
  PageID : String
  PixelID : String
  ProductSetID : String
  deriving DecidableEq

/-- Struct `newAdSet` (create.go 62-72); `Targeting` is a `*targeting`. -/
structure newAdSet where
  Name : String
  BillingEvent : String
  CampaignID : String
  PromotedObject : promotedObject
  Targeting : Option targeting
  Status : String
  StartTime : String
  EndTime : String
  AccessToken : String
  deriving DecidableEq

/-- Struct `linkData` (create.go 93-99). -/
structure linkData where
  ImageHash : String
  Link : String
  Message : String
  CallToAction : callToAction
  deriving DecidableEq

/-- Struct `videoData` (create.go 101-109). -/
structure videoData where
  ImageHash : String
  Title : String
  Message : String
  VideoID : String
  CallToAction : callToAction
  deriving DecidableEq

/-- The anonymous struct of the field `ObjectStroySpec` (create.go 85-89). -/
structure objectStroySpec where
  PageID : String
  LinkData : linkData
  VideoData : videoData
  deriving DecidableEq

/-- Struct `newCreative` (create.go 80-91). -/
structure newCreative where
  Title : String
  Name : String
  Status : String
  ObjectStroySpec : objectStroySpec
  AccessToken : String
  deriving DecidableEq

/-- Struct `creative` (create.go 111-113). -/
structure creative where
  CreativeID : String
  deriving DecidableEq

/-- Struct `newAd` (create.go 115-121). -/
structure newAd where
  Name : String
  AdsetID : String
  Creative : creative
  Status : String
  AccessToken : String
  deriving DecidableEq

/-- Go `error` values that reach the campaign package: its own sentinel
errors (create.go 23-50, quality.go 18-20), a platform error object, an error of the genetic
engine, an error of an outside collaborator, and a `*logger.Error` with its
level, message and wrapped cause `Err`; `loggedNil` is a `*logger.Error`
whose `Err` is nil. The fields `Context`, `User` and `ClientMessage` of
`logger.Error` are never read and are left out. -/
inductive Err where
  | errInvalidToken
  | errorMissingSegment
  | errorInvalidMutationRage
  | errorMissingAdAccount
  | errorMissingCampaignName
  | errorInvalidBudget
  | errorMissingSpecialAdCategory
  | errorMissingCampaignObjective
  | errorMissingStartTime
  | errorMissingEndTime
  | errorMissingLocation
  | errorMissingGender
  | errMissingAge
  | errorMissingPage
  | errorMissingCallToAction
  | errorMissingCreativeName
  | errorMissingCreativeMedia
  | errMissingAccessToken
  | platform (e : internal.FacebookError)
  | engine (e : GoError)
  | outside (msg : String)
  | logged (Level : String) (Message : String) (cause : Err)
  | loggedNil (Level : String) (Message : String)
  deriving DecidableEq

/-- Go's `<` on strings, the byte-wise lexicographic order; on UTF-8 text it
is the lexicographic order of the code points. -/
def stringLess (a b : String) : Prop :=
  a.toList < b.toList

instance (a b : String) : Decidable (stringLess a b) := by
  unfold stringLess
  infer_instance

/-- The zero value `geolocation{}`: every slice is nil. -/
def zeroGeolocation : geolocation :=
  { Cities := none, CountryGroups := none, Countries := none, Regions := none, Zips := none }

/-- The zero value `callToAction{}`. -/
def zeroCallToAction : callToAction :=
  { Typ := "", Value := { Link := "", Page := "" } }

/-- The zero value `linkData{}`. -/
def zeroLinkData : linkData :=
  { ImageHash := "", Link := "", Message := "", CallToAction := zeroCallToAction }

/-- The zero value `videoData{}`. -/
def zeroVideoData : videoData :=
  { ImageHash := "", Title := "", Message := "", VideoID := "", CallToAction := zeroCallToAction }

/-- Function `checkRequest` (create.go 242-288): the first case of the
`switch` that holds decides the error; `none` is the nil error. The constant
`0.20` is the rational 1/5. -/
def checkRequest (req : Request) : Option Err :=
  if req.Segment = "" then some Err.errorMissingSegment
  else if req.MutationRate = 0 ∨ req.MutationRate > 1 / 5 then some Err.errorInvalidMutationRage
  else if req.AdAccount = "" then some Err.errorMissingAdAccount
  else if req.Name = "" then some Err.errorMissingCampaignName
  else if stringLess req.Budget "3000" ∨ req.Budget = "" then some Err.errorInvalidBudget
  else if req.SpecialAdCategory = none then some Err.errorMissingSpecialAdCategory
  else if req.Objective = "" then some Err.errorMissingCampaignObjective
  else if req.StartTime = "" then some Err.errorMissingStartTime
  else if req.EndTime = "" then some Err.errorMissingEndTime
  else if req.Location = zeroGeolocation then some Err.errorMissingLocation
  else if req.Gender.val.length = 0 then some Err.errorMissingGender
  else if req.AgeMin = 0 ∨ req.AgeMax = 0 then some Err.errMissingAge
  else if req.Page.ID = "" then some Err.errorMissingPage
  else if req.CallToAction = zeroCallToAction then some Err.errorMissingCallToAction
  else if req.CreativeName = "" then some Err.errorMissingCreativeName
  else if req.ImageHash = "" ∧ req.VideoID = "" then some Err.errorMissingCreativeMedia
  else none

/-- Lines 518-548 of `createCreative`: the `newCreative` that is posted. -/
def buildCreative (status : String) (req : Request) (accessToken : String) : newCreative :=
  let c0 : newCreative :=
    { Title := "", Name := "", Status := "",
      ObjectStroySpec := { PageID := "", LinkData := zeroLinkData, VideoData := zeroVideoData },
      AccessToken := "" }
  let c1 := { c0 with Status := status }
  let c2 := if req.Objective = "PAGE_LIKES" then { c1 with Title := req.Title } else c1
  let c3 := { c2 with ObjectStroySpec := { c2.ObjectStroySpec with PageID := req.Page.ID } }
  let c4 :=
    if req.VideoID ≠ "" then
      { c3 with
        Name := req.CreativeName,
        ObjectStroySpec := { c3.ObjectStroySpec with
          VideoData := { c3.ObjectStroySpec.VideoData with
            ImageHash := req.ImageHash, VideoID := req.VideoID, Message := req.Message,
            CallToAction := req.CallToAction } } }
    else if req.Objective = "PAGE_LIKES" then
      { c3 with
        Name := req.CreativeName,
        ObjectStroySpec := { c3.ObjectStroySpec with
          LinkData := { c3.ObjectStroySpec.LinkData with
            ImageHash := req.ImageHash, Link := "https://facebook.com/" ++ req.Page.ID,
            Message := req.Message, CallToAction := req.CallToAction } } }
    else
      { c3 with
        Name := req.CreativeName,
        ObjectStroySpec := { c3.ObjectStroySpec with
          LinkData := { c3.ObjectStroySpec.LinkData with
            ImageHash := req.ImageHash, Link := req.CallToAction.Value.Link,
            Message := req.Message, CallToAction := req.CallToAction } } }
  { c4 with AccessToken := accessToken }

end campaign

/-!
# The campaign package: the orchestrator

The collaborators of `Create` (auth provider, platform client, store, random
source) are functions of the history of calls made so far, so that their
answers may change from call to call; every call is appended to the `log` of
the `World`. A POST is recorded with what came back: the failure of the
request, of reading the body or of decoding it, or the decoded `id` and
`error` object.
-/

namespace campaign

open genetic entities internal

/-- A call of `client.Post`: the relative path names the kind of object, the
body is the payload. -/
inductive PostRequest where
  | campaigns (adAccount : String) (body : newCampaign)
  | adsets (adAccount : String) (body : newAdSet)
  | adcreatives (adAccount : String) (body : newCreative)
  | ads (adAccount : String) (body : newAd)
  deriving DecidableEq

/-- What a POST gives: `failed` when `client.Post` returns an error,
`unreadable` when `ioutil.ReadAll` does, `undecodable` when `json.Unmarshal`
does, and otherwise the decoded struct `{ID, Error}`. -/
inductive PostResult where
  | failed (msg : String)
  | unreadable (msg : String)
  | undecodable (msg : String)
  | decoded (ID : String) (Error : Option FacebookError)
  deriving DecidableEq

/-- A call made to a collaborator. -/
inductive Event where
  | getUser (userID : String)
  | post (request : PostRequest) (result : PostResult)
  | getSegment (userID : String) (segment : String)
  | setSegment (userID : String) (segment : String) (population : List Ptr)
  | storeCampaign (userID : String) (platform : String) (adAccount : String)
      (segment : String) (c : Campaign)
  | randomName
  deriving DecidableEq

/-- The `facebook` struct of campaign.go with its collaborators: `quality` is
the oracle `f.quality.compute` as a function of the access token it holds,
`distribution` the sampler of the genetic engine `f.selection`, and
`randomName` the outcome of `rand.Read` in `randomName`. -/
structure facebook where
  status : String
  billingEvent : String
  distribution : Nat → ℚ
  quality : String → Chromosome → Except GoError ℚ
  getUser : List Event → String → Except Err (Option Facebook × Bool)
  post : List Event → PostRequest → PostResult
  getSegment : List Event → String → String → Except Err (List Ptr)
  setSegment : List Event → String → String → List Ptr → Option Err
  storeCampaign : List Event → String → String → String → String → Campaign → Option Err
  randomName : List Event → Except String String

/-- What `Create` reads and writes: the memory of genes and chromosomes, the
calls made so far, and the field `f.quality.accessToken`. -/
structure World where
  memory : Store
  log : List Event
  accessToken : String

/-- The genetic engine `f.selection` while `f.quality` holds `accessToken`. -/
def engine (f : campaign.facebook) (accessToken : String) : genetic.facebook :=
  genetic.New f.distribution (f.quality accessToken)

/-- Appends a call to the log. -/
def record (w : World) (e : Event) : World :=
  { w with log := w.log ++ [e] }

/-- Sequencing `x, err := step(); if err != nil { return nil, err }; rest`. -/
def andThen {α β : Type} (x : Run (World × Except Err α))
    (rest : World → α → Run (World × Except Err β)) : Run (World × Except Err β) :=
  match x with
  | Run.ok (w, Except.ok a) => rest w a
  | Run.ok (w, Except.error err) => Run.ok (w, Except.error err)
  | Run.panic msg => Run.panic msg
  | Run.timeout => Run.timeout

/-- Function `randomName` (utilities.go 10-22). -/
def randomName (f : campaign.facebook) (w : World) : World × Except Err String :=
  match f.randomName w.log with
  | Except.error msg =>
    (record w Event.randomName,
      Except.error (Err.logged "Panic" "Unable to generate random name." (Err.outside msg)))
  | Except.ok name => (record w Event.randomName, Except.ok name)

/-- Method `createCampaign` (create.go 290-350). -/
def createCampaign (f : campaign.facebook) (w : World)
    (adAccount name accessToken objective budget : String)
    (specialAdCategory : Option (List String)) : World × Except Err String :=
  let body : newCampaign :=
    { Name := name, Objective := objective, DailyBudget := budget,
      BidStrategy := "LOWEST_COST_WITHOUT_CAP", Status := f.status,
      SpecialAdCategory := specialAdCategory, Token := accessToken }
  let w1 := record w (Event.post (PostRequest.campaigns adAccount body)
    (f.post w.log (PostRequest.campaigns adAccount body)))
  match f.post w.log (PostRequest.campaigns adAccount body) with
  | PostResult.failed msg =>
    (w1, Except.error
      (Err.logged "Panic" "Unable to perform request to create a campaign." (Err.outside msg)))
  | PostResult.unreadable msg =>
    (w1, Except.error
      (Err.logged "Panic" "Unable to read response from request to create a campaign."
        (Err.outside msg)))
  | PostResult.undecodable msg =>
    (w1, Except.error
      (Err.logged "Panic" "Unable to unmarshal response from request to create a camapign."
        (Err.outside msg)))
  | PostResult.decoded _ (some e) =>
    (w1, Except.error
      (Err.logged "Error" "Response from the creation of a campaign contained an error."
        (Err.platform e)))
  | PostResult.decoded id none => (w1, Except.ok id)

/-- Function `setTargeting` (create.go 422-432): the id and the name of each
gene; the slice returned is never nil. -/
def setTargeting (s : Store) (genes : List Ptr) : List targetingByType :=
  genes.map (fun gene =>
    { RawName := "", Name := (s.genes gene).Name, ID := (s.genes gene).ID, Typ := "",
      Path := none })

/-- Method `createAdSet` (create.go 434-510). -/
def createAdSet (f : campaign.facebook) (w : World)
    (adAccount campaignID campaignObjective promotedObjectID startTime endTime
      accessToken : String) (t : targeting) : World × Except Err String :=
  let a0 : newAdSet :=
    { Name := "", BillingEvent := f.billingEvent, CampaignID := campaignID,
      PromotedObject := { PageID := "", PixelID := "", ProductSetID := "" },
      Targeting := some t, Status := f.status, StartTime := startTime, EndTime := endTime,
      AccessToken := accessToken }
  let a1 : newAdSet :=
    if campaignObjective = "PAGE_LIKES" then
      { a0 with PromotedObject := { PageID := promotedObjectID, PixelID := "", ProductSetID := "" } }
    else if campaignObjective = "CONVERSIONS" then
      { a0 with PromotedObject := { PageID := "", PixelID := promotedObjectID, ProductSetID := "" } }
    else a0
  match randomName f w with
  | (w1, Except.error err) => (w1, Except.error err)
  | (w1, Except.ok name) =>
    let w2 := record w1 (Event.post (PostRequest.adsets adAccount { a1 with Name := name })
      (f.post w1.log (PostRequest.adsets adAccount { a1 with Name := name })))
    match f.post w1.log (PostRequest.adsets adAccount { a1 with Name := name }) with
    | PostResult.failed msg =>
      (w2, Except.error
        (Err.logged "Panic" "Unable to perform post request to create adset." (Err.outside msg)))
    | PostResult.unreadable msg =>
      (w2, Except.error
        (Err.logged "Panic" "Unable to read response to create adset." (Err.outside msg)))
    | PostResult.undecodable msg =>
      (w2, Except.error
        (Err.logged "Panic" "Unable to unmarshal response to create adset." (Err.outside msg)))
    | PostResult.decoded _ (some e) =>
      (w2, Except.error
        (Err.logged "Error" "Response to create an adset contained an error." (Err.platform e)))
    | PostResult.decoded id none => (w2, Except.ok id)

/-- Assignment `c.ID = id` on a chromosome. -/
def setID (s : Store) (c : Ptr) (id : String) : Store :=
  { s with chromosomes := Function.update s.chromosomes c { s.chromosomes c with ID := id } }

/-- The targeting built for chromosome `c` in `createAdSets` (create.go
384-409). The four goroutines write four different fields and are waited
for: `Behaviors`, `LifeEvents` (from the genes of type interests),
`FamilyStatuses` and `Industries`; `Interests` is not written and stays nil. -/
def adSetTargeting (s : Store) (location : geolocation)
    (gender : { l : List Int // l.length = 2 }) (ageMin ageMax : Int)
    (genotype : String → List Ptr) : targeting :=
  { GeoLocation := location, Gender := gender, AgeMin := ageMin, AgeMax := ageMax,
    Behaviors := some (setTargeting s (genotype "behaviors")),
    Interests := none,
    LifeEvents := some (setTargeting s (genotype "interests")),
    FamilyStatuses := some (setTargeting s (genotype "family_statuses")),
    Industries := some (setTargeting s (genotype "industries")) }

/-- The loop of `createAdSets` (create.go 383-417) on the chromosomes still
to do, `adSets` holding the ids got so far; `fuel` is the fuel of `Genesis`. -/
def createAdSetsLoop (f : campaign.facebook)
    (adAccount campaignID campaignObjective promotedObject startTime endTime
      accessToken : String) (location : geolocation)
    (gender : { l : List Int // l.length = 2 }) (ageMin ageMax : Int) (fuel : Nat) :
    World → List Ptr → List String → Run (World × Except Err (List String))
  | w, [], adSets => Run.ok (w, Except.ok adSets)
  | w, c :: rest, adSets =>
    match Genesis w.memory c fuel with
    | Run.panic msg => Run.panic msg
    | Run.timeout => Run.timeout
    | Run.ok genotype =>
      match createAdSet f w adAccount campaignID campaignObjective promotedObject startTime
          endTime accessToken (adSetTargeting w.memory location gender ageMin ageMax genotype) with
      | (w1, Except.error err) => Run.ok (w1, Except.error err)
      | (w1, Except.ok adSetID) =>
        createAdSetsLoop f adAccount campaignID campaignObjective promotedObject startTime
          endTime accessToken location gender ageMin ageMax fuel
          { w1 with memory := setID w1.memory c adSetID } rest (adSets ++ [adSetID])

/-- Method `createAdSets` (create.go 381-420). -/
def createAdSets (f : campaign.facebook) (w : World)
    (adAccount campaignID campaignObjective promotedObject startTime endTime
      accessToken : String) (location : geolocation)
    (gender : { l : List Int // l.length = 2 }) (ageMin ageMax : Int)
    (population : List Ptr) (fuel : Nat) : Run (World × Except Err (List String)) :=
  createAdSetsLoop f adAccount campaignID campaignObjective promotedObject startTime endTime
    accessToken location gender ageMin ageMax fuel w population []

/-- Method `createCreative` (create.go 512-593). -/
def createCreative (f : campaign.facebook) (w : World) (req : Request)
    (accessToken : String) : World × Except Err String :=
  let body := buildCreative f.status req accessToken
  let w1 := record w (Event.post (PostRequest.adcreatives req.AdAccount body)
    (f.post w.log (PostRequest.adcreatives req.AdAccount body)))
  match f.post w.log (PostRequest.adcreatives req.AdAccount body) with
  | PostResult.failed msg =>
    (w1, Except.error
      (Err.logged "Panic" "Unable to perform request to create creative." (Err.outside msg)))
  | PostResult.unreadable msg =>
    (w1, Except.error
      (Err.logged "Panic" "Unable to read response from request to create creative."
        (Err.outside msg)))
  | PostResult.undecodable msg =>
    (w1, Except.error
      (Err.logged "Panic" "Unable to unmarshal result from request to create creative."
        (Err.outside msg)))
  | PostResult.decoded _ (some e) =>
    (w1, Except.error
      (Err.logged "Error" "The response to create a creative contained an error."
        (Err.platform e)))
  | PostResult.decoded id none => (w1, Except.ok id)

/-- Method `createAd` (create.go 608-671). When the response carries an error
object the `logger.Error` is built with `Err: err`, and `err`, last assigned
by `json.Unmarshal`, is nil there. -/
def createAd (f : campaign.facebook) (w : World)
    (adAccount adsetID creativeID accessToken : String) : World × Except Err String :=
  match randomName f w with
  | (w1, Except.error err) => (w1, Except.error err)
  | (w1, Except.ok name) =>
    let body : newAd :=
      { Name := name, AdsetID := adsetID, Creative := { CreativeID := creativeID },
        Status := f.status, AccessToken := accessToken }
    let w2 := record w1 (Event.post (PostRequest.ads adAccount body)
      (f.post w1.log (PostRequest.ads adAccount body)))
    match f.post w1.log (PostRequest.ads adAccount body) with
    | PostResult.failed msg =>
      (w2, Except.error
        (Err.logged "Panic" "Unable to perform request to create ad." (Err.outside msg)))
    | PostResult.unreadable msg =>
      (w2, Except.error
        (Err.logged "Panic" "Unable to read response to create ad." (Err.outside msg)))
    | PostResult.undecodable msg =>
      (w2, Except.error
        (Err.logged "Panic" "Unable to unmarshal response to create ad." (Err.outside msg)))
    | PostResult.decoded _ (some _) =>
      (w2, Except.error (Err.loggedNil "Error" "The response to create an ad contained an error."))
    | PostResult.decoded id none => (w2, Except.ok id)

/-- Method `createAds` (create.go 595-606), `ads` holding the ids got so far. -/
def createAds (f : campaign.facebook) (adAccount creativeID accessToken : String) :
    World → List String → List String → World × Except Err (List String)
  | w, [], ads => (w, Except.ok ads)
  | w, adset :: rest, ads =>
    match createAd f w adAccount adset creativeID accessToken with
    | (w1, Except.error err) => (w1, Except.error err)
    | (w1, Except.ok id) => createAds f adAccount creativeID accessToken w1 rest (ads ++ [id])

/-- Lines 136-146 of `Create`: the call of the auth provider and the two
guards on its answer; the user is dereferenced afterwards, so a nil user
that is reported valid panics. -/
def getValidUser (f : campaign.facebook) (w : World) (userID : String) :
    Run (World × Except Err Facebook) :=
  match f.getUser w.log userID with
  | Except.error err => Run.ok (record w (Event.getUser userID), Except.error err)
  | Except.ok (u, valid) =>
    if valid = false then
      Run.ok (record w (Event.getUser userID),
        Except.error (Err.logged "Warning"
          "Unable to create campaign because the user access token is not valid"
          Err.errInvalidToken))
    else
      match u with
      | none => Run.panic "invalid memory address or nil pointer dereference"
      | some user => Run.ok (record w (Event.getUser userID), Except.ok user)

/-- Lines 159-166 of `Create`: the stored population of the segment. -/
def getSegment (f : campaign.facebook) (w : World) (userID segment : String) :
    Run (World × Except Err (List Ptr)) :=
  match f.getSegment w.log userID segment with
  | Except.error err =>
    Run.ok (record w (Event.getSegment userID segment),
      Except.error (Err.logged "panic" "Unable to get segment population from data base" err))
  | Except.ok population =>
    Run.ok (record w (Event.getSegment userID segment), Except.ok population)

/-- Line 169 of `Create`: the method `newPopulation` run on the memory of the
world, with the engine that holds the current access token. -/
def refresh (f : campaign.facebook) (w : World) (initialPopulation : List Ptr)
    (mutationRate : ℚ) (fuel : Nat) : Run (World × Except Err (List Ptr)) :=
  match newPopulation (engine f w.accessToken) w.memory initialPopulation mutationRate fuel with
  | Run.ok (s, Except.ok population) => Run.ok ({ w with memory := s }, Except.ok population)
  | Run.ok (s, Except.error err) => Run.ok ({ w with memory := s }, Except.error (Err.engine err))
  | Run.panic msg => Run.panic msg
  | Run.timeout => Run.timeout

/-- Lines 193-200 of `Create`. -/
def setSegment (f : campaign.facebook) (w : World) (userID segment : String)
    (population : List Ptr) : Run (World × Except Err Unit) :=
  match f.setSegment w.log userID segment population with
  | some err =>
    Run.ok (record w (Event.setSegment userID segment population),
      Except.error
        (Err.logged "panic" "Unable to update segment population in the data base" err))
  | none => Run.ok (record w (Event.setSegment userID segment population), Except.ok ())

/-- Lines 229-239 of `Create`. -/
def storeCampaign (f : campaign.facebook) (w : World) (userID adAccount segment : String)
    (c : Campaign) : Run (World × Except Err Campaign) :=
  match f.storeCampaign w.log userID "facebook" adAccount segment c with
  | some err =>
    Run.ok (record w (Event.storeCampaign userID "facebook" adAccount segment c),
      Except.error (Err.logged "panic" "Unable to store user campaign." err))
  | none =>
    Run.ok (record w (Event.storeCampaign userID "facebook" adAccount segment c), Except.ok c)

/-- Method `Create` (create.go 123-240); `fuel` is the fuel given to each
`Mutate` and each `Genesis`. -/
def Create (f : campaign.facebook) (w : World) (userID : String) (req : Request)
    (fuel : Nat) : Run (World × Except Err Campaign) :=
  match checkRequest req with
  | some err => Run.ok (w, Except.error (Err.logged "Error" "Invalid Request" err))
  | none =>
    andThen (getValidUser f w userID) fun w1 u =>
    andThen (Run.ok (createCampaign f { w1 with accessToken := u.AccessToken } req.AdAccount
      req.Name u.AccessToken req.Objective req.Budget req.SpecialAdCategory))
      fun w2 campaignID =>
    andThen (getSegment f w2 userID req.Segment) fun w3 initialPopulation =>
    andThen (refresh f w3 initialPopulation req.MutationRate fuel) fun w4 population =>
    andThen (createAdSets f w4 req.AdAccount campaignID req.Objective
      (if req.Objective = "PAGE_LIKES" then req.Page.ID
        else if req.Objective = "CONVERSIONS" then req.PixelID else "")
      req.StartTime req.EndTime u.AccessToken req.Location req.Gender req.AgeMin req.AgeMax
      population fuel) fun w5 adSets =>
    andThen (setSegment f w5 userID req.Segment population) fun w6 _ =>
    andThen (Run.ok (createCreative f w6 req u.AccessToken)) fun w7 creativeID =>
    andThen (Run.ok (createAds f req.AdAccount creativeID u.AccessToken w7 adSets []))
      fun w8 _ =>
    storeCampaign f w8 userID req.AdAccount req.Segment
      { ID := campaignID, Budget := req.Budget, StartTime := req.StartTime,
        EndTime := req.EndTime, Targeting := population,
        Media := [{ Title := req.Title, Body := req.Message, VideoID := req.VideoID,
                    URL := req.MediaURL, ImageHash := req.ImageHash }] }

end campaign

/-!
# The campaign package: the chromosome constructor

`GenerateChromosome` allocates one gene for each record of the template; the
gene of record `i` is put at the address `firstGene + i`, the addresses from
`firstGene` on being free, and the chromosome at the next free chromosome
address. Each of the five goroutines that populate the chromosome calls
`wg.Add(1)` itself, so `wg.Wait()` does not wait for a goroutine that has not
started: when `GenerateChromosome` returns, each goroutine has handled some
first elements of its array, possibly none and possibly all. How many is the
`Progress` that the embedding takes as given. The writes all store the value
1, so the order in which the goroutines run does not matter.
-/

namespace campaign

open genetic entities internal

/-- What reading and decoding `targetingTree.json` gives
(constructors.go 152-179): the records of `data`, or the failure of
`ioutil.ReadFile` or of `json.Unmarshal`. -/
inductive TemplateFile where
  | unreadable (msg : String)
  | undecodable (msg : String)
  | decoded (data : List targetingByType)
  deriving DecidableEq

/-- What the GET of `getAdSetTargeting` gives: a failure of the request, of
reading the body or of decoding it, or the decoded struct `{Targeting, Error}`
whose two fields are pointers. -/
inductive TargetingResult where
  | failed (msg : String)
  | unreadable (msg : String)
  | undecodable (msg : String)
  | decoded (Targeting : Option geneticTargeting) (Error : Option FacebookError)
  deriving DecidableEq

/-- The `constructor` struct (constructors.go 21-24) with what its file and
its client give; the field `test` only selects the path of the file. -/
structure constructor where
  template : TemplateFile
  get : String → String → TargetingResult

end campaign

/-!
# The campaign package: the quality oracle

`compute` reads the standard library through `time.Parse` and
`strconv.ParseFloat`, which are taken as given functions of the strings: the
layout `2006-01-02` has neither clock nor zone, so a parsed date is midnight
UTC of a day, kept as the number of that day; a parsed float is kept in exact
arithmetic. `Time.Sub` is the difference in nanoseconds held in an `int64`
and saturates at its bounds, about 292 years.
-/

namespace campaign

open genetic entities internal

/-- An element of `result.Data` in `compute` (quality.go 46-52). -/
structure insightsRow where
  Reach : String
  Cpm : String
  UniqueCTR : String
  DateStart : String
  DateStop : String
  deriving DecidableEq

/-- What the GET of `compute` gives: a failure of the request, of reading the
body or of decoding it, or the decoded struct `{Data, Error}`. -/
inductive InsightsResult where
  | failed (msg : String)
  | unreadable (msg : String)
  | undecodable (msg : String)
  | decoded (Data : List insightsRow) (Error : Option FacebookError)
  deriving DecidableEq

/-- The functions of the standard library that `compute` calls:
`time.Parse("2006-01-02", s)`, giving the number of the day, and
`strconv.ParseFloat(s, 64)`; each returns a value or an error. -/
structure Library where
  parseTime : String → Except String Int
  parseFloat : String → Except String ℚ

/-- The struct `q` (quality.go 22-25) with what its client gives for the
insights of an ad-set id under an access token. -/
structure q where
  get : String → String → InsightsResult
  accessToken : String

/-- Largest `time.Duration`, in nanoseconds. -/
def maxDuration : Int := 2 ^ 63 - 1

/-- Smallest `time.Duration`, in nanoseconds. -/
def minDuration : Int := -(2 ^ 63)

/-- Method `Time.Sub` on two midnights given as day numbers: the difference
`t - u` in nanoseconds, or the largest or smallest duration when the
difference does not fit. -/
def Sub (t u : Int) : Int :=
  if (t - u) * 86400000000000 > maxDuration then maxDuration
  else if (t - u) * 86400000000000 < minDuration then minDuration
  else (t - u) * 86400000000000

/-- Method `Duration.Hours`: the duration as a number of hours. -/
def Hours (d : Int) : ℚ :=
  (d : ℚ) / 3600000000000

/-- The loop over `result.Data` in `compute` (quality.go 103-146), `acc`
being the variable `q`. -/
def computeLoop (lib : Library) : List insightsRow → ℚ → Except Err ℚ
  | [], acc => Except.ok acc
  | d :: rest, acc =>
    match lib.parseTime d.DateStart with
    | Except.error msg =>
      Except.error (Err.logged "Error" "Unable to parse time of adset quality" (Err.outside msg))
    | Except.ok startTime =>
      match lib.parseTime d.DateStop with
      | Except.error msg =>
        Except.error
          (Err.logged "Error" "Unable to parse time of adset quality" (Err.outside msg))
      | Except.ok endTime =>
        match lib.parseFloat d.Reach with
        | Except.error msg =>
          Except.error (Err.logged "Error" "Unable to parse quality response data as a float."
            (Err.outside msg))
        | Except.ok reach =>
          match lib.parseFloat d.UniqueCTR with
          | Except.error msg =>
            Except.error (Err.logged "Error" "Unable to parse quality response data as a float."
              (Err.outside msg))
          | Except.ok uniqueCTR =>
            match lib.parseFloat d.Cpm with
            | Except.error msg =>
              Except.error (Err.logged "Error"
                "Unable to parse quality response data as a float." (Err.outside msg))
            | Except.ok cpm =>
              computeLoop lib rest
                (acc + (reach * uniqueCTR / cpm) / (Hours (Sub endTime startTime) / 24))

/-- Method `compute` (quality.go 39-151). -/
def compute (lib : Library) (qu : q) (c : Chromosome) : Except Err ℚ :=
  if qu.accessToken = "" then Except.error Err.errMissingAccessToken
  else
    match qu.get c.ID qu.accessToken with
    | InsightsResult.failed msg =>
      Except.error (Err.logged "Panic" "Unable to perform request to get quality of an adset."
        (Err.outside msg))
    | InsightsResult.unreadable msg =>
      Except.error (Err.logged "Panic" "Unable to read response to get quality of an adset."
        (Err.outside msg))
    | InsightsResult.undecodable msg =>
      Except.error (Err.logged "Panic"
        "Unable to unamarshal response to get a quality of an adset." (Err.outside msg))
    | InsightsResult.decoded _ (some e) =>
      Except.error (Err.logged "Error" "Response of an adset quality contained an error."
        (Err.platform e))
    | InsightsResult.decoded data none =>
      if data.length = 0 then Except.ok 0
      else
        match computeLoop lib data 0 with
        | Except.error err => Except.error err
        | Except.ok total => Except.ok (total / (data.length : ℚ))

end campaign

/-!
# The storage package: the campaigns of a segment

The DynamoDB client is taken as a function of the query: what `svc.Query`
followed by `dynamodbattribute.UnmarshalListOfMaps` gives. Every query made
is listed with the result, so that a statement can say that none was made.
-/

namespace campaigns

open genetic campaign

/-- Struct `sortKeys` (dynamo.go 28-36); `Srt` is the field `Sort` (a
reserved word here). -/
structure sortKeys where
  Partition : String
  Key : String
  Srt : String
  SecondSort : String
  ThirdSort : String
  FourthSort : String
  FifthSort : String
  deriving DecidableEq

/-- The errors of the package (dynamo.go 43-58) and those that come from the
DynamoDB client or the decoder. -/
inductive StorageError where
  | ErrorMissingUserID
  | ErrorMissingPlatform
  | ErrorMissingAdAccount
  | ErrorMissingSegment
  | ErrorInvalidCampaign
  | ErrorMissingCampaignID
  | ErrorUnableToFindCampaign
  | outside (msg : String)
  deriving DecidableEq

/-- The fields of a `dynamodb.QueryInput` that `GetSegmentCampaigns` sets. -/
structure QueryInput where
  TableName : String
  ExpressionAttributeNames : List (String × String)
  ExpressionAttributeValues : List (String × String)
  IndexName : String
  KeyConditionExpression : String
  deriving DecidableEq

/-- What a query gives: the failure of `svc.Query`, the failure of
`UnmarshalListOfMaps`, or the records decoded from `out.Items`, in the order
of the answer. -/
inductive QueryResult where
  | failed (msg : String)
  | undecodable (msg : String)
  | decoded (records : List sortKeys)
  deriving DecidableEq

/-- The struct `dynamo` (dynamo.go 17-19) with what its client answers. -/
structure dynamo where
  query : QueryInput → QueryResult

/-- Constant `TableName` (dynamo.go 40). -/
def TableName : String := "trinacia"

/-- The query that `GetSegmentCampaigns` builds (dynamo.go 397-413). -/
def segmentQuery (userID segment : String) : QueryInput :=
  { TableName := TableName,
    ExpressionAttributeNames := [("#p", "partition"), ("#s", "thirdSort")],
    ExpressionAttributeValues :=
      [(":partition", "campaigns"), (":thirdSort", userID ++ ":" ++ segment)],
    IndexName := "partition-thirdSort-index",
    KeyConditionExpression := "#p = :partition AND #s = :thirdSort" }

/-- Method `GetSegmentCampaigns` (dynamo.go 388-434): the queries made and
the result. The comparison `cIDs[i].SecondSort > cIDs[j].SecondSort` is that
of strings. For an order of this kind every stable sort returns the same
list, that of the insertion sort `SliceStable`. -/
def GetSegmentCampaigns (d : dynamo) (userID segment : String) :
    List QueryInput × Except StorageError (List String) :=
  if userID = "" then ([], Except.error StorageError.ErrorMissingUserID)
  else if segment = "" then ([], Except.error StorageError.ErrorMissingSegment)
  else
    match d.query (segmentQuery userID segment) with
    | QueryResult.failed msg =>
      ([segmentQuery userID segment], Except.error (StorageError.outside msg))
    | QueryResult.undecodable msg =>
      ([segmentQuery userID segment], Except.error (StorageError.outside msg))
    | QueryResult.decoded cIDs =>
      ([segmentQuery userID segment],
        Except.ok
          ((SliceStable (fun a b => decide (stringLess b.SecondSort a.SecondSort)) cIDs).map
            (fun keys => keys.Key)))

end campaigns

/-! # Notions used by the statements, and the populations of the tests -/

namespace genetic

/-- Stores that agree on everything except `Fitness` fields and the number
of draws made. -/
def SameUpToFitness (s s1 : Store) : Prop :=
  s1.genes = s.genes ∧ s1.next = s.next ∧
    ∀ p, (s1.chromosomes p).ID = (s.chromosomes p).ID ∧
      (s1.chromosomes p).Root = (s.chromosomes p).Root ∧
      (s1.chromosomes p).Quality = (s.chromosomes p).Quality

/-- The gene cells of the population `basicChromosome` of TestCreate
(create_test.go 408-473): chromosome `i` owns an anonymous root at address
`2 i` with one leaf of type interests and value 1 at address `2 i + 1`. -/
def basicGenes : Ptr → Gene := fun a =>
  if a % 2 = 0 then
    { ID := "", Name := "", Typ := "", Value := 0, Parent := none, Children := [a + 1] }
  else
    { ID := if a = 1 then "Unique" else if a = 3 then "UniqueTwo"
        else if a = 5 then "UniqueThree" else if a = 7 then "UniqueFour" else "UniqueFive",
      Name := "", Typ := "interests", Value := 1, Parent := none, Children := [] }

/-- The chromosome cells of `basicChromosome`, with qualities in
hundredths: 0.01, 0.02, 0.03, 0.4 and 0.51. -/
def basicChromosomes : Ptr → Chromosome := fun c =>
  { ID := toString (c + 1), Root := 2 * c, Fitness := 0,
    Quality := if c = 0 then 1 / 100 else if c = 1 then 2 / 100 else if c = 2 then 3 / 100
      else if c = 3 then 40 / 100 else 51 / 100 }

/-- The store holding `basicChromosome`: five chromosomes at addresses 0 to 4. -/
def basicStore : Store :=
  { genes := basicGenes, chromosomes := basicChromosomes, next := 5, draws := 0 }

/-- The quality oracle of the tests (create_test.go 172-178). -/
def testQuality (c : Chromosome) : Except GoError ℚ :=
  if c.Quality = 0 then Except.error (GoError.other "failing quality") else Except.ok c.Quality

/-- A chain of three genes: an anonymous root at address 0, its only child
the category `c1` at address 1, and the only child of `c1` the leaf `B`
(type behaviors, value 1) at address 2. -/
def chainGenes : Ptr → Gene := fun a =>
  if a = 0 then
    { ID := "", Name := "root", Typ := "", Value := 0, Parent := none, Children := [1] }
  else if a = 1 then
    { ID := "", Name := "c1", Typ := "", Value := 0, Parent := some 0, Children := [2] }
  else
    { ID := "B", Name := "B", Typ := "behaviors", Value := 1, Parent := some 1, Children := [] }

/-- One chromosome, at address 0, whose root is the root of the chain. -/
def chainStore : Store :=
  { genes := chainGenes,
    chromosomes := fun _ => { ID := "1", Root := 0, Fitness := 0, Quality := 0 },
    next := 1, draws := 0 }

/-- The children of the genes of `ps`, in order. -/
def childrenOf (s : Store) (ps : List Ptr) : List Ptr :=
  ps.flatMap (fun p => (s.genes p).Children)

/-- The genes `n` steps below the genes of `ps`. -/
def level (s : Store) : Nat → List Ptr → List Ptr
  | 0, ps => ps
  | n + 1, ps => level s n (childrenOf s ps)

/-- Breadth-first order below `ps`: the first `n` levels, one after the other. -/
def breadthFirst (s : Store) : Nat → List Ptr → List Ptr
  | 0, _ => []
  | n + 1, ps => ps ++ breadthFirst s n (childrenOf s ps)

/-- The genes reachable from `root` form a finite tree of fewer than `n + 1`
levels: nothing lies `n` steps below the root, and no gene is reached along
two different paths. -/
def IsGeneTree (s : Store) (root : Ptr) (n : Nat) : Prop :=
  level s n [root] = [] ∧ (breadthFirst s n [root]).Nodup

instance (s : Store) (root : Ptr) (n : Nat) : Decidable (IsGeneTree s root n) := by
  unfold IsGeneTree
  exact instDecidableAnd

/-- Test of `Genesis` for listing gene `g` under type `t`: non-empty id,
value 1 and type `t`. -/
def isActive (s : Store) (t : String) (g : Ptr) : Bool :=
  decide ((s.genes g).ID ≠ "" ∧ (s.genes g).Value = 1 ∧ (s.genes g).Typ = t)

/-- The gene cells of scenario S1: the root at address 0 has two children,
the leaf `A` (interests, value 1) at address 1 and the category `c1` at
address 2, which owns the leaf `B` (behaviors, value 0) at address 3. -/
def s1Genes : Ptr → Gene := fun a =>
  if a = 0 then
    { ID := "", Name := "root", Typ := "", Value := 0, Parent := none, Children := [1, 2] }
  else if a = 1 then
    { ID := "A", Name := "A", Typ := "interests", Value := 1, Parent := some 0, Children := [] }
  else if a = 2 then
    { ID := "", Name := "c1", Typ := "", Value := 0, Parent := some 0, Children := [3] }
  else
    { ID := "B", Name := "B", Typ := "behaviors", Value := 0, Parent := some 2, Children := [] }

/-- The store of scenario S1: one chromosome, at address 0, with root 0. -/
def s1Store : Store :=
  { genes := s1Genes,
    chromosomes := fun _ => { ID := "1", Root := 0, Fitness := 0, Quality := 0 },
    next := 1, draws := 0 }

/-- Stores that agree on everything except `Value` fields and the number of
draws made. -/
def SameUpToValue (s s1 : Store) : Prop :=
  s1.chromosomes = s.chromosomes ∧ s1.next = s.next ∧
    ∀ g, (s1.genes g).ID = (s.genes g).ID ∧ (s1.genes g).Name = (s.genes g).Name ∧
      (s1.genes g).Typ = (s.genes g).Typ ∧ (s1.genes g).Parent = (s.genes g).Parent ∧
      (s1.genes g).Children = (s.genes g).Children

/-- The value of gene `g` after one flip: a gene with an empty id keeps its
value, a value 1 becomes 0 and any other value becomes 1. -/
def flipped (s : Store) (g : Ptr) : ℚ :=
  if (s.genes g).ID ≠ "" then (if (s.genes g).Value = 1 then 0 else 1) else (s.genes g).Value

/-- Number of genes of `l` that have a non-empty id. -/
def idCount (s : Store) (l : List Ptr) : Nat :=
  l.countP (fun g => decide ((s.genes g).ID ≠ ""))

/-- Every call of the quality oracle that `Fitness` makes on `population`
succeeds. -/
def oracleSucceeds (quality : Chromosome → Except GoError ℚ) (s : Store)
    (population : List Ptr) : Bool :=
  match (qualityLoop quality s 0 population).2 with
  | Except.ok _ => true
  | Except.error _ => false

/-- Three chromosomes, at addresses 0, 1 and 2, of qualities 1, 3 and 6. -/
def threeStore : Store :=
  { genes := basicGenes,
    chromosomes := fun c =>
      { ID := "", Root := 2 * c, Fitness := 0,
        Quality := if c = 0 then 1 else if c = 1 then 3 else 6 },
    next := 3, draws := 0 }

/-- Three chromosomes, at addresses 0, 1 and 2, of fitness 2, -3 and 5: the
running sums 2 and -1 do not ascend. -/
def wildStore : Store :=
  { genes := basicGenes,
    chromosomes := fun c =>
      { ID := "", Root := 2 * c,
        Fitness := if c = 0 then 2 else if c = 1 then -3 else 5, Quality := 1 },
    next := 3, draws := 0 }

/-- Three chromosomes, at addresses 0, 1 and 2, of quality 0 and fitness 0. -/
def zeroStore : Store :=
  { genes := basicGenes,
    chromosomes := fun c => { ID := "", Root := 2 * c, Fitness := 0, Quality := 0 },
    next := 3, draws := 0 }

/-- A chromosome, at address 0, whose root, the gene at address 0, has no child. -/
def bareStore : Store :=
  { genes := fun _ =>
      { ID := "", Name := "root", Typ := "", Value := 0, Parent := none, Children := [] },
    chromosomes := fun _ => { ID := "1", Root := 0, Fitness := 0, Quality := 0 },
    next := 1, draws := 0 }

end genetic

namespace campaign

open genetic entities internal

/-- The round-robin fill in the words of the specification: for each of the
`m` missing slots, slot number `j` clones `elite[j mod selectionSize]`,
applies `Mutate(clone, rate)` and appends the clone. -/
def specRoundRobinFill (g : genetic.facebook) (rate : ℚ) (elite : List Ptr) (mfuel : Nat) :
    Nat → Nat → Store → List Ptr → Run (Store × List Ptr)
  | 0, _, s, result => Run.ok (s, result)
  | m + 1, j, s, result =>
    match elite[j % selectionSize]? with
    | none => Run.panic "index out of range"
    | some e =>
      match Mutate g (copyChromosome s e).2 (copyChromosome s e).1 rate mfuel with
      | Run.ok s1 =>
        specRoundRobinFill g rate elite mfuel m (j + 1) s1 (result ++ [(copyChromosome s e).1])
      | Run.panic msg => Run.panic msg
      | Run.timeout => Run.timeout

/-- The request of the case "Conversion Image Campaign" of TestCreate
(create_test.go 494-527); the two times, taken from the clock by the test,
are fixed here. -/
def testRequest : Request :=
  { Name := "testing C", Objective := "CONVERSIONS", Budget := "3000",
    SpecialAdCategory := some [], Segment := "techUnicorn", MutationRate := 1 / 100,
    PixelID := "", StartTime := "2020-09-01 10:00:00", EndTime := "2020-09-16 15:00:00",
    Location :=
      { Cities := none, CountryGroups := none, Countries := some ["CO"], Regions := none,
        Zips := none },
    Gender := ⟨[1, 1], rfl⟩, AgeMin := 25, AgeMax := 45,
    Page :=
      { Category := "Marketing", Name := "Trinacia", ID := "trinacia official", Instagram := [],
        AccessToken := "1234" },
    CreativeName := "first campaign", ImageHash := "123412341234123",
    MediaURL := "https://trinacia.com", VideoID := "", Title := "", Message := "start now!",
    CallToAction :=
      { Typ := "BUY_NOW", Value := { Link := "https://trinacia.com", Page := "trinacia official" } },
    AdAccount := "act_1234123" }

/-- The validation in the words of the specification: the conditions in
their order, each with the error of its violation. -/
def validationRules (req : Request) : List (Bool × Err) :=
  [ (decide (req.Segment = ""), Err.errorMissingSegment),
    (decide (¬ (0 < req.MutationRate ∧ req.MutationRate ≤ 1 / 5)), Err.errorInvalidMutationRage),
    (decide (req.AdAccount = ""), Err.errorMissingAdAccount),
    (decide (req.Name = ""), Err.errorMissingCampaignName),
    (decide (stringLess req.Budget "3000"), Err.errorInvalidBudget),
    (decide (req.SpecialAdCategory = none), Err.errorMissingSpecialAdCategory),
    (decide (req.Objective = ""), Err.errorMissingCampaignObjective),
    (decide (req.StartTime = ""), Err.errorMissingStartTime),
    (decide (req.EndTime = ""), Err.errorMissingEndTime),
    (decide (req.Location = zeroGeolocation), Err.errorMissingLocation),
    (false, Err.errorMissingGender),
    (decide (req.AgeMin = 0 ∨ req.AgeMax = 0), Err.errMissingAge),
    (decide (req.Page.ID = ""), Err.errorMissingPage),
    (decide (req.CallToAction = zeroCallToAction), Err.errorMissingCallToAction),
    (decide (req.CreativeName = ""), Err.errorMissingCreativeName),
    (decide (req.ImageHash = "" ∧ req.VideoID = ""), Err.errorMissingCreativeMedia) ]

/-- The error of the first rule that is violated, if there is one. -/
def firstOf : List (Bool × Err) → Option Err
  | [] => none
  | (violated, err) :: rest => if violated = true then some err else firstOf rest

/-- The error of the first violated condition of the validation. -/
def firstViolation (req : Request) : Option Err :=
  firstOf (validationRules req)

/-- Method `testCheckCreativeRequest` of the test client (create_test.go
310-356): the message of the first `t.Fatal` that is reached, or `none` when
the creative passes every check. -/
def testCheckCreativeRequest (status : String) (c : newCreative) : Option String :=
  if c.AccessToken = "" then some "Missing access token to create creative"
  else if c.Status ≠ status then some "Missmatch status variable"
  else if c.ObjectStroySpec.LinkData ≠ zeroLinkData then
    if c.ObjectStroySpec.LinkData.CallToAction.Typ = "" then
      some "Missing creative call to action type"
    else if c.ObjectStroySpec.LinkData.Link = "" then some "Missing ad creative link"
    else if c.ObjectStroySpec.LinkData.ImageHash = "" then some "Missing ad creative imash hash"
    else if c.ObjectStroySpec.LinkData.CallToAction.Typ = "LIKE_PAGE" then
      if c.ObjectStroySpec.LinkData.Link ≠ "https://facebook.com/" ++ c.ObjectStroySpec.PageID then
        some "Invalid link for page like creative"
      else if c.ObjectStroySpec.LinkData.CallToAction.Value.Page ≠ c.ObjectStroySpec.PageID then
        some "Invalid object story spec value for a page like creative"
      else none
    else if c.ObjectStroySpec.LinkData.CallToAction.Typ ≠ "NO_BUTTON" ∧
        c.ObjectStroySpec.LinkData.CallToAction.Value.Link = "" then
      some "Missing creative call to action link value"
    else none
  else if c.ObjectStroySpec.VideoData ≠ zeroVideoData then
    if c.ObjectStroySpec.VideoData.VideoID = "" then some "Missing ad creative video id"
    else if c.ObjectStroySpec.VideoData.ImageHash = "" then
      some "Missing creative video thumbnail image"
    else if c.ObjectStroySpec.VideoData.CallToAction.Typ = "" then
      some "Missing ad creative call to action type"
    else if c.ObjectStroySpec.VideoData.CallToAction.Typ = "LIKE_PAGE" then
      if c.ObjectStroySpec.LinkData.CallToAction.Value.Page ≠ c.ObjectStroySpec.PageID then
        some "Invalid object story spec value for a page like creative"
      else none
    else if c.ObjectStroySpec.VideoData.CallToAction.Typ ≠ "NO_BUTTON" ∧
        c.ObjectStroySpec.VideoData.CallToAction.Value.Link = "" then
      some "Missing creative call to action link value"
    else none
  else none

/-- The answers of the test client (create_test.go 222-284) when no failure
is asked for: the id of the kind of object created, and no error object. -/
def testPost : List Event → PostRequest → PostResult
  | _, PostRequest.campaigns _ _ => PostResult.decoded "1234" none
  | _, PostRequest.adsets _ _ => PostResult.decoded "123412" none
  | _, PostRequest.adcreatives _ _ => PostResult.decoded "12341234" none
  | _, PostRequest.ads _ _ => PostResult.decoded "1234123" none

/-- The credentials `expectedAuth` of the case of TestCreate (create_test.go 486-489). -/
def testUser : Facebook :=
  { ID := "1234", Pages := [], AdAccounts := [], AccessToken := "unicorn60" }

/-- The orchestrator as `testConfig` sets it up for the case of TestCreate
(create_test.go 121-179, 482-492): valid credentials with the access token
"unicorn60", the store holding the five chromosomes of `basicChromosome`, the
oracle of the tests; the sampler draws 0.0 and every random name is the same
15 bytes. -/
def testFacebook : campaign.facebook :=
  { status := "ACTIVE", billingEvent := "IMPRESSIONS",
    distribution := fun _ => 0,
    quality := fun _ => testQuality,
    getUser := fun _ _ => Except.ok (some testUser, true),
    post := testPost,
    getSegment := fun _ _ _ => Except.ok [0, 1, 2, 3, 4],
    setSegment := fun _ _ _ _ => none,
    storeCampaign := fun _ _ _ _ _ _ => none,
    randomName := fun _ => Except.ok "0123456789abcde" }

/-- The world before the call of `Create` in TestCreate. -/
def testWorld : World :=
  { memory := basicStore, log := [], accessToken := "" }

/-- The error object of the answers `{"error":{"message":"failing operation"}}`
of the test client. -/
def failingOperation : FacebookError :=
  { Title := "", Message := "failing operation", Typ := "", Code := 0, SubCode := 0 }

/-- The orchestrator of the tests with the auth provider set to
`invalidToken` (create_test.go 401-403): the user is returned with
`valid = false`. -/
def invalidTokenFacebook : campaign.facebook :=
  { testFacebook with
    getUser := fun _ _ => Except.ok (some testUser, false) }

/-- Every record with a non-empty path names, as the last element of its
path, a record that the loop of `loadDefaultChromosome` has entered in `path`
by then: one of `known`, or an earlier record of `records` with an empty path
or an empty id, or, for a record with an empty id, the record itself. -/
def parentsKnown : List String → List targetingByType → Prop
  | _, [] => True
  | known, record :: rest =>
    if (record.Path.getD []) = [] then parentsKnown (record.Name :: known) rest
    else if record.ID = "" then
      (record.Path.getD []).getLastD "" ∈ record.Name :: known ∧
        parentsKnown (record.Name :: known) rest
    else (record.Path.getD []).getLastD "" ∈ known ∧ parentsKnown known rest

instance parentsKnownDecidable :
    (known : List String) → (records : List targetingByType) →
      Decidable (parentsKnown known records)
  | _, [] => isTrue trivial
  | known, record :: rest => by
    unfold parentsKnown
    have h1 := parentsKnownDecidable (record.Name :: known) rest
    have h2 := parentsKnownDecidable known rest
    exact inferInstance

/-- The id that an event brought back from the creation of an ad-set: the id
decoded from the answer to a POST to `adsets`. -/
def adSetID : Event → Option String
  | Event.post (PostRequest.adsets _ _) (PostResult.decoded id _) => some id
  | _ => none

/-- The ids returned by the ad-set creations among `events`, in order. -/
def adSetIDs (events : List Event) : List String :=
  events.filterMap adSetID

/-- The id that an event brought back from the creation of a campaign: the id
decoded from the answer to a POST to `campaigns`. -/
def campaignID : Event → Option String
  | Event.post (PostRequest.campaigns _ _) (PostResult.decoded id _) => some id
  | _ => none

/-- The ids returned by the campaign creations among `events`, in order. -/
def campaignIDs (events : List Event) : List String :=
  events.filterMap campaignID

/-- The day that `time.Parse` reads in `s`; 0 when it fails. -/
def dayOf (lib : Library) (s : String) : Int :=
  match lib.parseTime s with
  | Except.ok day => day
  | Except.error _ => 0

/-- The number that `strconv.ParseFloat` reads in `s`; 0 when it fails. -/
def floatOf (lib : Library) (s : String) : ℚ :=
  match lib.parseFloat s with
  | Except.ok x => x
  | Except.error _ => 0

/-- The two dates and the three numbers of the row parse. -/
def readable (lib : Library) (row : insightsRow) : Prop :=
  (∃ day, lib.parseTime row.DateStart = Except.ok day) ∧
  (∃ day, lib.parseTime row.DateStop = Except.ok day) ∧
  (∃ x, lib.parseFloat row.Reach = Except.ok x) ∧
  (∃ x, lib.parseFloat row.UniqueCTR = Except.ok x) ∧
  (∃ x, lib.parseFloat row.Cpm = Except.ok x)

/-- The number of days from `date_start` to `date_stop`. -/
def daysOf (lib : Library) (row : insightsRow) : Int :=
  dayOf lib row.DateStop - dayOf lib row.DateStart

/-- The quality of a row in the words of the specification:
`(reach * unique_ctr / cpm) / days`. -/
def specRowQuality (lib : Library) (row : insightsRow) : ℚ :=
  (floatOf lib row.Reach * floatOf lib row.UniqueCTR / floatOf lib row.Cpm) / (daysOf lib row : ℚ)

/-- A library that reads the dates 2020-09-01 and 2020-09-11, as days 18506
and 18516 since 1970-01-01, and the numbers 1000, 2.5 and 4. -/
def sampleLibrary : Library :=
  { parseTime := fun s =>
      if s = "2020-09-01" then Except.ok 18506
      else if s = "2020-09-11" then Except.ok 18516
      else Except.error "parsing time: cannot parse",
    parseFloat := fun s =>
      if s = "1000" then Except.ok 1000
      else if s = "2.5" then Except.ok (5 / 2)
      else if s = "4" then Except.ok 4
      else Except.error "strconv.ParseFloat: invalid syntax" }

/-- A row of ten days with reach 1000, unique CTR 2.5 and CPM 4. -/
def sampleRow : insightsRow :=
  { Reach := "1000", Cpm := "4", UniqueCTR := "2.5", DateStart := "2020-09-01",
    DateStop := "2020-09-11" }

/-- An oracle with the access token set whose client answers `data` and no
error object. -/
def sampleOracle (data : List insightsRow) : q :=
  { get := fun _ _ => InsightsResult.decoded data none, accessToken := "unicorn60" }

/-- The store of `basicStore` with every gene left without children: five
chromosomes at addresses 0 to 4, distinct, with the qualities of
`basicChromosome`, each with a root that has no child. -/
def childlessStore : Store :=
  { genes := fun _ =>
      { ID := "", Name := "root", Typ := "", Value := 0, Parent := none, Children := [] },
    chromosomes := basicChromosomes, next := 5, draws := 0 }

/-- The world of TestCreate with the store of childless roots. -/
def childlessWorld : World :=
  { memory := childlessStore, log := [], accessToken := "" }

end campaign

namespace campaigns

open genetic campaign

/-- The records of the case "Multiple Campaigns Under Segment" of
TestGetSegmentCampaigns (dynamo_test.go 745-782) as the query returns them:
campaign 1234, and campaign 12345 that ends two hours later; the times,
taken from the clock by the test, are fixed here. -/
def testRecords : List sortKeys :=
  [{ Partition := "campaigns", Key := "1234", Srt := "1234",
     SecondSort := "2020-09-16 15:00:00", ThirdSort := "1234:Trinacia", FourthSort := "growth",
     FifthSort := "" },
   { Partition := "campaigns", Key := "12345", Srt := "1234",
     SecondSort := "2020-09-16 17:00:00", ThirdSort := "1234:Trinacia", FourthSort := "growth",
     FifthSort := "" }]

/-- A store that answers every query with `testRecords`. -/
def testDynamo : dynamo :=
  { query := fun _ => QueryResult.decoded testRecords }

end campaigns

/-! # Theorems -/

namespace genetic

theorem searchLoop_spec (f : Nat → Bool) :
    ∀ fuel i j, i ≤ j → j - i ≤ fuel →
      i ≤ searchLoop f fuel i j ∧ searchLoop f fuel i j ≤ j ∧
      (searchLoop f fuel i j < j → f (searchLoop f fuel i j) = true) ∧
      (i < searchLoop f fuel i j → f (searchLoop f fuel i j - 1) = false) := by
  intro fuel
  induction fuel with
  | zero =>
    intro i j hij hfuel
    have : i = j := by omega
    subst this
    simp [searchLoop]
  | succ fuel ih =>
    intro i j hij hfuel
    unfold searchLoop
    by_cases hlt : i < j
    · simp only [hlt, if_true]
      have hh1 : i ≤ (i + j) / 2 := by omega
      have hh2 : (i + j) / 2 < j := by omega
      cases hf : f ((i + j) / 2) with
      | false =>
        simp only [Bool.not_false, if_true]
        obtain ⟨h1, h2, h3, h4⟩ := ih ((i + j) / 2 + 1) j (by omega) (by omega)
        refine ⟨by omega, h2, h3, ?_⟩
        intro _
        by_cases he : searchLoop f fuel ((i + j) / 2 + 1) j = (i + j) / 2 + 1
        · rw [he]; simpa using hf
        · exact h4 (by omega)
      | true =>
        simp only [Bool.not_true, Bool.false_eq_true, if_false]
        obtain ⟨h1, h2, h3, h4⟩ := ih i ((i + j) / 2) hh1 (by omega)
        refine ⟨h1, by omega, ?_, h4⟩
        intro _
        by_cases he : searchLoop f fuel i ((i + j) / 2) = (i + j) / 2
        · rw [he]; exact hf
        · exact h3 (by omega)
    · simp only [hlt, if_false]
      refine ⟨le_refl _, hij, ?_, ?_⟩
      · intro h; exact h.elim
      · intro h; omega

theorem Search_spec (n : Nat) (f : Nat → Bool) :
    Search n f ≤ n ∧ (Search n f < n → f (Search n f) = true) ∧
      (0 < Search n f → f (Search n f - 1) = false) := by
  obtain ⟨_, h2, h3, h4⟩ := searchLoop_spec f n 0 n (Nat.zero_le _) (Nat.sub_le n 0)
  exact ⟨h2, h3, h4⟩

theorem Search_lt_of_last (n : Nat) (f : Nat → Bool) (hn : 0 < n) (hlast : f (n - 1) = true) :
    Search n f < n := by
  obtain ⟨h1, _, h3⟩ := Search_spec n f
  by_contra hcon
  have he : Search n f = n := by omega
  have := h3 (by omega)
  rw [he, hlast] at this
  exact Bool.noConfusion this

theorem prefixSums_length (a : ℚ) (l : List ℚ) : (prefixSums a l).length = l.length := by
  induction l generalizing a with
  | nil => rfl
  | cons x xs ih => simp [prefixSums, ih]

theorem cumulative_ok (s : Store) (population : List Ptr) (h : population ≠ []) :
    cumulative s population =
      Run.ok (prefixSums 0 (population.dropLast.map (fun p => (s.chromosomes p).Fitness)) ++ [1]) := by
  cases population with
  | nil => exact absurd rfl h
  | cons a l => rfl

theorem cumulative_length (s : Store) (population : List Ptr) (f : List ℚ)
    (h : cumulative s population = Run.ok f) : f.length = population.length := by
  cases population with
  | nil => simp [cumulative] at h
  | cons a l =>
    simp only [cumulative, Run.ok.injEq] at h
    subst h
    simp [prefixSums_length]

theorem cumulative_last (s : Store) (population : List Ptr) (f : List ℚ)
    (h : cumulative s population = Run.ok f) : f.getD (population.length - 1) 0 = 1 := by
  cases population with
  | nil => simp [cumulative] at h
  | cons a l =>
    simp only [cumulative, Run.ok.injEq] at h
    subst h
    have hl : (prefixSums 0 (List.map (fun p => (s.chromosomes p).Fitness) (a :: l).dropLast)).length
        = (a :: l).length - 1 := by
      simp [prefixSums_length]
    have key : ∀ (l : List ℚ), (l ++ [1]).getD l.length 0 = 1 := by
      intro l
      rw [List.getD_eq_getElem?_getD, List.getElem?_append_right (le_refl _)]
      simp
    rw [← hl]
    exact key _

theorem SearchFloat64s_lt (s : Store) (population : List Ptr) (f : List ℚ) (u : ℚ)
    (h : cumulative s population = Run.ok f) (hu : u ≤ 1) :
    SearchFloat64s f u < population.length := by
  have hlen := cumulative_length s population f h
  have hlast := cumulative_last s population f h
  have hpos : 0 < population.length := by
    cases population with
    | nil => simp [cumulative] at h
    | cons a l => simp
  unfold SearchFloat64s
  rw [hlen]
  apply Search_lt_of_last _ _ hpos
  show decide (u ≤ f.getD (population.length - 1) 0) = true
  rw [hlast]
  exact decide_eq_true hu

theorem SameUpToFitness.fitnessRefl (s : Store) : SameUpToFitness s s :=
  ⟨rfl, rfl, fun _ => ⟨rfl, rfl, rfl⟩⟩

theorem SameUpToFitness.fitnessTrans {s s1 s2 : Store} (h1 : SameUpToFitness s s1)
    (h2 : SameUpToFitness s1 s2) : SameUpToFitness s s2 := by
  obtain ⟨a1, b1, c1⟩ := h1
  obtain ⟨a2, b2, c2⟩ := h2
  refine ⟨a2.trans a1, b2.trans b1, fun p => ?_⟩
  obtain ⟨x1, y1, z1⟩ := c1 p
  obtain ⟨x2, y2, z2⟩ := c2 p
  exact ⟨x2.trans x1, y2.trans y1, z2.trans z1⟩

theorem sameUpToFitness_setFitness (s : Store) (p : Ptr) (x : ℚ) :
    SameUpToFitness s (setFitness s p x) := by
  refine ⟨rfl, rfl, fun q => ?_⟩
  by_cases h : q = p
  · subst h; simp [setFitness]
  · simp [setFitness, Function.update_noteq h]

theorem sameUpToFitness_draw (d : Nat → ℚ) (s : Store) : SameUpToFitness s (draw d s).2 :=
  ⟨rfl, rfl, fun _ => ⟨rfl, rfl, rfl⟩⟩

theorem sameUpToFitness_foldl (g : Store → Ptr → ℚ) (population : List Ptr) :
    ∀ s, SameUpToFitness s (population.foldl (fun st p => setFitness st p (g st p)) s) := by
  induction population with
  | nil => intro s; exact SameUpToFitness.fitnessRefl s
  | cons a l ih =>
    intro s
    exact (sameUpToFitness_setFitness s a (g s a)).fitnessTrans (ih _)

theorem foldl_setFitness_draws (g : Store → Ptr → ℚ) (population : List Ptr) :
    ∀ s, (population.foldl (fun st p => setFitness st p (g st p)) s).draws = s.draws := by
  induction population with
  | nil => intro s; rfl
  | cons a l ih => intro s; exact (ih _).trans rfl

theorem standardFitness_one (s : Store) (population : List Ptr) (q : ℚ) :
    ∃ s1, standardFitness s population [q] = (s1, none) ∧ SameUpToFitness s s1 ∧
      s1.draws = s.draws :=
  ⟨_, rfl, sameUpToFitness_foldl (fun st p => (st.chromosomes p).Quality / q) population s,
    foldl_setFitness_draws (fun st p => (st.chromosomes p).Quality / q) population s⟩

theorem perm_pick {α : Type} (l : List α) (i : Nat) (h : i < l.length) :
    (l[i] :: (l.take i ++ l.drop (i + 1))).Perm l := by
  have h1 : l = l.take i ++ l[i] :: l.drop (i + 1) := by
    rw [← List.drop_eq_getElem_cons h, List.take_append_drop]
  exact (List.perm_middle.symm).trans (h1 ▸ List.Perm.refl _)

/-- With draws at most 1, the loop of `standardSelection` makes its `n` picks
without panic or error; the picks are taken out of the working population,
and only `Fitness` fields and the draw counter change. -/
theorem selectionLoop_picks (d : Nat → ℚ) (hd : ∀ n, d n ≤ 1) :
    ∀ n s population selected, n ≤ population.length →
      ∃ s1 picks rest,
        selectionLoop d standardFitness n s population selected
          = Run.ok (s1, Except.ok (selected ++ picks)) ∧
        picks.length = n ∧ (picks ++ rest).Perm population ∧
        SameUpToFitness s s1 ∧ s1.draws = s.draws + n := by
  intro n
  induction n with
  | zero =>
    intro s population selected _
    exact ⟨s, [], population, by simp [selectionLoop], rfl, List.Perm.refl _,
      SameUpToFitness.fitnessRefl s, rfl⟩
  | succ n ih =>
    intro s population selected hlen
    have hne : population ≠ [] := by
      intro h; rw [h] at hlen; simp at hlen
    have hcum := cumulative_ok s population hne
    have hidx := SearchFloat64s_lt s population _ (draw d s).1 hcum (hd _)
    obtain ⟨s2, hfit, hsame2, hdraws2⟩ := standardFitness_one (draw d s).2
      (population.take (SearchFloat64s
          (prefixSums 0 (population.dropLast.map (fun p => (s.chromosomes p).Fitness)) ++ [1])
          (draw d s).1) ++
        population.drop (SearchFloat64s
          (prefixSums 0 (population.dropLast.map (fun p => (s.chromosomes p).Fitness)) ++ [1])
          (draw d s).1 + 1))
      (sumQuality (draw d s).2 (population.take (SearchFloat64s
          (prefixSums 0 (population.dropLast.map (fun p => (s.chromosomes p).Fitness)) ++ [1])
          (draw d s).1) ++
        population.drop (SearchFloat64s
          (prefixSums 0 (population.dropLast.map (fun p => (s.chromosomes p).Fitness)) ++ [1])
          (draw d s).1 + 1)))
    generalize hi : SearchFloat64s
          (prefixSums 0 (population.dropLast.map (fun p => (s.chromosomes p).Fitness)) ++ [1])
          (draw d s).1 = idx at hidx hfit
    obtain ⟨s1, picks, rest, hrun, hplen, hperm, hsame, hdraws⟩ :=
      ih s2 (population.take idx ++ population.drop (idx + 1)) (selected ++ [population[idx]])
        (by simp [List.length_take, List.length_drop]; omega)
    refine ⟨s1, population[idx] :: picks, rest, ?_, by simp [hplen], ?_, ?_, ?_⟩
    · unfold selectionLoop
      rw [hcum]
      simp only [hi, List.getElem?_eq_getElem hidx, if_neg (Nat.ne_of_lt hidx), hfit]
      rw [hrun]
      simp
    · exact (List.Perm.cons _ hperm).trans (perm_pick population idx hidx)
    · exact ((sameUpToFitness_draw d s).fitnessTrans hsame2).fitnessTrans hsame
    · rw [hdraws, hdraws2]; simp [draw]; omega

/-! ### The stable sort -/

theorem insertLeftwards_perm {α : Type} (less : α → α → Bool) (x : α) (l : List α) :
    (insertLeftwards less x l).Perm (x :: l) := by
  induction l with
  | nil => exact List.Perm.refl _
  | cons y ys ih =>
    unfold insertLeftwards
    split
    · exact (List.Perm.cons y ih).trans (List.Perm.swap x y ys)
    · exact List.Perm.refl _

theorem foldl_insertLeftwards_perm {α : Type} (less : α → α → Bool) (l : List α) :
    ∀ acc, (l.foldl (fun acc x => insertLeftwards less x acc) acc).Perm (l ++ acc) := by
  induction l with
  | nil => intro acc; exact List.Perm.refl _
  | cons a l ih =>
    intro acc
    refine (ih _).trans ?_
    refine (List.Perm.append_left l (insertLeftwards_perm less a acc)).trans ?_
    exact List.perm_middle

theorem SliceStable_perm {α : Type} (less : α → α → Bool) (l : List α) :
    (SliceStable less l).Perm l := by
  unfold SliceStable
  refine (List.reverse_perm _).trans ?_
  simpa using foldl_insertLeftwards_perm less l []

theorem insertLeftwards_ascending {α : Type} (key : α → ℚ) (x : α) (l : List α)
    (h : l.Pairwise (fun a b => key a ≤ key b)) :
    (insertLeftwards (fun a b => decide (key b < key a)) x l).Pairwise
      (fun a b => key a ≤ key b) := by
  induction l with
  | nil => simp [insertLeftwards]
  | cons y ys ih =>
    unfold insertLeftwards
    rw [List.pairwise_cons] at h
    by_cases hxy : key y < key x
    · simp only [hxy, decide_True, if_true]
      rw [List.pairwise_cons]
      refine ⟨?_, ih h.2⟩
      intro b hb
      rcases List.mem_cons.mp ((insertLeftwards_perm _ x ys).subset hb) with hb1 | hb1
      · rw [hb1]; exact le_of_lt hxy
      · exact h.1 b hb1
    · simp only [hxy, decide_False, Bool.false_eq_true, if_false]
      rw [List.pairwise_cons]
      refine ⟨?_, List.pairwise_cons.mpr h⟩
      intro b hb
      rcases List.mem_cons.mp hb with hb1 | hb1
      · rw [hb1]; exact not_lt.mp hxy
      · exact le_trans (not_lt.mp hxy) (h.1 b hb1)

theorem foldl_insertLeftwards_ascending {α : Type} (key : α → ℚ) (l : List α) :
    ∀ acc, acc.Pairwise (fun a b => key a ≤ key b) →
      (l.foldl (fun acc x => insertLeftwards (fun a b => decide (key b < key a)) x acc) acc).Pairwise
        (fun a b => key a ≤ key b) := by
  induction l with
  | nil => intro acc h; exact h
  | cons a l ih => intro acc h; exact ih _ (insertLeftwards_ascending key a acc h)

/-- The stable sort by `key b < key a` returns a list in descending order of `key`. -/
theorem SliceStable_descending {α : Type} (key : α → ℚ) (l : List α) :
    (SliceStable (fun a b => decide (key b < key a)) l).Pairwise (fun a b => key b ≤ key a) := by
  unfold SliceStable
  rw [List.pairwise_reverse]
  exact foldl_insertLeftwards_ascending key l [] List.Pairwise.nil

theorem insertLeftwards_filter {α : Type} (key : α → ℚ) (v : ℚ) (x : α) (l : List α) :
    (insertLeftwards (fun a b => decide (key b < key a)) x l).filter (fun a => decide (key a = v))
      = (x :: l).filter (fun a => decide (key a = v)) := by
  induction l with
  | nil => rfl
  | cons y ys ih =>
    unfold insertLeftwards
    by_cases hxy : key y < key x
    · simp only [hxy, decide_True, if_true]
      rw [List.filter_cons, ih]
      by_cases hx : key x = v
      · have hy : ¬ key y = v := by rw [← hx]; exact ne_of_lt hxy
        simp [List.filter_cons, hx, hy]
      · simp [List.filter_cons, hx]
    · simp only [hxy, decide_False, Bool.false_eq_true, if_false]

theorem foldl_insertLeftwards_filter {α : Type} (key : α → ℚ) (v : ℚ) (l : List α) :
    ∀ acc, (l.foldl (fun acc x => insertLeftwards (fun a b => decide (key b < key a)) x acc)
        acc).filter (fun a => decide (key a = v))
      = (l.filter (fun a => decide (key a = v))).reverse ++ acc.filter (fun a => decide (key a = v)) := by
  induction l with
  | nil => intro acc; simp
  | cons a l ih =>
    intro acc
    rw [List.foldl_cons, ih, insertLeftwards_filter]
    by_cases ha : key a = v <;> simp [List.filter_cons, ha]

/-- The sort is stable: the elements of any one key value come out in the
order in which they went in. -/
theorem SliceStable_stable {α : Type} (key : α → ℚ) (v : ℚ) (l : List α) :
    (SliceStable (fun a b => decide (key b < key a)) l).filter (fun a => decide (key a = v))
      = l.filter (fun a => decide (key a = v)) := by
  unfold SliceStable
  rw [List.filter_reverse, foldl_insertLeftwards_filter]
  simp

theorem standardSelection_picks (d : Nat → ℚ) (hd : ∀ n, d n ≤ 1) (s : Store) (p : List Ptr)
    (k : Int) (hk0 : 0 ≤ k) (hk : k < p.length) :
    ∃ s1 picks rest,
      selectionLoop d standardFitness k.toNat s p [] = Run.ok (s1, Except.ok picks) ∧
      standardSelection s p k d standardFitness = Run.ok (s1, Except.ok
        (SliceStable (fun a b => decide ((s1.chromosomes b).Quality < (s1.chromosomes a).Quality))
          picks)) ∧
      picks.length = k.toNat ∧ (picks ++ rest).Perm p ∧ SameUpToFitness s s1 ∧
      s1.draws = s.draws + k.toNat := by
  obtain ⟨s1, picks, rest, hrun, hlen, hperm, hsame, hdraws⟩ :=
    selectionLoop_picks d hd k.toNat s p [] (by omega)
  rw [List.nil_append] at hrun
  refine ⟨s1, picks, rest, hrun, ?_, hlen, hperm, hsame, hdraws⟩
  unfold standardSelection
  rw [if_neg (by omega), if_neg (by omega), if_neg (by omega), hrun]

theorem standardSelection_equal (d : Nat → ℚ) (s : Store) (p : List Ptr)
    (fitness : Store → List Ptr → List ℚ → Store × Option GoError) :
    standardSelection s p p.length d fitness = Run.ok (s, Except.ok p) := by
  unfold standardSelection
  rw [if_pos rfl]

/-- C1: for a population `p` of pairwise distinct chromosomes, `0 ≤ k ≤ |p|`
and a sampler with values in `[0, 1)`, `Selection(p, k)` returns exactly `k`
chromosomes, each an element of `p`, none of them twice. -/
theorem selection_returns_k_distinct (d : Nat → ℚ) (quality : Chromosome → Except GoError ℚ)
    (s : Store) (p : List Ptr) (k : Int)
    (hp : p.Nodup) (hk0 : 0 ≤ k) (hk : k ≤ p.length) (hd : ∀ n, 0 ≤ d n ∧ d n < 1) :
    ∃ s1 r, Selection (New d quality) s p k = Run.ok (s1, Except.ok r) ∧
      (r.length : Int) = k ∧ (∀ c ∈ r, c ∈ p) ∧ r.Nodup := by
  show ∃ s1 r, standardSelection s p k d standardFitness = Run.ok (s1, Except.ok r) ∧ _
  by_cases heq : (p.length : Int) = k
  · subst heq
    exact ⟨s, p, standardSelection_equal d s p standardFitness, rfl, fun _ h => h, hp⟩
  · obtain ⟨s1, picks, rest, _, hsel, hlen, hperm, _, _⟩ :=
      standardSelection_picks d (fun n => le_of_lt (hd n).2) s p k hk0 (by omega)
    have hsort := SliceStable_perm
      (fun a b => decide ((s1.chromosomes b).Quality < (s1.chromosomes a).Quality)) picks
    refine ⟨s1, _, hsel, ?_, ?_, ?_⟩
    · rw [hsort.length_eq, hlen]; omega
    · intro c hc
      exact hperm.subset (List.mem_append_left rest (hsort.subset hc))
    · rw [hsort.nodup_iff]
      exact (List.nodup_append.mp (hperm.nodup_iff.mpr hp)).1

theorem selection_returns_k_distinct_witness :
    [0, 1, 2, 3, 4].Nodup ∧ (0 : Int) ≤ 2 ∧ (2 : Int) ≤ ([0, 1, 2, 3, 4] : List Ptr).length ∧
      (∀ n : Nat, (0 : ℚ) ≤ (fun _ => 0) n ∧ (fun _ => (0 : ℚ)) n < 1) ∧
      ∃ s1 r, Selection (New (fun _ => 0) testQuality) basicStore [0, 1, 2, 3, 4] 2
          = Run.ok (s1, Except.ok r) ∧
        (r.length : Int) = 2 ∧ (∀ c ∈ r, c ∈ [0, 1, 2, 3, 4]) ∧ r.Nodup :=
  ⟨by decide, by decide, by decide, fun _ => ⟨le_refl _, zero_lt_one⟩,
    selection_returns_k_distinct (fun _ => 0) testQuality basicStore [0, 1, 2, 3, 4] 2
      (by decide) (by decide) (by decide) (fun _ => ⟨le_refl _, zero_lt_one⟩)⟩

/-- C2, as stated, fails: on the five chromosomes of the test population, whose
qualities ascend, `Selection(p, 5)` returns `p` as it is, and `p` is not in
descending order of quality. -/
theorem selection_equal_size_not_sorted :
    Selection (New (fun _ => 0) testQuality) basicStore [0, 1, 2, 3, 4] 5
        = Run.ok (basicStore, Except.ok [0, 1, 2, 3, 4]) ∧
      ¬ ([0, 1, 2, 3, 4] : List Ptr).Pairwise
          (fun a b => (basicStore.chromosomes b).Quality ≤ (basicStore.chromosomes a).Quality) := by
  refine ⟨rfl, ?_⟩
  intro h
  have h01 := (List.pairwise_cons.mp h).1 1 (by decide)
  simp only [basicStore, basicChromosomes] at h01
  norm_num at h01

/-- C2, amended, for qualities that are numbers, held here as rationals (a
float64 NaN, which compares false both ways, is outside this statement):
when `|p| = k` the population is returned as it is; when `0 ≤ k < |p|` and
the sampler has values in `[0, 1)`, the returned list is the list of picks
sorted by quality in descending order, chromosomes of equal quality keeping
the order in which they were picked, and no quality was changed. -/
theorem selection_sorted_when_larger (d : Nat → ℚ) (quality : Chromosome → Except GoError ℚ)
    (s : Store) (p : List Ptr) :
    Selection (New d quality) s p p.length = Run.ok (s, Except.ok p) ∧
    ∀ k : Int, 0 ≤ k → k < p.length → (∀ n, 0 ≤ d n ∧ d n < 1) →
      ∃ s1 picks r,
        selectionLoop d standardFitness k.toNat s p [] = Run.ok (s1, Except.ok picks) ∧
        Selection (New d quality) s p k = Run.ok (s1, Except.ok r) ∧
        r.Pairwise (fun a b => (s1.chromosomes b).Quality ≤ (s1.chromosomes a).Quality) ∧
        r.Perm picks ∧
        (∀ v : ℚ, r.filter (fun c => decide ((s1.chromosomes c).Quality = v))
          = picks.filter (fun c => decide ((s1.chromosomes c).Quality = v))) ∧
        ∀ c, (s1.chromosomes c).Quality = (s.chromosomes c).Quality := by
  refine ⟨standardSelection_equal d s p standardFitness, ?_⟩
  intro k hk0 hk hd
  obtain ⟨s1, picks, rest, hloop, hsel, _, _, hsame, _⟩ :=
    standardSelection_picks d (fun n => le_of_lt (hd n).2) s p k hk0 hk
  exact ⟨s1, picks, _, hloop, hsel,
    SliceStable_descending (fun c => (s1.chromosomes c).Quality) picks,
    SliceStable_perm _ picks,
    fun v => SliceStable_stable (fun c => (s1.chromosomes c).Quality) v picks,
    fun c => (hsame.2.2 c).2.2⟩

theorem selection_sorted_when_larger_witness :
    (0 : Int) ≤ 2 ∧ (2 : Int) < ([0, 1, 2, 3, 4] : List Ptr).length ∧
      (∀ n : Nat, (0 : ℚ) ≤ (fun _ => 0) n ∧ (fun _ => (0 : ℚ)) n < 1) ∧
      ∃ s1 picks r,
        selectionLoop (fun _ => 0) standardFitness (2 : Int).toNat basicStore [0, 1, 2, 3, 4] []
          = Run.ok (s1, Except.ok picks) ∧
        Selection (New (fun _ => 0) testQuality) basicStore [0, 1, 2, 3, 4] 2
          = Run.ok (s1, Except.ok r) ∧
        r.Pairwise (fun a b => (s1.chromosomes b).Quality ≤ (s1.chromosomes a).Quality) ∧
        r.Perm picks ∧
        (∀ v : ℚ, r.filter (fun c => decide ((s1.chromosomes c).Quality = v))
          = picks.filter (fun c => decide ((s1.chromosomes c).Quality = v))) ∧
        ∀ c, (s1.chromosomes c).Quality = (basicStore.chromosomes c).Quality :=
  ⟨by decide, by decide, fun _ => ⟨le_refl _, zero_lt_one⟩,
    (selection_sorted_when_larger (fun _ => 0) testQuality basicStore [0, 1, 2, 3, 4]).2 2
      (by decide) (by decide) (fun _ => ⟨le_refl _, zero_lt_one⟩)⟩

/-- C3 fails on the code: in the chain root, `c1`, `B` the leaf `B` has a
non-empty id, value 1 and type behaviors, yet `Genesis` stops at `c1` (the
queue holds one gene that is not the root) and returns a grouping in which
`B` is not listed; no amount of fuel changes that. -/
theorem genesis_misses_leaf_below_single_child :
    IsGeneTree chainStore (chainStore.chromosomes 0).Root 3 ∧
      2 ∈ breadthFirst chainStore 3 [(chainStore.chromosomes 0).Root] ∧
      (chainStore.genes 2).ID = "B" ∧ (chainStore.genes 2).Value = 1 ∧
      (chainStore.genes 2).Typ = "behaviors" ∧
      ∀ fuel, ∃ r, Genesis chainStore 0 (fuel + 2) = Run.ok r ∧ r "behaviors" = [] := by
  refine ⟨by decide, by decide, rfl, rfl, rfl, fun fuel => ⟨_, rfl, rfl⟩⟩

/-! ### Gene trees and breadth-first order -/

theorem childrenOf_append (s : Store) (a b : List Ptr) :
    childrenOf s (a ++ b) = childrenOf s a ++ childrenOf s b := by
  simp [childrenOf]

theorem childrenOf_singleton (s : Store) (x : Ptr) :
    childrenOf s [x] = (s.genes x).Children := by
  simp [childrenOf]

theorem level_nil (s : Store) : ∀ n, level s n [] = [] := by
  intro n
  induction n with
  | zero => rfl
  | succ n ih => simpa [level, childrenOf] using ih

theorem breadthFirst_nil (s : Store) : ∀ n, breadthFirst s n [] = [] := by
  intro n
  induction n with
  | zero => rfl
  | succ n ih => simpa [breadthFirst, childrenOf] using ih

theorem breadthFirst_add (s : Store) :
    ∀ a b ps, breadthFirst s (a + b) ps = breadthFirst s a ps ++ breadthFirst s b (level s a ps) := by
  intro a
  induction a with
  | zero => intro b ps; simp [breadthFirst, level]
  | succ a ih =>
    intro b ps
    rw [show a + 1 + b = (a + b) + 1 by omega]
    simp only [breadthFirst, level, ih, List.append_assoc]

/-- Whatever the number of levels asked for, the breadth-first order is a
prefix of the order of a finite structure. -/
theorem breadthFirst_initial (s : Store) (n m : Nat) (ps : List Ptr) (h : level s n ps = []) :
    breadthFirst s m ps <+: breadthFirst s n ps := by
  rcases Nat.le_total m n with hmn | hmn
  · obtain ⟨j, rfl⟩ := Nat.exists_eq_add_of_le hmn
    rw [breadthFirst_add]
    exact List.prefix_append _ _
  · obtain ⟨j, rfl⟩ := Nat.exists_eq_add_of_le hmn
    rw [breadthFirst_add, h, breadthFirst_nil, List.append_nil]

/-- Taking the first gene off the queue and queueing its children is one
step of the breadth-first order. -/
theorem breadthFirst_step (s : Store) :
    ∀ n a b, breadthFirst s (n + 1) (a ++ b)
      = a ++ breadthFirst s n (b ++ childrenOf s a) ++ level s n b := by
  intro n
  induction n with
  | zero => intro a b; simp [breadthFirst, level]
  | succ n ih =>
    intro a b
    have h1 : breadthFirst s (n + 1 + 1) (a ++ b)
        = (a ++ b) ++ breadthFirst s (n + 1) (childrenOf s a ++ childrenOf s b) := by
      rw [← childrenOf_append]; rfl
    have h2 : breadthFirst s (n + 1) (b ++ childrenOf s a)
        = (b ++ childrenOf s a) ++ breadthFirst s n (childrenOf s b ++ childrenOf s (childrenOf s a)) := by
      rw [← childrenOf_append]; rfl
    rw [h1, ih, h2]
    simp only [level, List.append_assoc]

theorem visit_apply (s : Store) (result : String → List Ptr) (g : Ptr) (t : String) :
    (if (s.genes g).ID ≠ "" then
        if (s.genes g).Value = 1 then appendGene result (s.genes g).Typ g else result
      else result) t = result t ++ [g].filter (isActive s t) := by
  by_cases h1 : (s.genes g).ID = ""
  · simp [h1, isActive]
  · by_cases h2 : (s.genes g).Value = 1
    · by_cases h3 : (s.genes g).Typ = t
      · subst h3
        simp [h1, h2, isActive, appendGene]
      · simp [h1, h2, h3, isActive, appendGene, Function.update_noteq (Ne.symm h3)]
    · simp [h1, h2, isActive]

/-- What the loop of `Genesis` returns: the genes it visited are a prefix
of the breadth-first order of the queue, and each type lists the visited
genes that pass the test, in the order of the visit. -/
theorem genesisLoop_spec (s : Store) (root : Ptr) :
    ∀ fuel queue result r, genesisLoop s root fuel queue result = Run.ok r →
      ∃ visited, visited <+: breadthFirst s fuel queue ∧
        ∀ t, r t = result t ++ visited.filter (isActive s t) := by
  intro fuel
  induction fuel with
  | zero => intro queue result r h; simp [genesisLoop] at h
  | succ fuel ih =>
    intro queue result r h
    cases queue with
    | nil => simp [genesisLoop] at h
    | cons q0 rest =>
      unfold genesisLoop at h
      simp only at h
      split at h
      · refine ⟨[q0], ?_, ?_⟩
        · rw [show q0 :: rest = [q0] ++ rest from rfl, breadthFirst_step, List.append_assoc]
          exact List.prefix_append _ _
        · intro t
          rw [← visit_apply]
          by_cases h1 : (s.genes q0).ID = ""
          · simp only [h1, ne_eq, not_true_eq_false, false_and, if_false, Run.ok.injEq] at h
            simp [h1, ← h]
          · by_cases h2 : (s.genes q0).Value = 1
            · simp only [h1, h2, ne_eq, not_false_eq_true, and_self, if_true, Run.ok.injEq] at h
              simp [h1, h2, ← h]
            · simp only [h1, h2, ne_eq, not_false_eq_true, and_false, if_false, Run.ok.injEq] at h
              simp [h1, h2, ← h]
      · obtain ⟨visited, hpre, hres⟩ := ih _ _ r h
        refine ⟨q0 :: visited, ?_, ?_⟩
        · rw [show q0 :: rest = [q0] ++ rest from rfl, breadthFirst_step, childrenOf_singleton,
            List.append_assoc]
          obtain ⟨tl, htl⟩ := hpre
          exact ⟨tl ++ level s fuel rest, by simp [← htl]⟩
        · intro t
          rw [hres t, visit_apply]
          simp [List.filter_cons]
          split <;> simp

/-- C4: when the genes of `c` form a finite tree and `Genesis` returns, every
gene listed under type `t` is a gene of the tree with non-empty id, value 1
and type `t`; no list has a gene twice; each list is in breadth-first order
from the root; and on the tree of scenario S1 the result is exactly
`interests ↦ [A]`. -/
theorem genesis_lists_active_genes_in_order (s : Store) (c : Ptr) (fuel n : Nat)
    (r : String → List Ptr)
    (htree : IsGeneTree s (s.chromosomes c).Root n)
    (hrun : Genesis s c fuel = Run.ok r) :
    (∀ t g, g ∈ r t → g ∈ breadthFirst s n [(s.chromosomes c).Root] ∧
      (s.genes g).ID ≠ "" ∧ (s.genes g).Value = 1 ∧ (s.genes g).Typ = t) ∧
    (∀ t, (r t).Nodup) ∧
    (∀ t, (r t).Sublist (breadthFirst s n [(s.chromosomes c).Root])) ∧
    ∀ fuel1, Genesis s1Store 0 (fuel1 + 3)
      = Run.ok (fun t => if t = "interests" then [1] else []) := by
  obtain ⟨visited, hpre, hres⟩ := genesisLoop_spec s _ fuel _ _ r hrun
  have hsub : ∀ t, (r t).Sublist (breadthFirst s n [(s.chromosomes c).Root]) := by
    intro t
    rw [hres t, List.nil_append]
    exact (List.filter_sublist _).trans
      ((hpre.trans (breadthFirst_initial s n fuel _ htree.1)).sublist)
  refine ⟨?_, fun t => (hsub t).nodup htree.2, hsub, ?_⟩
  · intro t g hg
    refine ⟨(hsub t).subset hg, ?_⟩
    rw [hres t, List.nil_append, List.mem_filter] at hg
    simpa [isActive] using hg.2
  · intro fuel1
    have h : Genesis s1Store 0 (fuel1 + 3) = Run.ok (appendGene (fun _ => []) "interests" 1) := rfl
    rw [h]
    congr 1
    funext t
    by_cases ht : t = "interests"
    · subst ht; simp [appendGene]
    · simp [appendGene, Function.update_noteq ht, ht]

theorem genesis_lists_active_genes_in_order_witness :
    IsGeneTree s1Store (s1Store.chromosomes 0).Root 3 ∧
      Genesis s1Store 0 3 = Run.ok (appendGene (fun _ => []) "interests" 1) ∧
      ((∀ t g, g ∈ appendGene (fun _ => []) "interests" 1 t →
        g ∈ breadthFirst s1Store 3 [(s1Store.chromosomes 0).Root] ∧
        (s1Store.genes g).ID ≠ "" ∧ (s1Store.genes g).Value = 1 ∧ (s1Store.genes g).Typ = t) ∧
      (∀ t, (appendGene (fun _ => []) "interests" 1 t).Nodup) ∧
      (∀ t, (appendGene (fun _ => []) "interests" 1 t).Sublist
        (breadthFirst s1Store 3 [(s1Store.chromosomes 0).Root])) ∧
      ∀ fuel1, Genesis s1Store 0 (fuel1 + 3)
        = Run.ok (fun t => if t = "interests" then [1] else [])) :=
  ⟨by decide, rfl,
    genesis_lists_active_genes_in_order s1Store 0 3 3 _ (by decide) rfl⟩

/-! ### Mutation -/

theorem SameUpToValue.valueRefl (s : Store) : SameUpToValue s s :=
  ⟨rfl, rfl, fun _ => ⟨rfl, rfl, rfl, rfl, rfl⟩⟩

theorem SameUpToValue.valueTrans {s s1 s2 : Store} (h1 : SameUpToValue s s1)
    (h2 : SameUpToValue s1 s2) : SameUpToValue s s2 := by
  obtain ⟨a1, b1, c1⟩ := h1
  obtain ⟨a2, b2, c2⟩ := h2
  refine ⟨a2.trans a1, b2.trans b1, fun g => ?_⟩
  obtain ⟨x1, y1, z1, u1, v1⟩ := c1 g
  obtain ⟨x2, y2, z2, u2, v2⟩ := c2 g
  exact ⟨x2.trans x1, y2.trans y1, z2.trans z1, u2.trans u1, v2.trans v1⟩

theorem sameUpToValue_setValue (s : Store) (g : Ptr) (x : ℚ) :
    SameUpToValue s (setValue s g x) := by
  refine ⟨rfl, rfl, fun q => ?_⟩
  by_cases h : q = g
  · subst h; simp [setValue]
  · simp [setValue, Function.update_noteq h]

theorem sameUpToValue_draw (d : Nat → ℚ) (s : Store) : SameUpToValue s (draw d s).2 :=
  ⟨rfl, rfl, fun _ => ⟨rfl, rfl, rfl, rfl, rfl⟩⟩

theorem mutateGene_same (d : Nat → ℚ) (rate : ℚ) (s : Store) (gene : Ptr) :
    SameUpToValue s (mutateGene d rate s gene) := by
  unfold mutateGene
  split
  · split
    · split
      · exact (sameUpToValue_draw d s).valueTrans (sameUpToValue_setValue _ gene 0)
      · exact (sameUpToValue_draw d s).valueTrans (sameUpToValue_setValue _ gene 1)
    · exact sameUpToValue_draw d s
  · exact SameUpToValue.valueRefl s

theorem childrenOf_congr {s s1 : Store} (h : SameUpToValue s s1) (ps : List Ptr) :
    childrenOf s1 ps = childrenOf s ps := by
  unfold childrenOf
  congr 1
  funext p
  exact (h.2.2 p).2.2.2.2

theorem level_congr {s s1 : Store} (h : SameUpToValue s s1) :
    ∀ n ps, level s1 n ps = level s n ps := by
  intro n
  induction n with
  | zero => intro ps; rfl
  | succ n ih => intro ps; simp only [level, childrenOf_congr h, ih]

theorem breadthFirst_congr {s s1 : Store} (h : SameUpToValue s s1) :
    ∀ n ps, breadthFirst s1 n ps = breadthFirst s n ps := by
  intro n
  induction n with
  | zero => intro ps; rfl
  | succ n ih => intro ps; simp only [breadthFirst, childrenOf_congr h, ih]

theorem idCount_congr {s s1 : Store} (h : SameUpToValue s s1) (l : List Ptr) :
    idCount s1 l = idCount s l := by
  unfold idCount
  congr 1
  funext g
  rw [(h.2.2 g).1]

theorem level_append (s : Store) :
    ∀ n a b, level s n (a ++ b) = level s n a ++ level s n b := by
  intro n
  induction n with
  | zero => intro a b; rfl
  | succ n ih => intro a b; simp only [level, childrenOf_append, ih]

theorem breadthFirst_append_perm (s : Store) :
    ∀ n a b, (breadthFirst s n (a ++ b)).Perm (breadthFirst s n a ++ breadthFirst s n b) := by
  intro n
  induction n with
  | zero => intro a b; exact List.Perm.refl _
  | succ n ih =>
    intro a b
    simp only [breadthFirst, childrenOf_append]
    refine (List.Perm.append_left (a ++ b) (ih _ _)).trans ?_
    rw [List.append_assoc, List.append_assoc]
    refine List.Perm.append_left a ?_
    rw [← List.append_assoc, ← List.append_assoc]
    exact List.Perm.append_right _ List.perm_append_comm

theorem forEachChild_nil (body : Store → Ptr → Run Store) (start : Run Store) :
    forEachChild body [] start = start := rfl

theorem forEachChild_cons (body : Store → Ptr → Run Store) (c : Ptr) (cs : List Ptr) (s : Store) :
    forEachChild body (c :: cs) (Run.ok s) = forEachChild body cs (body s c) := rfl

theorem binaryMutation_succ (d : Nat → ℚ) (rate : ℚ) (fuel : Nat) (s : Store) (gene : Ptr) :
    binaryMutation d rate (fuel + 1) s gene
      = forEachChild (binaryMutation d rate fuel) (s.genes gene).Children
          (Run.ok (mutateGene d rate s gene)) := by
  rw [← ((mutateGene_same d rate s gene).2.2 gene).2.2.2.2]
  rfl

/-- The children loop returns when the body returns on every child. -/
theorem forEachChild_returns (body : Store → Ptr → Run Store) (n : Nat)
    (hbody : ∀ s gene, level s n [gene] = [] →
      ∃ s1, body s gene = Run.ok s1 ∧ SameUpToValue s s1) :
    ∀ cs s, level s n cs = [] →
      ∃ s1, forEachChild body cs (Run.ok s) = Run.ok s1 ∧ SameUpToValue s s1 := by
  intro cs
  induction cs with
  | nil => intro s _; exact ⟨s, rfl, SameUpToValue.valueRefl s⟩
  | cons c cs ih =>
    intro s hlev
    rw [show c :: cs = [c] ++ cs from rfl, level_append, List.append_eq_nil] at hlev
    obtain ⟨s2, h2, hsame2⟩ := hbody s c hlev.1
    obtain ⟨s1, h1, hsame1⟩ := ih s2 (by rw [level_congr hsame2]; exact hlev.2)
    exact ⟨s1, by rw [forEachChild_cons, h2, h1], hsame2.valueTrans hsame1⟩

/-- On a structure with nothing `n` steps below `gene`, the traversal with
fuel `n` returns, and writes nothing but `Value` fields. -/
theorem binaryMutation_returns (d : Nat → ℚ) (rate : ℚ) :
    ∀ n s gene, level s n [gene] = [] →
      ∃ s1, binaryMutation d rate n s gene = Run.ok s1 ∧ SameUpToValue s s1 := by
  intro n
  induction n with
  | zero => intro s gene h; simp [level] at h
  | succ n ih =>
    intro s gene h
    have hs := mutateGene_same d rate s gene
    have hlev : level (mutateGene d rate s gene) n (s.genes gene).Children = [] := by
      rw [level_congr hs, ← childrenOf_singleton]; exact h
    obtain ⟨s1, h1, hsame1⟩ := forEachChild_returns (binaryMutation d rate n) n ih _ _ hlev
    exact ⟨s1, by rw [binaryMutation_succ, h1], hs.valueTrans hsame1⟩

theorem mutateGene_zero (d : Nat → ℚ) (hd : ∀ k, 0 < d k) (s : Store) (gene : Ptr) :
    (mutateGene d 0 s gene).genes = s.genes := by
  unfold mutateGene
  split
  · have h : ¬ (draw d s).1 ≤ 0 := not_le.mpr (hd s.draws)
    rw [if_neg h]; rfl
  · rfl

theorem forEachChild_genes (body : Store → Ptr → Run Store)
    (hbody : ∀ s gene s1, body s gene = Run.ok s1 → s1.genes = s.genes) :
    ∀ cs s s1, forEachChild body cs (Run.ok s) = Run.ok s1 → s1.genes = s.genes := by
  intro cs
  induction cs with
  | nil => intro s s1 h; rw [forEachChild_nil, Run.ok.injEq] at h; rw [h]
  | cons c cs ih =>
    intro s s1 h
    rw [forEachChild_cons] at h
    cases hb : body s c with
    | ok s2 =>
      rw [hb] at h
      exact (ih s2 s1 h).trans (hbody s c s2 hb)
    | panic msg =>
      rw [hb] at h
      have : ∀ l, forEachChild body l (Run.panic msg) = Run.panic msg := by
        intro l; induction l with
        | nil => rfl
        | cons a l ihl => exact ihl
      rw [this] at h
      exact Run.noConfusion h
    | timeout =>
      rw [hb] at h
      have : ∀ l, forEachChild body l Run.timeout = Run.timeout := by
        intro l; induction l with
        | nil => rfl
        | cons a l ihl => exact ihl
      rw [this] at h
      exact Run.noConfusion h

/-- With rate 0 and draws above 0 the traversal writes no gene. -/
theorem binaryMutation_zero (d : Nat → ℚ) (hd : ∀ k, 0 < d k) :
    ∀ fuel s gene s1, binaryMutation d 0 fuel s gene = Run.ok s1 → s1.genes = s.genes := by
  intro fuel
  induction fuel with
  | zero => intro s gene s1 h; exact Run.noConfusion h
  | succ fuel ih =>
    intro s gene s1 h
    rw [binaryMutation_succ] at h
    exact (forEachChild_genes _ ih _ _ _ h).trans (mutateGene_zero d hd s gene)

/-- C5, as stated, fails: on the first chromosome of the test population, with
a sampler that draws 0.0, `Mutate(c, 0.0)` changes the value of the leaf at
address 1 from 1 to 0, since the test `d() <= rate` is `0 <= 0`. -/
theorem mutate_rate_zero_flips_on_zero_draw :
    ∃ s1, Mutate (New (fun _ => 0) testQuality) basicStore 0 0 2 = Run.ok s1 ∧
      (basicStore.genes 1).Value = 1 ∧ (s1.genes 1).Value = 0 :=
  ⟨_, rfl, rfl, rfl⟩

/-- C5, amended: with a sampler whose draws are all above 0, `Mutate(c, 0.0)`
as the sequential traversal leaves every gene as it was, whenever it returns;
and it does return, with fuel `n`, when nothing lies `n` steps below the root. -/
theorem mutate_rate_zero_identity (d : Nat → ℚ) (quality : Chromosome → Except GoError ℚ)
    (s : Store) (c : Ptr) (hd : ∀ k, 0 < d k) :
    (∀ fuel s1, Mutate (New d quality) s c 0 fuel = Run.ok s1 → s1.genes = s.genes) ∧
    ∀ n, level s n [(s.chromosomes c).Root] = [] →
      ∃ s1, Mutate (New d quality) s c 0 n = Run.ok s1 ∧
        ∀ g, (s1.genes g).Value = (s.genes g).Value := by
  refine ⟨fun fuel s1 h => binaryMutation_zero d hd fuel s _ s1 h, ?_⟩
  intro n hn
  obtain ⟨s1, h1, _⟩ := binaryMutation_returns d 0 n s _ hn
  exact ⟨s1, h1, fun g => by rw [binaryMutation_zero d hd n s _ s1 h1]⟩

theorem mutate_rate_zero_identity_witness :
    (∀ k : Nat, (0 : ℚ) < (fun _ => 1 / 2) k) ∧
      level basicStore 2 [(basicStore.chromosomes 0).Root] = [] ∧
      (∀ fuel s1, Mutate (New (fun _ => 1 / 2) testQuality) basicStore 0 0 fuel = Run.ok s1 →
        s1.genes = basicStore.genes) ∧
      ∃ s1, Mutate (New (fun _ => 1 / 2) testQuality) basicStore 0 0 2 = Run.ok s1 ∧
        ∀ g, (s1.genes g).Value = (basicStore.genes g).Value :=
  ⟨fun _ => by norm_num, by decide,
    (mutate_rate_zero_identity (fun _ => 1 / 2) testQuality basicStore 0
      (fun _ => by norm_num)).1,
    (mutate_rate_zero_identity (fun _ => 1 / 2) testQuality basicStore 0
      (fun _ => by norm_num)).2 2 (by decide)⟩

theorem mutateGene_one (d : Nat → ℚ) (hd : ∀ k, d k ≤ 1) (s : Store) (gene : Ptr) :
    (∀ g, ((mutateGene d 1 s gene).genes g).Value
      = if g = gene then flipped s gene else (s.genes g).Value) ∧
    (mutateGene d 1 s gene).draws = s.draws + idCount s [gene] := by
  unfold mutateGene flipped idCount
  have h : (draw d s).1 ≤ 1 := hd s.draws
  by_cases hid : (s.genes gene).ID = ""
  · simp only [hid, ne_eq, not_true_eq_false, if_false, decide_False, List.countP_cons,
      List.countP_nil, Bool.false_eq_true, add_zero, and_true]
    intro g
    by_cases hg : g = gene
    · rw [if_pos hg, hg]
    · rw [if_neg hg]
  · simp only [ne_eq, hid, not_false_eq_true, if_true, h]
    have hv : ((draw d s).2.genes gene).Value = (s.genes gene).Value := rfl
    rw [hv]
    by_cases h1 : (s.genes gene).Value = 1
    · simp only [h1, if_true]
      refine ⟨fun g => ?_, by simp [draw, setValue, hid]⟩
      by_cases hg : g = gene
      · subst hg; simp [setValue]
      · simp [setValue, draw, Function.update_noteq hg, hg]
    · simp only [h1, if_false]
      refine ⟨fun g => ?_, by simp [draw, setValue, hid]⟩
      by_cases hg : g = gene
      · subst hg; simp [setValue]
      · simp [setValue, draw, Function.update_noteq hg, hg]

theorem flipped_congr {s s1 : Store} (h : SameUpToValue s s1) (g : Ptr)
    (hv : (s1.genes g).Value = (s.genes g).Value) : flipped s1 g = flipped s g := by
  unfold flipped
  rw [(h.2.2 g).1, hv]

/-- The children loop at rate 1, given that the body flips once every gene
of a tree: every gene below the children is flipped once, nothing else is
written, and one draw is made for each gene with a non-empty id. -/
theorem forEachChild_one (body : Store → Ptr → Run Store) (n : Nat)
    (hbody : ∀ s gene, level s n [gene] = [] → (breadthFirst s n [gene]).Nodup →
      ∃ s1, body s gene = Run.ok s1 ∧ SameUpToValue s s1 ∧
        (∀ g ∈ breadthFirst s n [gene], (s1.genes g).Value = flipped s g) ∧
        (∀ g, g ∉ breadthFirst s n [gene] → (s1.genes g).Value = (s.genes g).Value) ∧
        s1.draws = s.draws + idCount s (breadthFirst s n [gene])) :
    ∀ cs s, level s n cs = [] → (breadthFirst s n cs).Nodup →
      ∃ s1, forEachChild body cs (Run.ok s) = Run.ok s1 ∧ SameUpToValue s s1 ∧
        (∀ g ∈ breadthFirst s n cs, (s1.genes g).Value = flipped s g) ∧
        (∀ g, g ∉ breadthFirst s n cs → (s1.genes g).Value = (s.genes g).Value) ∧
        s1.draws = s.draws + idCount s (breadthFirst s n cs) := by
  intro cs
  induction cs with
  | nil =>
    intro s _ _
    refine ⟨s, rfl, SameUpToValue.valueRefl s, ?_, fun _ _ => rfl, ?_⟩
    · intro g hg; rw [breadthFirst_nil] at hg; simp at hg
    · rw [breadthFirst_nil]; simp [idCount]
  | cons c cs ih =>
    intro s hlev hnd
    have hperm := breadthFirst_append_perm s n [c] cs
    rw [show [c] ++ cs = c :: cs from rfl] at hperm
    rw [show c :: cs = [c] ++ cs from rfl, level_append, List.append_eq_nil] at hlev
    have hnd2 := hperm.nodup_iff.mp hnd
    rw [List.nodup_append] at hnd2
    obtain ⟨hndc, hndcs, hdisj⟩ := hnd2
    obtain ⟨s2, h2, hsame2, hflip2, hkeep2, hdraws2⟩ := hbody s c hlev.1 hndc
    obtain ⟨s1, h1, hsame1, hflip1, hkeep1, hdraws1⟩ :=
      ih s2 (by rw [level_congr hsame2]; exact hlev.2)
        (by rw [breadthFirst_congr hsame2]; exact hndcs)
    rw [breadthFirst_congr hsame2] at hflip1 hkeep1 hdraws1
    refine ⟨s1, by rw [forEachChild_cons, h2, h1], hsame2.valueTrans hsame1, ?_, ?_, ?_⟩
    · intro g hg
      rcases List.mem_append.mp (hperm.subset hg) with hgc | hgcs
      · rw [hkeep1 g (fun hcs => hdisj hgc hcs)]
        exact hflip2 g hgc
      · rw [hflip1 g hgcs]
        exact flipped_congr hsame2 g (hkeep2 g (fun hc => hdisj hc hgcs))
    · intro g hg
      have hc : g ∉ breadthFirst s n [c] :=
        fun h => hg (hperm.symm.subset (List.mem_append_left _ h))
      have hcs : g ∉ breadthFirst s n cs :=
        fun h => hg (hperm.symm.subset (List.mem_append_right _ h))
      rw [hkeep1 g hcs, hkeep2 g hc]
    · rw [hdraws1, hdraws2, idCount_congr hsame2]
      have : idCount s (breadthFirst s n (c :: cs))
          = idCount s (breadthFirst s n [c]) + idCount s (breadthFirst s n cs) := by
        unfold idCount
        rw [hperm.countP_eq, List.countP_append]
      omega

/-- At rate 1 with draws at most 1, the traversal of a tree flips every
gene of the tree once, writes nothing else, and makes one draw for each gene
with a non-empty id. -/
theorem binaryMutation_one (d : Nat → ℚ) (hd : ∀ k, d k ≤ 1) :
    ∀ n s gene, level s n [gene] = [] → (breadthFirst s n [gene]).Nodup →
      ∃ s1, binaryMutation d 1 n s gene = Run.ok s1 ∧ SameUpToValue s s1 ∧
        (∀ g ∈ breadthFirst s n [gene], (s1.genes g).Value = flipped s g) ∧
        (∀ g, g ∉ breadthFirst s n [gene] → (s1.genes g).Value = (s.genes g).Value) ∧
        s1.draws = s.draws + idCount s (breadthFirst s n [gene]) := by
  intro n
  induction n with
  | zero => intro s gene h; simp [level] at h
  | succ n ih =>
    intro s gene hlev hnd
    have hs := mutateGene_same d 1 s gene
    obtain ⟨hval0, hdraws0⟩ := mutateGene_one d hd s gene
    have hbf : breadthFirst s (n + 1) [gene] = gene :: breadthFirst s n (s.genes gene).Children := by
      simp [breadthFirst, childrenOf_singleton]
    rw [hbf] at hnd
    rw [List.nodup_cons] at hnd
    have hlev0 : level (mutateGene d 1 s gene) n (s.genes gene).Children = [] := by
      rw [level_congr hs, ← childrenOf_singleton]; exact hlev
    obtain ⟨s1, h1, hsame1, hflip1, hkeep1, hdraws1⟩ :=
      forEachChild_one (binaryMutation d 1 n) n ih (s.genes gene).Children _ hlev0
        (by rw [breadthFirst_congr hs]; exact hnd.2)
    rw [breadthFirst_congr hs] at hflip1 hkeep1 hdraws1
    refine ⟨s1, by rw [binaryMutation_succ, h1], hs.valueTrans hsame1, ?_, ?_, ?_⟩
    · intro g hg
      rw [hbf] at hg
      rcases List.mem_cons.mp hg with hg0 | hgc
      · subst hg0
        rw [hkeep1 g hnd.1, hval0 g, if_pos rfl]
      · have hne : g ≠ gene := fun h => hnd.1 (h ▸ hgc)
        rw [hflip1 g hgc]
        exact flipped_congr hs g (by rw [hval0 g, if_neg hne])
    · intro g hg
      rw [hbf] at hg
      have hne : g ≠ gene := fun h => hg (h ▸ List.mem_cons_self _ _)
      have hgc : g ∉ breadthFirst s n (s.genes gene).Children :=
        fun h => hg (List.mem_cons_of_mem _ h)
      rw [hkeep1 g hgc, hval0 g, if_neg hne]
    · rw [hdraws1, hdraws0, idCount_congr hs, hbf]
      unfold idCount
      rw [List.countP_cons, List.countP_cons, List.countP_nil]
      omega

/-- C6: when the genes of `c` form a finite tree and the sampler has values in
`[0, 1)`, `Mutate(c, 1.0)` as the sequential traversal returns; every gene of
the tree with a non-empty id has its value flipped (0 becomes 1, 1 becomes 0),
every gene with an empty id keeps its value, and exactly one draw was made for
each gene with a non-empty id, that is each was visited once. -/
theorem mutate_rate_one_flips_each_once (d : Nat → ℚ)
    (quality : Chromosome → Except GoError ℚ) (s : Store) (c : Ptr) (n : Nat)
    (hd : ∀ k, 0 ≤ d k ∧ d k < 1)
    (htree : IsGeneTree s (s.chromosomes c).Root n) :
    ∃ s1, Mutate (New d quality) s c 1 n = Run.ok s1 ∧
      (∀ g ∈ breadthFirst s n [(s.chromosomes c).Root], (s.genes g).ID ≠ "" →
        (s1.genes g).Value = (if (s.genes g).Value = 1 then 0 else 1) ∧
        ((s.genes g).Value = 0 → (s1.genes g).Value = 1) ∧
        ((s.genes g).Value = 1 → (s1.genes g).Value = 0)) ∧
      (∀ g, (s.genes g).ID = "" → (s1.genes g).Value = (s.genes g).Value) ∧
      s1.draws = s.draws + idCount s (breadthFirst s n [(s.chromosomes c).Root]) := by
  obtain ⟨s1, h1, _, hflip, hkeep, hdraws⟩ :=
    binaryMutation_one d (fun k => le_of_lt (hd k).2) n s _ htree.1 htree.2
  refine ⟨s1, h1, ?_, ?_, hdraws⟩
  · intro g hg hid
    have hv := hflip g hg
    rw [flipped, if_pos hid] at hv
    refine ⟨hv, fun h0 => ?_, fun h1 => ?_⟩
    · rw [hv, h0]; norm_num
    · rw [hv, h1]; norm_num
  · intro g hid
    by_cases hg : g ∈ breadthFirst s n [(s.chromosomes c).Root]
    · have hv := hflip g hg
      rw [flipped, if_neg (not_not.mpr hid)] at hv
      exact hv
    · exact hkeep g hg

theorem mutate_rate_one_flips_each_once_witness :
    (∀ k : Nat, (0 : ℚ) ≤ (fun _ => 0) k ∧ (fun _ => (0 : ℚ)) k < 1) ∧
      IsGeneTree s1Store (s1Store.chromosomes 0).Root 3 ∧
      ∃ s1, Mutate (New (fun _ => 0) testQuality) s1Store 0 1 3 = Run.ok s1 ∧
        (∀ g ∈ breadthFirst s1Store 3 [(s1Store.chromosomes 0).Root], (s1Store.genes g).ID ≠ "" →
          (s1.genes g).Value = (if (s1Store.genes g).Value = 1 then 0 else 1) ∧
          ((s1Store.genes g).Value = 0 → (s1.genes g).Value = 1) ∧
          ((s1Store.genes g).Value = 1 → (s1.genes g).Value = 0)) ∧
        (∀ g, (s1Store.genes g).ID = "" → (s1.genes g).Value = (s1Store.genes g).Value) ∧
        s1.draws = s1Store.draws
          + idCount s1Store (breadthFirst s1Store 3 [(s1Store.chromosomes 0).Root]) :=
  ⟨fun _ => ⟨le_refl _, zero_lt_one⟩, by decide,
    mutate_rate_one_flips_each_once (fun _ => 0) testQuality s1Store 0 3
      (fun _ => ⟨le_refl _, zero_lt_one⟩) (by decide)⟩

/-! ### Fitness -/

theorem setQuality_same (s : Store) (a : Ptr) (x : ℚ) :
    (setQuality s a x).genes = s.genes ∧ (setQuality s a x).next = s.next ∧
      (setQuality s a x).draws = s.draws ∧
      ((setQuality s a x).chromosomes a).Quality = x ∧
      (∀ c, c ≠ a → (setQuality s a x).chromosomes c = s.chromosomes c) ∧
      ∀ c, ((setQuality s a x).chromosomes c).ID = (s.chromosomes c).ID ∧
        ((setQuality s a x).chromosomes c).Root = (s.chromosomes c).Root ∧
        ((setQuality s a x).chromosomes c).Fitness = (s.chromosomes c).Fitness := by
  refine ⟨rfl, rfl, rfl, by simp [setQuality], ?_, ?_⟩
  · intro c hc; simp [setQuality, Function.update_noteq hc]
  · intro c
    by_cases hc : c = a
    · subst hc; simp [setQuality]
    · simp [setQuality, Function.update_noteq hc]

/-- The loop of `Fitness` on distinct chromosomes whose oracle values are
`qs`: the qualities become `qs`, the sum grows by the sum of `qs`, and
nothing else changes. -/
theorem qualityLoop_spec (quality : Chromosome → Except GoError ℚ) :
    ∀ (p : List Ptr) (qs : List ℚ) (s : Store) (q : ℚ), p.Nodup →
      p.map (fun c => quality (s.chromosomes c)) = qs.map Except.ok →
      ∃ s1, qualityLoop quality s q p = (s1, Except.ok (q + qs.sum)) ∧
        p.map (fun c => (s1.chromosomes c).Quality) = qs ∧
        (∀ c, c ∉ p → s1.chromosomes c = s.chromosomes c) ∧
        s1.genes = s.genes ∧ s1.next = s.next ∧ s1.draws = s.draws ∧
        ∀ c, (s1.chromosomes c).ID = (s.chromosomes c).ID ∧
          (s1.chromosomes c).Root = (s.chromosomes c).Root := by
  intro p
  induction p with
  | nil =>
    intro qs s q _ hq
    cases qs with
    | nil => exact ⟨s, by simp [qualityLoop], rfl, fun _ _ => rfl, rfl, rfl, rfl, fun _ => ⟨rfl, rfl⟩⟩
    | cons x xs => simp at hq
  | cons a l ih =>
    intro qs s q hnd hq
    cases qs with
    | nil => simp at hq
    | cons x xs =>
      rw [List.map_cons, List.map_cons, List.cons.injEq] at hq
      rw [List.nodup_cons] at hnd
      obtain ⟨g1, g2, g3, g4, g5, g6⟩ := setQuality_same s a x
      have hq2 : l.map (fun c => quality ((setQuality s a x).chromosomes c)) = xs.map Except.ok := by
        rw [← hq.2]
        apply List.map_congr_left
        intro c hc
        rw [g5 c (fun h => hnd.1 (h ▸ hc))]
      obtain ⟨s1, h1, hqual, hkeep, hg, hn, hdr, hid⟩ := ih xs (setQuality s a x) (q + x) hnd.2 hq2
      refine ⟨s1, ?_, ?_, ?_, hg.trans g1, hn.trans g2, hdr.trans g3, ?_⟩
      · unfold qualityLoop
        rw [hq.1]
        simp only
        rw [h1, List.sum_cons, add_assoc]
      · rw [List.map_cons, hqual, hkeep a hnd.1, g4]
      · intro c hc
        rw [List.mem_cons, not_or] at hc
        rw [hkeep c hc.2, g5 c hc.1]
      · intro c
        exact ⟨(hid c).1.trans (g6 c).1, (hid c).2.trans (g6 c).2.1⟩

/-- The loop of `standardFitness`: every chromosome of the population ends
with `Fitness = Quality / q`, and the other cells are not written. -/
theorem foldl_setFitness_spec (q : ℚ) :
    ∀ (p : List Ptr) (s : Store),
      (∀ c ∈ p, ((p.foldl (fun st c => setFitness st c ((st.chromosomes c).Quality / q))
          s).chromosomes c).Fitness = (s.chromosomes c).Quality / q) ∧
      ∀ c, c ∉ p → (p.foldl (fun st c => setFitness st c ((st.chromosomes c).Quality / q))
          s).chromosomes c = s.chromosomes c := by
  intro p
  induction p with
  | nil => intro s; exact ⟨fun c hc => by simp at hc, fun _ _ => rfl⟩
  | cons a l ih =>
    intro s
    obtain ⟨h1, h2⟩ := ih (setFitness s a ((s.chromosomes a).Quality / q))
    rw [List.foldl_cons]
    refine ⟨?_, ?_⟩
    · intro c hc
      by_cases hcl : c ∈ l
      · rw [h1 c hcl, ((sameUpToFitness_setFitness s a _).2.2 c).2.2]
      · have hca : c = a := by
          rcases List.mem_cons.mp hc with h | h
          · exact h
          · exact absurd h hcl
        rw [h2 c hcl, hca]
        simp [setFitness]
    · intro c hc
      rw [List.mem_cons, not_or] at hc
      rw [h2 c hc.2]
      simp [setFitness, Function.update_noteq hc.1]

theorem sum_map_div (qs : List ℚ) (S : ℚ) : (qs.map (fun x => x / S)).sum = qs.sum / S := by
  induction qs with
  | nil => simp
  | cons x xs ih => simp [ih, add_div]

/-- The method `Fitness` on distinct chromosomes whose oracle values are `qs`. -/
theorem Fitness_spec (d : Nat → ℚ) (quality : Chromosome → Except GoError ℚ)
    (s : Store) (p : List Ptr) (qs : List ℚ) (hp : p.Nodup)
    (hq : p.map (fun c => quality (s.chromosomes c)) = qs.map Except.ok) :
    ∃ s1, Fitness (New d quality) s p = (s1, none) ∧
      p.map (fun c => (s1.chromosomes c).Quality) = qs ∧
      p.map (fun c => (s1.chromosomes c).Fitness) = qs.map (fun x => x / qs.sum) := by
  obtain ⟨s1, h1, hqual, _, _, _, _, _⟩ := qualityLoop_spec quality p qs s 0 hp hq
  obtain ⟨f1, _⟩ := foldl_setFitness_spec (0 + qs.sum) p s1
  have hsame := sameUpToFitness_foldl (fun st c => (st.chromosomes c).Quality / (0 + qs.sum)) p s1
  refine ⟨p.foldl (fun st c => setFitness st c ((st.chromosomes c).Quality / (0 + qs.sum))) s1,
    ?_, ?_, ?_⟩
  · unfold Fitness New
    simp only [h1]
    rfl
  · have h : p.map (fun c => ((p.foldl (fun st c => setFitness st c
          ((st.chromosomes c).Quality / (0 + qs.sum))) s1).chromosomes c).Quality)
        = p.map (fun c => (s1.chromosomes c).Quality) :=
      List.map_congr_left (fun c _ => (hsame.2.2 c).2.2)
    rw [h, hqual]
  · have h : p.map (fun c => ((p.foldl (fun st c => setFitness st c
          ((st.chromosomes c).Quality / (0 + qs.sum))) s1).chromosomes c).Fitness)
        = p.map (fun c => (s1.chromosomes c).Quality / qs.sum) :=
      List.map_congr_left (fun c hc => by rw [f1 c hc, zero_add])
    have h2 := congrArg (List.map (fun x => x / qs.sum)) hqual
    rw [List.map_map] at h2
    rw [h, ← h2]
    rfl

/-- C7: on a population of distinct chromosomes for which the oracle returns
the values `qs`, of sum `S > 0`, `Fitness` returns no error, every chromosome
has the oracle's value as quality and quality / S as fitness, and the
fitnesses sum to 1; for qualities 1, 3, 6 the fitnesses are 1/10, 3/10, 6/10. -/
theorem fitness_normalises (d : Nat → ℚ) (quality : Chromosome → Except GoError ℚ)
    (s : Store) (p : List Ptr) (qs : List ℚ) (hp : p.Nodup)
    (hq : p.map (fun c => quality (s.chromosomes c)) = qs.map Except.ok)
    (hS : 0 < qs.sum) :
    (∃ s1, Fitness (New d quality) s p = (s1, none) ∧
      p.map (fun c => (s1.chromosomes c).Quality) = qs ∧
      p.map (fun c => (s1.chromosomes c).Fitness) = qs.map (fun x => x / qs.sum) ∧
      (p.map (fun c => (s1.chromosomes c).Fitness)).sum = 1) ∧
    ∃ s1, Fitness (New d testQuality) threeStore [0, 1, 2] = (s1, none) ∧
      [0, 1, 2].map (fun c => (s1.chromosomes c).Quality) = [1, 3, 6] ∧
      [0, 1, 2].map (fun c => (s1.chromosomes c).Fitness) = [1 / 10, 3 / 10, 6 / 10] := by
  constructor
  · obtain ⟨s1, h1, h2, h3⟩ := Fitness_spec d quality s p qs hp hq
    refine ⟨s1, h1, h2, h3, ?_⟩
    rw [h3, sum_map_div, div_self (ne_of_gt hS)]
  · obtain ⟨s1, h1, h2, h3⟩ := Fitness_spec d testQuality threeStore [0, 1, 2] [1, 3, 6]
      (by decide) (by simp [threeStore, testQuality])
    refine ⟨s1, h1, h2, ?_⟩
    rw [h3]
    norm_num

theorem fitness_normalises_witness :
    ([0, 1, 2] : List Ptr).Nodup ∧
      [0, 1, 2].map (fun c => testQuality (threeStore.chromosomes c))
        = ([1, 3, 6] : List ℚ).map Except.ok ∧
      (0 : ℚ) < ([1, 3, 6] : List ℚ).sum ∧
      ((∃ s1, Fitness (New (fun _ => 0) testQuality) threeStore [0, 1, 2] = (s1, none) ∧
        [0, 1, 2].map (fun c => (s1.chromosomes c).Quality) = [1, 3, 6] ∧
        [0, 1, 2].map (fun c => (s1.chromosomes c).Fitness)
          = ([1, 3, 6] : List ℚ).map (fun x => x / ([1, 3, 6] : List ℚ).sum) ∧
        ([0, 1, 2].map (fun c => (s1.chromosomes c).Fitness)).sum = 1) ∧
      ∃ s1, Fitness (New (fun _ => 0) testQuality) threeStore [0, 1, 2] = (s1, none) ∧
        [0, 1, 2].map (fun c => (s1.chromosomes c).Quality) = [1, 3, 6] ∧
        [0, 1, 2].map (fun c => (s1.chromosomes c).Fitness) = [1 / 10, 3 / 10, 6 / 10]) :=
  ⟨by decide, by simp [threeStore, testQuality], by norm_num,
    fitness_normalises (fun _ => 0) testQuality threeStore [0, 1, 2] [1, 3, 6]
      (by decide) (by simp [threeStore, testQuality]) (by norm_num)⟩

/-! ### Genesis returns -/

/-- One level further down are the children of the level. -/
theorem level_succ (s : Store) : ∀ n ps, level s (n + 1) ps = childrenOf s (level s n ps) := by
  intro n
  induction n with
  | zero => intro ps; rfl
  | succ n ih =>
    intro ps
    show level s (n + 1) (childrenOf s ps) = childrenOf s (level s n (childrenOf s ps))
    exact ih (childrenOf s ps)

/-- Below an empty level every level is empty. -/
theorem level_mono (s : Store) (ps : List Ptr) :
    ∀ n m, level s n ps = [] → n ≤ m → level s m ps = [] := by
  intro n m h hle
  induction m with
  | zero =>
    have hn : n = 0 := Nat.le_zero.mp hle
    subst hn
    exact h
  | succ m ih =>
    by_cases hnm : n = m + 1
    · subst hnm
      exact h
    · rw [level_succ, ih (by omega)]
      rfl

/-- Stores with the same children have the same breadth-first order. -/
theorem breadthFirst_of_children {s s1 : Store}
    (h : ∀ g, (s1.genes g).Children = (s.genes g).Children) :
    ∀ n ps, breadthFirst s1 n ps = breadthFirst s n ps := by
  have hc : ∀ ps, childrenOf s1 ps = childrenOf s ps := by
    intro ps
    unfold childrenOf
    congr 1
    funext p
    exact h p
  intro n
  induction n with
  | zero => intro ps; rfl
  | succ n ih => intro ps; simp only [breadthFirst, hc, ih]

/-- On a finite structure, the breadth-first order of a queue is its first
gene followed by the order of the queue that the loop of `Genesis` makes of
it, below which the structure is finite as well. -/
theorem breadthFirst_cons (s : Store) (n : Nat) (q0 : Ptr) (rest : List Ptr)
    (h : level s n (q0 :: rest) = []) :
    breadthFirst s n (q0 :: rest) = q0 :: breadthFirst s n (rest ++ (s.genes q0).Children) ∧
      level s n (rest ++ (s.genes q0).Children) = [] := by
  have happ : level s n ([q0] ++ rest) = [] := h
  rw [level_append, List.append_eq_nil] at happ
  have h1 : level s (n + 1) [q0] = [] := level_mono s [q0] n (n + 1) happ.1 (Nat.le_succ n)
  have hlev : level s n (rest ++ (s.genes q0).Children) = [] := by
    rw [level_append, happ.2, List.nil_append, ← childrenOf_singleton]
    exact h1
  refine ⟨?_, hlev⟩
  have hadd := breadthFirst_add s n 1 (q0 :: rest)
  rw [h, breadthFirst_nil, List.append_nil] at hadd
  have hstep := breadthFirst_step s n [q0] rest
  rw [happ.2, List.append_nil, childrenOf_singleton] at hstep
  rw [← hadd]
  exact hstep

/-- The loop of `Genesis` returns on a queue that is not empty and below
which the structure is finite and free of the root, with one unit of fuel
for each gene below the queue. -/
theorem genesisLoop_returns (s : Store) (root : Ptr) (n : Nat) :
    ∀ fuel queue result, queue ≠ [] → level s n queue = [] →
      root ∉ breadthFirst s n queue → (breadthFirst s n queue).length ≤ fuel →
      ∃ r, genesisLoop s root fuel queue result = Run.ok r := by
  intro fuel
  induction fuel with
  | zero =>
    intro queue result hne hlev _ hlen
    cases queue with
    | nil => exact absurd rfl hne
    | cons q0 rest =>
      rw [(breadthFirst_cons s n q0 rest hlev).1] at hlen
      simp at hlen
  | succ fuel ih =>
    intro queue result hne hlev hroot hlen
    cases queue with
    | nil => exact absurd rfl hne
    | cons q0 rest =>
      obtain ⟨hbf, hlev1⟩ := breadthFirst_cons s n q0 rest hlev
      rw [hbf] at hroot hlen
      have hq0 : q0 ≠ root := fun h => hroot (by rw [h]; exact List.mem_cons_self _ _)
      unfold genesisLoop
      cases rest with
      | nil =>
        simp only [List.length_singleton, hq0, ne_eq, not_false_eq_true, and_self, if_true]
        split
        · exact ⟨_, rfl⟩
        · exact ⟨_, rfl⟩
      | cons q1 rest1 =>
        have hcond : ¬ ((q0 :: q1 :: rest1).length = 1 ∧ q0 ≠ root) := by
          simp
        simp only
        rw [if_neg hcond]
        exact ih _ _ (by simp) hlev1 (fun hmem => hroot (List.mem_cons_of_mem _ hmem))
          (by simpa using hlen)

/-- Method `Genesis` returns on a chromosome whose genes form a finite tree
with a root that has a child, with one unit of fuel for each gene. -/
theorem Genesis_returns (s : Store) (c : Ptr) (n fuel : Nat)
    (htree : IsGeneTree s (s.chromosomes c).Root n)
    (hchild : (s.genes (s.chromosomes c).Root).Children ≠ [])
    (hfuel : (breadthFirst s n [(s.chromosomes c).Root]).length ≤ fuel) :
    ∃ r, Genesis s c fuel = Run.ok r := by
  obtain ⟨hlev, hnodup⟩ := htree
  obtain ⟨hbf, hlev1⟩ := breadthFirst_cons s n (s.chromosomes c).Root [] hlev
  rw [hbf] at hnodup hfuel
  rw [List.nil_append] at hbf hlev1 hnodup hfuel
  obtain ⟨fuel1, rfl⟩ : ∃ fuel1, fuel = fuel1 + 1 := ⟨fuel - 1, by simp at hfuel; omega⟩
  unfold Genesis genesisLoop
  have hcond : ¬ (([(s.chromosomes c).Root] : List Ptr).length = 1 ∧
      (s.chromosomes c).Root ≠ (s.chromosomes c).Root) := fun h => h.2 rfl
  simp only
  rw [if_neg hcond]
  exact genesisLoop_returns s _ n fuel1 _ _ (by simpa using hchild) hlev1
    (List.nodup_cons.mp hnodup).1 (by simpa using hfuel)

/-! ### The picks of Selection -/

/-- Entry `j` of the running sums is the start value plus the first `j + 1` terms. -/
theorem prefixSums_entry : ∀ (xs : List ℚ) (a : ℚ) (j : Nat), j < xs.length →
    (prefixSums a xs)[j]? = some (a + (xs.take (j + 1)).sum) := by
  intro xs
  induction xs with
  | nil => intro a j h; simp at h
  | cons x xs ih =>
    intro a j h
    cases j with
    | zero => simp [prefixSums]
    | succ j =>
      have hj : j < xs.length := by simpa using h
      have h1 : (prefixSums a (x :: xs))[j + 1]? = (prefixSums (a + x) xs)[j]? := by
        simp only [prefixSums, List.getElem?_cons_succ]
      have h2 : (x :: xs).take (j + 1 + 1) = x :: xs.take (j + 1) := rfl
      rw [h1, h2, ih (a + x) j hj, List.sum_cons, add_assoc]

/-- The entries of the cumulative vector: running sums of the fitness, and 1 in the last
place. -/
theorem cumulative_entries (s : Store) (population : List Ptr) (h : population ≠ []) :
    ∃ f, cumulative s population = Run.ok f ∧ f.length = population.length ∧
      (∀ j, j < population.length - 1 →
        f[j]? = some ((population.take (j + 1)).map (fun p => (s.chromosomes p).Fitness)).sum) ∧
      f[population.length - 1]? = some 1 := by
  have hok := cumulative_ok s population h
  refine ⟨_, hok, cumulative_length s population _ hok, ?_, ?_⟩
  · intro j hj
    have hlen : (population.dropLast.map (fun p => (s.chromosomes p).Fitness)).length
        = population.length - 1 := by simp
    rw [List.getElem?_append_left (by rw [prefixSums_length, hlen]; exact hj),
      prefixSums_entry _ 0 j (by rw [hlen]; exact hj), zero_add, ← List.map_take,
      List.dropLast_eq_take, List.take_take]
    rw [Nat.min_eq_left (by omega)]
  · have hlen : (prefixSums 0 (population.dropLast.map (fun p => (s.chromosomes p).Fitness))).length
        = population.length - 1 := by simp [prefixSums_length]
    rw [List.getElem?_append_right (by rw [hlen]), hlen]
    simp

/-- When every entry is below the value sought, the binary search returns the length. -/
theorem SearchFloat64s_eq_length (f : List ℚ) (u : ℚ) (h : ∀ i, i < f.length → f.getD i 0 < u) :
    SearchFloat64s f u = f.length := by
  obtain ⟨h1, h2, _⟩ := Search_spec f.length (fun i => decide (u ≤ f.getD i 0))
  by_contra hne
  have hlt : SearchFloat64s f u < f.length := lt_of_le_of_ne h1 hne
  have := of_decide_eq_true (h2 hlt)
  exact absurd (h _ hlt) (not_lt.mpr this)

/-- C28: on a working population that is not empty, whatever its fitness
values, and with a draw `u ≤ 1`, the index that the binary search returns in
the cumulative vector is below the length of the population, so that
`population[idx]` is in range and `idx == len(population)` does not hold.
This rests on the last entry alone: a search over `n > 0` places with a test
that holds at the last place returns an index below `n`. The draws of
`generateRandom` lie in `[0, 1)`. -/
theorem search_index_in_range (s : Store) (population : List Ptr) (u : ℚ)
    (hne : population ≠ []) (hu : u ≤ 1) :
    (∃ f c, cumulative s population = Run.ok f ∧
      SearchFloat64s f u < population.length ∧
      population[SearchFloat64s f u]? = some c ∧
      SearchFloat64s f u ≠ population.length) ∧
    (∀ n (g : Nat → Bool), 0 < n → g (n - 1) = true → Search n g < n) ∧
    ∀ n : Fin 100, 0 ≤ generateRandom n ∧ generateRandom n < 1 := by
  have hC := cumulative_ok s population hne
  have hidx := SearchFloat64s_lt s population _ u hC hu
  refine ⟨⟨_, _, hC, hidx, List.getElem?_eq_getElem hidx, Nat.ne_of_lt hidx⟩,
    fun n g hn hg => Search_lt_of_last n g hn hg, fun n => ?_⟩
  unfold generateRandom
  have hn : (n.val : ℚ) < 100 := by exact_mod_cast n.isLt
  have h0 : (0 : ℚ) ≤ (n.val : ℚ) := by exact_mod_cast Nat.zero_le n.val
  constructor
  · positivity
  · rw [div_lt_one (by norm_num)]
    exact hn

theorem search_index_in_range_witness :
    ([0, 1, 2] : List Ptr) ≠ [] ∧ (1 : ℚ) ≤ 1 ∧
    (∃ f c, cumulative wildStore [0, 1, 2] = Run.ok f ∧
      SearchFloat64s f 1 < ([0, 1, 2] : List Ptr).length ∧
      ([0, 1, 2] : List Ptr)[SearchFloat64s f 1]? = some c ∧
      SearchFloat64s f 1 ≠ ([0, 1, 2] : List Ptr).length) :=
  ⟨by decide, le_refl _,
    (search_index_in_range wildStore [0, 1, 2] 1 (by decide) (le_refl _)).1⟩

/-- C27, as stated, fails: on three chromosomes of quality 0, with `k = 1` and
a sampler that draws 0.5, `Selection` returns the last chromosome and no
error, although the qualities of the two chromosomes that remain sum to 0. -/
theorem selection_returns_on_zero_qualities :
    sumQuality zeroStore [0, 1, 2] = 0 ∧
    ∃ s2, Selection (New (fun _ => 1 / 2) testQuality) zeroStore [0, 1, 2] 1
        = Run.ok (s2, Except.ok [2]) ∧
      sumQuality s2 [0, 1] = 0 :=
  ⟨by with_unfolding_all rfl, _, by with_unfolding_all rfl, by with_unfolding_all rfl⟩

/-- C27, amended: for every population with `0 ≤ k < |population|` and draws
of at most 1, whatever the qualities and their sums, `Selection` returns `k`
chromosomes of the population and no error; `standardFitness` returns an
error exactly when it is not given one normaliser, and `Selection` always
gives it one. -/
theorem selection_ignores_zero_sum (d : Nat → ℚ) (quality : Chromosome → Except GoError ℚ)
    (s : Store) (p : List Ptr) (k : Int) (hk0 : 0 ≤ k) (hk : k < p.length)
    (hd : ∀ n, d n ≤ 1) :
    (∃ s1 r, Selection (New d quality) s p k = Run.ok (s1, Except.ok r) ∧
      (r.length : Int) = k ∧ ∀ c ∈ r, c ∈ p) ∧
    ∀ (st : Store) (population : List Ptr) (q : List ℚ),
      ((standardFitness st population q).2 = none ↔ q.length = 1) ∧
      ((standardFitness st population q).2 ≠ none →
        (standardFitness st population q).2 = some GoError.ErrorInvalidQualityStandardFitness) := by
  constructor
  · show ∃ s1 r, standardSelection s p k d standardFitness = Run.ok (s1, Except.ok r) ∧ _
    obtain ⟨s1, picks, rest, _, hsel, hlen, hperm, _, _⟩ :=
      standardSelection_picks d hd s p k hk0 hk
    have hsort := SliceStable_perm
      (fun a b => decide ((s1.chromosomes b).Quality < (s1.chromosomes a).Quality)) picks
    refine ⟨s1, _, hsel, ?_, ?_⟩
    · rw [hsort.length_eq, hlen]; omega
    · intro c hc
      exact hperm.subset (List.mem_append_left rest (hsort.subset hc))
  · intro st population q
    cases q with
    | nil => simp [standardFitness]
    | cons q0 qs =>
      cases qs with
      | nil => simp [standardFitness]
      | cons q1 qs => simp [standardFitness]

theorem selection_ignores_zero_sum_witness :
    (0 : Int) ≤ 1 ∧ (1 : Int) < ([0, 1, 2] : List Ptr).length ∧
    (∀ n : Nat, (fun _ => (1 / 2 : ℚ)) n ≤ 1) ∧
    ∃ s1 r, Selection (New (fun _ => 1 / 2) testQuality) zeroStore [0, 1, 2] 1
        = Run.ok (s1, Except.ok r) ∧
      (r.length : Int) = 1 ∧ ∀ c ∈ r, c ∈ ([0, 1, 2] : List Ptr) :=
  ⟨by decide, by decide, fun _ => by norm_num,
    (selection_ignores_zero_sum (fun _ => 1 / 2) testQuality zeroStore [0, 1, 2] 1 (by decide)
      (by decide) (fun _ => by norm_num)).1⟩

/-- C24: on a population of length `n > 0`, `cumulative` returns a vector of
length `n`; its entry `j`, for `j < n - 1`, is the sum of the fitness of the
chromosomes 0 to `j`, and its last entry is 1 whatever the fitness values are. -/
theorem cumulative_running_sums_then_one (s : Store) (population : List Ptr)
    (h : population ≠ []) :
    ∃ f, cumulative s population = Run.ok f ∧ f.length = population.length ∧
      (∀ j, j < population.length - 1 →
        f[j]? = some ((population.take (j + 1)).map (fun p => (s.chromosomes p).Fitness)).sum) ∧
      f[population.length - 1]? = some 1 :=
  cumulative_entries s population h

theorem cumulative_running_sums_then_one_witness :
    ([0, 1, 2] : List Ptr) ≠ [] ∧
    ∃ f, cumulative wildStore [0, 1, 2] = Run.ok f ∧ f.length = ([0, 1, 2] : List Ptr).length ∧
      (∀ j, j < ([0, 1, 2] : List Ptr).length - 1 →
        f[j]? = some ((([0, 1, 2] : List Ptr).take (j + 1)).map
          (fun p => (wildStore.chromosomes p).Fitness)).sum) ∧
      f[([0, 1, 2] : List Ptr).length - 1]? = some 1 :=
  ⟨by decide, cumulative_running_sums_then_one wildStore [0, 1, 2] (by decide)⟩

/-- Method `Genesis` on a chromosome whose root has no child: the first
iteration empties the queue and the second indexes it; with less than two
units of fuel the run does not get that far. -/
theorem Genesis_childless (s : Store) (c : Ptr)
    (h : (s.genes (s.chromosomes c).Root).Children = []) :
    (∀ fuel, Genesis s c (fuel + 2) = Run.panic "index out of range [0] with length 0") ∧
      ∀ fuel r, Genesis s c fuel ≠ Run.ok r := by
  have h2 : ∀ fuel, Genesis s c (fuel + 2)
      = Run.panic "index out of range [0] with length 0" := by
    intro fuel
    unfold Genesis genesisLoop
    have hcond : ¬ (([(s.chromosomes c).Root] : List Ptr).length = 1 ∧
        (s.chromosomes c).Root ≠ (s.chromosomes c).Root) := fun h => h.2 rfl
    simp only
    rw [if_neg hcond, h]
    rfl
  refine ⟨h2, ?_⟩
  intro fuel r hr
  rcases fuel with _ | _ | fuel
  · simp [Genesis, genesisLoop] at hr
  · unfold Genesis genesisLoop at hr
    have hcond : ¬ (([(s.chromosomes c).Root] : List Ptr).length = 1 ∧
        (s.chromosomes c).Root ≠ (s.chromosomes c).Root) := fun h => h.2 rfl
    simp only at hr
    rw [if_neg hcond, h] at hr
    simp [genesisLoop] at hr
  · rw [h2 fuel] at hr
    exact Run.noConfusion hr

/-- C29: for a chromosome whose genes form a finite tree, and with more fuel
than there are genes, `Genesis` returns a result if and only if the root has
at least one child; on a root without children it panics, the empty queue
being indexed, and with no amount of fuel does it return a result. -/
theorem genesis_returns_iff_root_has_child (s : Store) (c : Ptr) (n fuel : Nat)
    (htree : IsGeneTree s (s.chromosomes c).Root n)
    (hfuel : (breadthFirst s n [(s.chromosomes c).Root]).length < fuel) :
    ((∃ r, Genesis s c fuel = Run.ok r) ↔ (s.genes (s.chromosomes c).Root).Children ≠ []) ∧
    ((s.genes (s.chromosomes c).Root).Children = [] →
      Genesis s c fuel = Run.panic "index out of range [0] with length 0" ∧
      ∀ fuel1 r, Genesis s c fuel1 ≠ Run.ok r) := by
  have hpanic : (s.genes (s.chromosomes c).Root).Children = [] →
      Genesis s c fuel = Run.panic "index out of range [0] with length 0" ∧
      ∀ fuel1 r, Genesis s c fuel1 ≠ Run.ok r := by
    intro h
    obtain ⟨h1, h2⟩ := Genesis_childless s c h
    refine ⟨?_, h2⟩
    obtain ⟨hbf, _⟩ := breadthFirst_cons s n (s.chromosomes c).Root [] htree.1
    rw [hbf] at hfuel
    obtain ⟨fuel2, rfl⟩ : ∃ fuel2, fuel = fuel2 + 2 := ⟨fuel - 2, by
      simp only [List.length_cons] at hfuel
      omega⟩
    exact h1 fuel2
  refine ⟨⟨?_, ?_⟩, hpanic⟩
  · rintro ⟨r, hr⟩ hchild
    exact (hpanic hchild).2 fuel r hr
  · intro hchild
    exact Genesis_returns s c n fuel htree hchild (le_of_lt hfuel)

theorem genesis_returns_iff_root_has_child_witness :
    (IsGeneTree basicStore (basicStore.chromosomes 0).Root 2 ∧
      (breadthFirst basicStore 2 [(basicStore.chromosomes 0).Root]).length < 3 ∧
      ((∃ r, Genesis basicStore 0 3 = Run.ok r) ↔
        (basicStore.genes (basicStore.chromosomes 0).Root).Children ≠ [])) ∧
    (IsGeneTree bareStore (bareStore.chromosomes 0).Root 1 ∧
      (breadthFirst bareStore 1 [(bareStore.chromosomes 0).Root]).length < 2 ∧
      (bareStore.genes (bareStore.chromosomes 0).Root).Children = [] ∧
      Genesis bareStore 0 2 = Run.panic "index out of range [0] with length 0" ∧
      ∀ fuel1 r, Genesis bareStore 0 fuel1 ≠ Run.ok r) :=
  ⟨⟨by decide, by decide,
      (genesis_returns_iff_root_has_child basicStore 0 2 3 (by decide) (by decide)).1⟩,
    ⟨by decide, by decide, rfl,
      (genesis_returns_iff_root_has_child bareStore 0 1 2 (by decide) (by decide)).2 rfl⟩⟩

/-! ### The stable sort on keys of any linear order -/

/-- Inserting into an ascending list leaves it ascending, for a comparison
that is the order of keys in a linear order. -/
theorem insertLeftwards_ascending_key {α κ : Type} [LinearOrder κ] (key : α → κ)
    (less : α → α → Bool) (hless : ∀ a b, less a b = true ↔ key b < key a) (x : α)
    (l : List α) (h : l.Pairwise (fun a b => key a ≤ key b)) :
    (insertLeftwards less x l).Pairwise (fun a b => key a ≤ key b) := by
  induction l with
  | nil => simp [insertLeftwards]
  | cons y ys ih =>
    unfold insertLeftwards
    rw [List.pairwise_cons] at h
    by_cases hxy : less x y = true
    · rw [if_pos hxy, List.pairwise_cons]
      refine ⟨?_, ih h.2⟩
      intro b hb
      rcases List.mem_cons.mp ((insertLeftwards_perm _ x ys).subset hb) with hb1 | hb1
      · rw [hb1]; exact le_of_lt ((hless x y).mp hxy)
      · exact h.1 b hb1
    · have hnot : ¬ key y < key x := fun hlt => hxy ((hless x y).mpr hlt)
      rw [if_neg hxy, List.pairwise_cons]
      refine ⟨?_, List.pairwise_cons.mpr h⟩
      intro b hb
      rcases List.mem_cons.mp hb with hb1 | hb1
      · rw [hb1]; exact not_lt.mp hnot
      · exact le_trans (not_lt.mp hnot) (h.1 b hb1)

/-- The insertions of the sort keep the list ascending. -/
theorem foldl_insertLeftwards_ascending_key {α κ : Type} [LinearOrder κ] (key : α → κ)
    (less : α → α → Bool) (hless : ∀ a b, less a b = true ↔ key b < key a) (l : List α) :
    ∀ acc, acc.Pairwise (fun a b => key a ≤ key b) →
      (l.foldl (fun acc x => insertLeftwards less x acc) acc).Pairwise
        (fun a b => key a ≤ key b) := by
  induction l with
  | nil => intro acc h; exact h
  | cons a l ih => intro acc h; exact ih _ (insertLeftwards_ascending_key key less hless a acc h)

/-- The stable sort with a comparison that is `key b < key a` for keys in a
linear order returns a list in descending order of `key`. -/
theorem SliceStable_descending_key {α κ : Type} [LinearOrder κ] (key : α → κ)
    (less : α → α → Bool) (hless : ∀ a b, less a b = true ↔ key b < key a) (l : List α) :
    (SliceStable less l).Pairwise (fun a b => key b ≤ key a) := by
  unfold SliceStable
  rw [List.pairwise_reverse]
  exact foldl_insertLeftwards_ascending_key key less hless l [] List.Pairwise.nil

/-- Inserting `x` puts it before the elements of the same key. -/
theorem insertLeftwards_filter_key {α κ : Type} [LinearOrder κ] (key : α → κ)
    (less : α → α → Bool) (hless : ∀ a b, less a b = true ↔ key b < key a)
    (p : α → Bool) (v : κ) (hp : ∀ a, p a = true ↔ key a = v) (x : α) (l : List α) :
    (insertLeftwards less x l).filter p = (x :: l).filter p := by
  induction l with
  | nil => rfl
  | cons y ys ih =>
    unfold insertLeftwards
    by_cases hxy : less x y = true
    · rw [if_pos hxy, List.filter_cons, ih]
      have hlt := (hless x y).mp hxy
      by_cases hx : p x = true
      · have hy : ¬ p y = true := by
          intro hy
          rw [(hp x).mp hx, (hp y).mp hy] at hlt
          exact lt_irrefl _ hlt
        simp [List.filter_cons, hx, hy]
      · simp [List.filter_cons, hx]
    · rw [if_neg hxy]

/-- The elements of one key value after the insertions of the sort. -/
theorem foldl_insertLeftwards_filter_key {α κ : Type} [LinearOrder κ] (key : α → κ)
    (less : α → α → Bool) (hless : ∀ a b, less a b = true ↔ key b < key a)
    (p : α → Bool) (v : κ) (hp : ∀ a, p a = true ↔ key a = v) (l : List α) :
    ∀ acc, (l.foldl (fun acc x => insertLeftwards less x acc) acc).filter p
      = (l.filter p).reverse ++ acc.filter p := by
  induction l with
  | nil => intro acc; simp
  | cons a l ih =>
    intro acc
    rw [List.foldl_cons, ih, insertLeftwards_filter_key key less hless p v hp]
    by_cases ha : p a = true <;> simp [List.filter_cons, ha]

/-- The sort is stable: the elements of any one key value come out in the
order in which they went in. -/
theorem SliceStable_stable_key {α κ : Type} [LinearOrder κ] (key : α → κ)
    (less : α → α → Bool) (hless : ∀ a b, less a b = true ↔ key b < key a)
    (p : α → Bool) (v : κ) (hp : ∀ a, p a = true ↔ key a = v) (l : List α) :
    (SliceStable less l).filter p = l.filter p := by
  unfold SliceStable
  rw [List.filter_reverse, foldl_insertLeftwards_filter_key key less hless p v hp]
  simp

end genetic

namespace campaign

open genetic entities internal

/-! ### The population refresh -/

theorem level_of_children {s s1 : Store}
    (h : ∀ g, (s1.genes g).Children = (s.genes g).Children) :
    ∀ n ps, level s1 n ps = level s n ps := by
  have hc : ∀ ps, childrenOf s1 ps = childrenOf s ps := by
    intro ps
    unfold childrenOf
    congr 1
    funext p
    exact h p
  intro n
  induction n with
  | zero => intro ps; rfl
  | succ n ih => intro ps; simp only [level, hc, ih]

theorem qualityLoop_frame (quality : Chromosome → Except GoError ℚ) :
    ∀ (p : List Ptr) (s : Store) (q : ℚ),
      (qualityLoop quality s q p).1.genes = s.genes ∧
      (qualityLoop quality s q p).1.next = s.next ∧
      (qualityLoop quality s q p).1.draws = s.draws ∧
      ∀ c, ((qualityLoop quality s q p).1.chromosomes c).Root = (s.chromosomes c).Root := by
  intro p
  induction p with
  | nil => intro s q; exact ⟨rfl, rfl, rfl, fun _ => rfl⟩
  | cons a l ih =>
    intro s q
    unfold qualityLoop
    cases hqa : quality (s.chromosomes a) with
    | error err => exact ⟨rfl, rfl, rfl, fun _ => rfl⟩
    | ok qi =>
      obtain ⟨h1, h2, h3, h4⟩ := ih (setQuality s a qi) (q + qi)
      obtain ⟨g1, g2, g3, _, _, g6⟩ := setQuality_same s a qi
      exact ⟨h1.trans g1, h2.trans g2, h3.trans g3, fun c => (h4 c).trans (g6 c).2.1⟩

/-- When every oracle call succeeds, `Fitness` returns no error and writes
nothing but `Quality` and `Fitness` fields. -/
theorem Fitness_succeeds (d : Nat → ℚ) (quality : Chromosome → Except GoError ℚ)
    (s : Store) (p : List Ptr) (h : oracleSucceeds quality s p = true) :
    ∃ s1, Fitness (New d quality) s p = (s1, none) ∧ s1.genes = s.genes ∧ s1.next = s.next ∧
      s1.draws = s.draws ∧ ∀ c, (s1.chromosomes c).Root = (s.chromosomes c).Root := by
  obtain ⟨h1, h2, h3, h4⟩ := qualityLoop_frame quality p s 0
  unfold oracleSucceeds at h
  unfold Fitness New
  cases hq : qualityLoop quality s 0 p with
  | mk s0 res =>
    rw [hq] at h h1 h2 h3 h4
    cases res with
    | error err => simp at h
    | ok q =>
      obtain ⟨s1, hf, hsame, hdraws⟩ := standardFitness_one s0 p q
      refine ⟨s1, hf, hsame.1.trans h1, hsame.2.1.trans h2, hdraws.trans h3, fun c => ?_⟩
      exact (hsame.2.2 c).2.1.trans (h4 c)

/-- With draws at most 1 and `0 ≤ k ≤ |p|`, `Selection(p, k)` returns `k`
chromosomes of `p` and writes nothing but `Fitness` fields. -/
theorem Selection_returns (d : Nat → ℚ) (quality : Chromosome → Except GoError ℚ)
    (s : Store) (p : List Ptr) (k : Int) (hk0 : 0 ≤ k) (hk : k ≤ p.length) (hd : ∀ n, d n ≤ 1) :
    ∃ s1 r, Selection (New d quality) s p k = Run.ok (s1, Except.ok r) ∧
      (r.length : Int) = k ∧ (∀ c ∈ r, c ∈ p) ∧ SameUpToFitness s s1 := by
  show ∃ s1 r, standardSelection s p k d standardFitness = Run.ok (s1, Except.ok r) ∧ _
  by_cases heq : (p.length : Int) = k
  · subst heq
    exact ⟨s, p, standardSelection_equal d s p standardFitness, rfl, fun _ h => h,
      SameUpToFitness.fitnessRefl s⟩
  · obtain ⟨s1, picks, rest, _, hsel, hlen, hperm, hsame, _⟩ :=
      standardSelection_picks d hd s p k hk0 (by omega)
    have hsort := SliceStable_perm
      (fun a b => decide ((s1.chromosomes b).Quality < (s1.chromosomes a).Quality)) picks
    refine ⟨s1, _, hsel, ?_, ?_, hsame⟩
    · rw [hsort.length_eq, hlen]; omega
    · intro c hc
      exact hperm.subset (List.mem_append_left rest (hsort.subset hc))

/-- The loop of `newPopulation`, with its index reset and its length test,
is the round-robin fill of the specification. -/
theorem fillLoop_eq_specRoundRobinFill (g : genetic.facebook) (rate : ℚ) (selected : List Ptr)
    (mfuel : Nat) :
    ∀ m fuel s population idx j, population.length + m = populationSize → idx ≤ selectionSize →
      idx % selectionSize = j % selectionSize → m < fuel →
      fillLoop g rate selected mfuel fuel s population idx
        = specRoundRobinFill g rate selected mfuel m j s population := by
  intro m
  induction m with
  | zero =>
    intro fuel s population idx j hlen _ _ hfuel
    obtain ⟨f, rfl⟩ : ∃ f, fuel = f + 1 := ⟨fuel - 1, by omega⟩
    unfold fillLoop specRoundRobinFill
    rw [if_neg (by omega)]
  | succ m ih =>
    intro fuel s population idx j hlen hidx hmod hfuel
    obtain ⟨f, rfl⟩ : ∃ f, fuel = f + 1 := ⟨fuel - 1, by omega⟩
    unfold selectionSize at hidx hmod
    have hj : j % 5 < 5 := Nat.mod_lt _ (by decide)
    have hidx1 : (if idx = selectionSize then 0 else idx) = j % selectionSize := by
      unfold selectionSize
      by_cases h5 : idx = 5
      · rw [if_pos h5]; omega
      · rw [if_neg h5]; omega
    unfold fillLoop specRoundRobinFill
    rw [if_pos (by omega), hidx1]
    cases hsel : selected[j % selectionSize]? with
    | none => rfl
    | some e =>
      simp only
      cases hmut : Mutate g (copyChromosome s e).2 (copyChromosome s e).1 rate mfuel with
      | ok s2 =>
        simp only
        apply ih
        · rw [List.length_append, List.length_singleton]; omega
        · unfold selectionSize; omega
        · unfold selectionSize; omega
        · omega
      | panic msg => rfl
      | timeout => rfl

theorem copyChromosome_spec (s : Store) (e : Ptr) :
    (copyChromosome s e).1 = s.next ∧ (copyChromosome s e).2.genes = s.genes ∧
      (copyChromosome s e).2.next = s.next + 1 ∧
      (copyChromosome s e).2.draws = s.draws ∧
      (copyChromosome s e).2.chromosomes s.next = s.chromosomes e ∧
      ∀ c, c ≠ s.next → (copyChromosome s e).2.chromosomes c = s.chromosomes c := by
  refine ⟨rfl, rfl, rfl, rfl, by simp [copyChromosome], ?_⟩
  intro c hc
  simp [copyChromosome, Function.update_noteq hc]

/-- The round-robin fill on an elite of `selectionSize` allocated chromosomes
with gene structures of bounded depth: it returns, the `m` new chromosomes
sit at the next `m` addresses, slot `j + i` holds a copy of the fields of
`elite[(j + i) mod selectionSize]`, and no cell allocated before is written. -/
theorem specRoundRobinFill_returns (d : Nat → ℚ) (quality : Chromosome → Except GoError ℚ)
    (rate : ℚ) (elite : List Ptr) (n : Nat) (helite : elite.length = selectionSize) :
    ∀ m j s result, (∀ e ∈ elite, e < s.next) →
      (∀ e ∈ elite, level s n [(s.chromosomes e).Root] = []) →
      ∃ s3, specRoundRobinFill (New d quality) rate elite n m j s result
          = Run.ok (s3, result ++ (List.range m).map (fun i => s.next + i)) ∧
        s3.next = s.next + m ∧
        (∀ c, c < s.next → s3.chromosomes c = s.chromosomes c) ∧
        (∀ i, i < m → ∃ e, elite[(j + i) % selectionSize]? = some e ∧
          s3.chromosomes (s.next + i) = s.chromosomes e) ∧
        ∀ g, (s3.genes g).Children = (s.genes g).Children := by
  intro m
  induction m with
  | zero =>
    intro j s result _ _
    exact ⟨s, by simp [specRoundRobinFill], rfl, fun _ _ => rfl, fun i hi => absurd hi (Nat.not_lt_zero i),
      fun _ => rfl⟩
  | succ m ih =>
    intro j s result halloc hfin
    have hj : j % selectionSize < elite.length := by
      rw [helite]; exact Nat.mod_lt _ (by decide)
    have hget : elite[j % selectionSize]? = some elite[j % selectionSize] :=
      List.getElem?_eq_getElem hj
    have hmem : elite[j % selectionSize] ∈ elite := List.getElem_mem hj
    generalize elite[j % selectionSize] = e at hget hmem
    obtain ⟨c1, c2, c3, _, c5, c6⟩ := copyChromosome_spec s e
    have hlev0 : level (copyChromosome s e).2 n
        [((copyChromosome s e).2.chromosomes (copyChromosome s e).1).Root] = [] := by
      rw [c1, c5, @level_of_children s (copyChromosome s e).2 (fun g => rfl) n _]
      exact hfin e hmem
    obtain ⟨s1, hmut, hsame⟩ := binaryMutation_returns d rate n _ _ hlev0
    have hchrom : ∀ c, c < s.next → s1.chromosomes c = s.chromosomes c := by
      intro c hc
      rw [hsame.1, c6 c (Nat.ne_of_lt hc)]
    have hchild : ∀ g, (s1.genes g).Children = (s.genes g).Children := by
      intro g
      rw [(hsame.2.2 g).2.2.2.2, c2]
    have hnext : s1.next = s.next + 1 := hsame.2.1.trans c3
    obtain ⟨s3, hrun, h3next, h3chrom, h3copy, h3child⟩ := ih (j + 1) s1 (result ++ [s.next])
      (fun e1 he1 => by rw [hnext]; exact Nat.lt_succ_of_lt (halloc e1 he1))
      (fun e1 he1 => by
        rw [hchrom e1 (halloc e1 he1), level_of_children hchild]
        exact hfin e1 he1)
    refine ⟨s3, ?_, by rw [h3next, hnext, Nat.add_assoc, Nat.add_comm 1 m], ?_, ?_, fun g => (h3child g).trans (hchild g)⟩
    · unfold specRoundRobinFill
      rw [hget]
      simp only
      have hmut1 : Mutate (New d quality) (copyChromosome s e).2 (copyChromosome s e).1 rate n
          = Run.ok s1 := hmut
      rw [hmut1]
      simp only
      rw [c1, hrun, hnext, List.range_succ_eq_map, List.map_cons, List.map_map]
      have hfun : ((fun i => s.next + i) ∘ Nat.succ) = fun i => s.next + 1 + i := by
        funext i
        show s.next + (i + 1) = s.next + 1 + i
        rw [Nat.add_assoc, Nat.add_comm 1 i]
      rw [hfun]
      simp
    · intro c hc
      rw [h3chrom c (by rw [hnext]; exact Nat.lt_succ_of_lt hc), hchrom c hc]
    · intro i hi
      cases i with
      | zero =>
        refine ⟨e, by rw [Nat.add_zero]; exact hget, ?_⟩
        rw [Nat.add_zero, h3chrom s.next (by rw [hnext]; exact Nat.lt_succ_self _), hsame.1, c5]
      | succ i =>
        obtain ⟨e1, he1, hc1⟩ := h3copy i (by omega)
        have he1mem : e1 ∈ elite := List.getElem?_mem he1
        refine ⟨e1, by rw [show j + (i + 1) = j + 1 + i by omega]; exact he1, ?_⟩
        rw [show s.next + (i + 1) = s1.next + i by rw [hnext, Nat.add_assoc, Nat.add_comm 1 i], hc1,
          hchrom e1 (halloc e1 he1mem)]

/-- C8: on a population of fewer than `k` chromosomes `Selection` returns
`ErrorInvalidPopulation` and no chromosomes; hence `newPopulation` on fewer
than 5 chromosomes for which the oracle succeeds, the empty population
included, returns that error and no population. -/
theorem selection_rejects_small_population (d : Nat → ℚ)
    (quality : Chromosome → Except GoError ℚ) (s : Store) (p : List Ptr) (rate : ℚ)
    (mfuel : Nat) :
    (∀ k : Int, (p.length : Int) < k →
      Selection (New d quality) s p k
        = Run.ok (s, Except.error GoError.ErrorInvalidPopulation)) ∧
    (p.length < selectionSize → oracleSucceeds quality s p = true →
      ∃ s1, newPopulation (New d quality) s p rate mfuel
        = Run.ok (s1, Except.error GoError.ErrorInvalidPopulation)) ∧
    newPopulation (New d quality) s [] rate mfuel
      = Run.ok (s, Except.error GoError.ErrorInvalidPopulation) := by
  have hsel : ∀ (s0 : Store) (k : Int), (p.length : Int) < k →
      Selection (New d quality) s0 p k
        = Run.ok (s0, Except.error GoError.ErrorInvalidPopulation) := by
    intro s0 k hk
    show standardSelection s0 p k d standardFitness = _
    unfold standardSelection
    rw [if_neg (ne_of_lt hk), if_pos hk]
  refine ⟨hsel s, ?_, rfl⟩
  intro hlen horacle
  obtain ⟨s1, hfit, _⟩ := Fitness_succeeds d quality s p horacle
  refine ⟨s1, ?_⟩
  unfold newPopulation
  rw [hfit]
  simp only
  rw [hsel s1 selectionSize (by exact_mod_cast hlen)]

theorem selection_rejects_small_population_witness :
    ((([0, 1] : List Ptr).length : Int) < 5 ∧
      Selection (New (fun _ => 0) testQuality) basicStore [0, 1] 5
        = Run.ok (basicStore, Except.error GoError.ErrorInvalidPopulation)) ∧
    (([0, 1] : List Ptr).length < selectionSize ∧
      oracleSucceeds testQuality basicStore [0, 1] = true ∧
      ∃ s1, newPopulation (New (fun _ => 0) testQuality) basicStore [0, 1] (1 / 5) 2
        = Run.ok (s1, Except.error GoError.ErrorInvalidPopulation)) ∧
    newPopulation (New (fun _ => 0) testQuality) basicStore [] (1 / 5) 2
      = Run.ok (basicStore, Except.error GoError.ErrorInvalidPopulation) :=
  ⟨⟨by decide,
      (selection_rejects_small_population (fun _ => 0) testQuality basicStore [0, 1] (1 / 5)
        2).1 5 (by decide)⟩,
    ⟨by decide, by with_unfolding_all decide,
      (selection_rejects_small_population (fun _ => 0) testQuality basicStore [0, 1] (1 / 5)
        2).2.1 (by decide) (by with_unfolding_all decide)⟩,
    (selection_rejects_small_population (fun _ => 0) testQuality basicStore [0, 1] (1 / 5)
      2).2.2⟩

/-- C9: on at least 5 allocated chromosomes with gene structures of bounded
depth, for which the oracle succeeds, and with a sampler with values in
`[0, 1)`, `newPopulation` returns exactly 30 chromosomes: the first 5 are
the list `elite` returned by `Selection`, and position `5 + j`, for
`j < 25`, is a new chromosome holding a copy of the fields of
`elite[j mod 5]`, to which `Mutate` was applied with the given rate (the
result is that of the round-robin fill of the specification). -/
theorem newPopulation_thirty_round_robin (d : Nat → ℚ)
    (quality : Chromosome → Except GoError ℚ) (s : Store) (p : List Ptr) (rate : ℚ) (n : Nat)
    (hlen : selectionSize ≤ p.length) (horacle : oracleSucceeds quality s p = true)
    (hd : ∀ k, 0 ≤ d k ∧ d k < 1)
    (hfin : ∀ c ∈ p, level s n [(s.chromosomes c).Root] = [])
    (halloc : ∀ c ∈ p, c < s.next) :
    ∃ s1 s2 elite s3 result,
      Fitness (New d quality) s p = (s1, none) ∧
      Selection (New d quality) s1 p selectionSize = Run.ok (s2, Except.ok elite) ∧
      newPopulation (New d quality) s p rate n = Run.ok (s3, Except.ok result) ∧
      result.length = populationSize ∧ elite.length = selectionSize ∧
      result.take selectionSize = elite ∧
      (∀ j, j < populationSize - selectionSize →
        ∃ e clone, elite[j % selectionSize]? = some e ∧
          result[selectionSize + j]? = some clone ∧ clone ∉ p ∧
          s3.chromosomes clone = s2.chromosomes e ∧ s3.chromosomes e = s2.chromosomes e) ∧
      specRoundRobinFill (New d quality) rate elite n (populationSize - selectionSize) 0 s2 elite
        = Run.ok (s3, result) := by
  obtain ⟨s1, hfit, hgenes1, hnext1, _, hroot1⟩ := Fitness_succeeds d quality s p horacle
  obtain ⟨s2, elite, hsel, hel, hsub, hsame2⟩ :=
    Selection_returns d quality s1 p selectionSize (by decide) (by exact_mod_cast hlen)
      (fun k => le_of_lt (hd k).2)
  have hel5 : elite.length = selectionSize := by exact_mod_cast hel
  have hnext2 : s2.next = s.next := hsame2.2.1.trans hnext1
  have halloc2 : ∀ e ∈ elite, e < s2.next := fun e he => by
    rw [hnext2]; exact halloc e (hsub e he)
  have hfin2 : ∀ e ∈ elite, level s2 n [(s2.chromosomes e).Root] = [] := fun e he => by
    rw [(hsame2.2.2 e).2.1, hroot1 e,
      @level_of_children s s2 (fun g => by rw [hsame2.1, hgenes1]) n _]
    exact hfin e (hsub e he)
  obtain ⟨s3, hfill, _, hkeep, hcopy, _⟩ :=
    specRoundRobinFill_returns d quality rate elite n hel5 (populationSize - selectionSize) 0 s2 elite
      halloc2 hfin2
  have hloop := fillLoop_eq_specRoundRobinFill (New d quality) rate elite n
    (populationSize - selectionSize) (populationSize + 1) s2 elite 0 0
    (by rw [hel5]; decide) (by decide) rfl (by decide)
  refine ⟨s1, s2, elite, s3, _, hfit, hsel, ?_, ?_, hel5, ?_, ?_, hfill⟩
  · unfold newPopulation
    rw [hfit]
    simp only
    rw [hsel]
    simp only
    rw [hloop, hfill]
  · rw [List.length_append, List.length_map, List.length_range, hel5]; decide
  · rw [← hel5, List.take_left']
    rfl
  · intro j hj
    obtain ⟨e, he, hce⟩ := hcopy j hj
    rw [Nat.zero_add] at he
    have hemem : e ∈ elite := List.getElem?_mem he
    refine ⟨e, s2.next + j, he, ?_, ?_, hce, hkeep e (halloc2 e hemem)⟩
    · have hidx : selectionSize + j - elite.length = j := by
        rw [hel5]; exact Nat.add_sub_cancel_left _ _
      rw [List.getElem?_append_right (by rw [hel5]; exact Nat.le_add_right _ _), hidx,
        List.getElem?_map, List.getElem?_range hj]
      rfl
    · intro hmem
      have := halloc _ hmem
      rw [hnext2] at this
      exact absurd this (Nat.not_lt.mpr (Nat.le_add_right _ _))

theorem newPopulation_thirty_round_robin_witness :
    selectionSize ≤ ([0, 1, 2, 3, 4] : List Ptr).length ∧
      oracleSucceeds testQuality basicStore [0, 1, 2, 3, 4] = true ∧
      (∀ k : Nat, (0 : ℚ) ≤ (fun _ => 0) k ∧ (fun _ => (0 : ℚ)) k < 1) ∧
      (∀ c ∈ ([0, 1, 2, 3, 4] : List Ptr), level basicStore 2 [(basicStore.chromosomes c).Root] = []) ∧
      (∀ c ∈ ([0, 1, 2, 3, 4] : List Ptr), c < basicStore.next) ∧
      ∃ s1 s2 elite s3 result,
        Fitness (New (fun _ => 0) testQuality) basicStore [0, 1, 2, 3, 4] = (s1, none) ∧
        Selection (New (fun _ => 0) testQuality) s1 [0, 1, 2, 3, 4] selectionSize
          = Run.ok (s2, Except.ok elite) ∧
        newPopulation (New (fun _ => 0) testQuality) basicStore [0, 1, 2, 3, 4] (1 / 5) 2
          = Run.ok (s3, Except.ok result) ∧
        result.length = populationSize ∧ elite.length = selectionSize ∧
        result.take selectionSize = elite ∧
        (∀ j, j < populationSize - selectionSize →
          ∃ e clone, elite[j % selectionSize]? = some e ∧
            result[selectionSize + j]? = some clone ∧ clone ∉ ([0, 1, 2, 3, 4] : List Ptr) ∧
            s3.chromosomes clone = s2.chromosomes e ∧ s3.chromosomes e = s2.chromosomes e) ∧
        specRoundRobinFill (New (fun _ => 0) testQuality) (1 / 5) elite 2
          (populationSize - selectionSize) 0 s2 elite = Run.ok (s3, result) :=
  ⟨by decide, by with_unfolding_all decide, fun _ => ⟨le_refl _, zero_lt_one⟩, by decide, by decide,
    newPopulation_thirty_round_robin (fun _ => 0) testQuality basicStore [0, 1, 2, 3, 4] (1 / 5) 2
      (by decide) (by with_unfolding_all decide) (fun _ => ⟨le_refl _, zero_lt_one⟩)
      (by decide) (by decide)⟩

/-- C10 fails on the code: on the population of TestCreate, with mutation
rate 0.2 and a sampler that draws 0.0, `newPopulation` returns 30
chromosomes, but the clone at position 5 has the same `Root` as the elite
chromosome at position 0, and the leaf of that elite chromosome, of value 1
when `Selection` returned, has value 0 in the result: it was written by the
mutations of the clones. -/
theorem newPopulation_clones_share_genes :
    ∃ s3 result,
      newPopulation (New (fun _ => 0) testQuality) basicStore [0, 1, 2, 3, 4] (1 / 5) 2
        = Run.ok (s3, Except.ok result) ∧
      result.take 6 = [0, 1, 2, 3, 4, 5] ∧
      (s3.chromosomes 5).Root = (s3.chromosomes 0).Root ∧
      (s3.genes (s3.chromosomes 0).Root).Children = [1] ∧
      (basicStore.genes 1).Value = 1 ∧ (s3.genes 1).Value = 0 :=
  ⟨_, _, by with_unfolding_all rfl, by with_unfolding_all rfl, by with_unfolding_all rfl,
    by with_unfolding_all rfl, rfl, by with_unfolding_all rfl⟩

/-! ### Validation of the request -/

theorem empty_stringLess : stringLess "" "3000" := by decide

theorem checkRequest_eq_firstViolation (req : Request)
    (hr : 0 < req.MutationRate ∧ req.MutationRate ≤ 1 / 5) :
    checkRequest req = firstViolation req := by
  have h0 : ¬ (req.MutationRate = 0 ∨ req.MutationRate > 1 / 5) := by
    intro h
    rcases h with h | h
    · rw [h] at hr; exact lt_irrefl _ hr.1
    · exact not_lt.mpr hr.2 h
  have hg : ¬ (req.Gender.val.length = 0) := by rw [req.Gender.property]; decide
  have hb : (stringLess req.Budget "3000" ∨ req.Budget = "") ↔ stringLess req.Budget "3000" := by
    constructor
    · intro h
      rcases h with h | h
      · exact h
      · rw [h]; exact empty_stringLess
    · exact Or.inl
  unfold checkRequest firstViolation validationRules
  simp only [h0, hg, hb, if_false, firstOf, decide_eq_true_eq, hr, and_self, not_true_eq_false,
    Bool.false_eq_true]

theorem ite_some_eq_none {c : Prop} [Decidable c] (e : Err) (x : Option Err) :
    (if c then some e else x) = none ↔ ¬ c ∧ x = none := by
  by_cases h : c
  · simp [h]
  · simp [h]

theorem checkRequest_none_iff (req : Request)
    (hr : 0 < req.MutationRate ∧ req.MutationRate ≤ 1 / 5) :
    checkRequest req = none ↔
      (req.Segment ≠ "" ∧ req.AdAccount ≠ "" ∧ req.Name ≠ "" ∧ req.Objective ≠ "" ∧
        req.StartTime ≠ "" ∧ req.EndTime ≠ "" ∧ req.Page.ID ≠ "" ∧ req.CreativeName ≠ "") ∧
      ¬ stringLess req.Budget "3000" ∧ req.SpecialAdCategory ≠ none ∧
      req.Location ≠ zeroGeolocation ∧ (req.AgeMin ≠ 0 ∧ req.AgeMax ≠ 0) ∧
      req.CallToAction ≠ zeroCallToAction ∧ (req.ImageHash ≠ "" ∨ req.VideoID ≠ "") := by
  have h0 : ¬ (req.MutationRate = 0 ∨ req.MutationRate > 1 / 5) := by
    intro h
    rcases h with h | h
    · rw [h] at hr; exact lt_irrefl _ hr.1
    · exact not_lt.mpr hr.2 h
  have hg : ¬ (req.Gender.val.length = 0) := by rw [req.Gender.property]; decide
  have hb : (stringLess req.Budget "3000" ∨ req.Budget = "") ↔ stringLess req.Budget "3000" := by
    constructor
    · intro h
      rcases h with h | h
      · exact h
      · rw [h]; exact empty_stringLess
    · exact Or.inl
  unfold checkRequest
  rw [ite_some_eq_none, ite_some_eq_none, ite_some_eq_none, ite_some_eq_none, ite_some_eq_none,
    ite_some_eq_none, ite_some_eq_none, ite_some_eq_none, ite_some_eq_none, ite_some_eq_none,
    ite_some_eq_none, ite_some_eq_none, ite_some_eq_none, ite_some_eq_none, ite_some_eq_none,
    ite_some_eq_none, hb]
  constructor
  · rintro ⟨h1, _, h2, h3, h4, h5, h6, h7, h8, h9, _, h10, h11, h12, h13, h14, _⟩
    refine ⟨⟨h1, h2, h3, h6, h7, h8, h11, h13⟩, h4, h5, h9, not_or.mp h10, h12, ?_⟩
    by_contra hc
    rw [not_or, not_not, not_not] at hc
    exact h14 hc
  · rintro ⟨⟨h1, h2, h3, h6, h7, h8, h11, h13⟩, h4, h5, h9, h10, h12, h14⟩
    refine ⟨h1, h0, h2, h3, h4, h5, h6, h7, h8, h9, hg, not_or.mpr h10, h11, h12, h13, ?_, rfl⟩
    intro hc
    rcases h14 with h | h
    · exact h hc.1
    · exact h hc.2

/-- C17 fails on the code: the request of TestCreate is accepted, and so is
the same request with the mutation rate -0.01, since the guard only tests
`MutationRate == 0.0 || MutationRate > 0.20`. -/
theorem checkRequest_accepts_negative_rate :
    checkRequest testRequest = none ∧
      ({ testRequest with MutationRate := -1 / 100 } : Request).MutationRate < 0 ∧
      checkRequest { testRequest with MutationRate := -1 / 100 } = none :=
  ⟨by with_unfolding_all decide, by norm_num, by with_unfolding_all decide⟩

/-- C18: for a mutation rate in (0, 0.20], `checkRequest` returns nil exactly
when segment, ad account, name, objective, start, end, page id and creative
name are non-empty, the budget is not below "3000" in the order of strings,
the ad categories are not nil, the geolocation and the call to action are
not the zero value, both ages are non-zero and image hash or video id is
non-empty; and what it returns is the error of the first violated condition
in the order segment, rate, ad account, name, budget, categories, objective,
start, end, location, gender, age, page, call to action, creative name, media. -/
theorem checkRequest_accepts_iff_all_hold (req : Request)
    (hr : 0 < req.MutationRate ∧ req.MutationRate ≤ 1 / 5) :
    (checkRequest req = none ↔
      (req.Segment ≠ "" ∧ req.AdAccount ≠ "" ∧ req.Name ≠ "" ∧ req.Objective ≠ "" ∧
        req.StartTime ≠ "" ∧ req.EndTime ≠ "" ∧ req.Page.ID ≠ "" ∧ req.CreativeName ≠ "") ∧
      ¬ stringLess req.Budget "3000" ∧ req.SpecialAdCategory ≠ none ∧
      req.Location ≠ zeroGeolocation ∧ (req.AgeMin ≠ 0 ∧ req.AgeMax ≠ 0) ∧
      req.CallToAction ≠ zeroCallToAction ∧ (req.ImageHash ≠ "" ∨ req.VideoID ≠ "")) ∧
    checkRequest req = firstViolation req :=
  ⟨checkRequest_none_iff req hr, checkRequest_eq_firstViolation req hr⟩

theorem checkRequest_accepts_iff_all_hold_witness :
    (0 < testRequest.MutationRate ∧ testRequest.MutationRate ≤ 1 / 5) ∧
    (checkRequest testRequest = none ↔
      (testRequest.Segment ≠ "" ∧ testRequest.AdAccount ≠ "" ∧ testRequest.Name ≠ "" ∧
        testRequest.Objective ≠ "" ∧ testRequest.StartTime ≠ "" ∧ testRequest.EndTime ≠ "" ∧
        testRequest.Page.ID ≠ "" ∧ testRequest.CreativeName ≠ "") ∧
      ¬ stringLess testRequest.Budget "3000" ∧ testRequest.SpecialAdCategory ≠ none ∧
      testRequest.Location ≠ zeroGeolocation ∧
      (testRequest.AgeMin ≠ 0 ∧ testRequest.AgeMax ≠ 0) ∧
      testRequest.CallToAction ≠ zeroCallToAction ∧
      (testRequest.ImageHash ≠ "" ∨ testRequest.VideoID ≠ "")) ∧
    checkRequest testRequest = firstViolation testRequest :=
  ⟨by with_unfolding_all decide,
    checkRequest_accepts_iff_all_hold testRequest (by with_unfolding_all decide)⟩

/-- C19, as stated, fails: the request of TestCreate with budget "9000" is
accepted, for "9000" is not below "3000" in the order of strings. -/
theorem checkRequest_accepts_budget_9000 :
    ¬ stringLess "9000" "3000" ∧ checkRequest { testRequest with Budget := "9000" } = none :=
  ⟨by decide, by with_unfolding_all decide⟩

/-- C19, amended: under the lexical guard the otherwise valid request is
accepted with budget "30000" and with budget "9000", neither string being
below "3000"; it is rejected with `errorInvalidBudget` with budget "10000",
because "10000" is below "3000" in the order of strings. -/
theorem checkRequest_lexical_budget_guard :
    (¬ stringLess "30000" "3000" ∧ checkRequest { testRequest with Budget := "30000" } = none) ∧
    (¬ stringLess "9000" "3000" ∧ checkRequest { testRequest with Budget := "9000" } = none) ∧
    (stringLess "10000" "3000" ∧
      checkRequest { testRequest with Budget := "10000" } = some Err.errorInvalidBudget) :=
  ⟨⟨by decide, by with_unfolding_all decide⟩, ⟨by decide, by with_unfolding_all decide⟩,
    ⟨by decide, by with_unfolding_all decide⟩⟩

theorem buildCreative_video (status : String) (req : Request) (accessToken : String)
    (h : req.VideoID ≠ "") :
    (buildCreative status req accessToken).ObjectStroySpec.VideoData
        = { ImageHash := req.ImageHash, Title := "", Message := req.Message,
            VideoID := req.VideoID, CallToAction := req.CallToAction } ∧
      (buildCreative status req accessToken).ObjectStroySpec.LinkData = zeroLinkData := by
  by_cases ho : req.Objective = "PAGE_LIKES"
  · simp [buildCreative, h, ho, zeroLinkData, zeroVideoData]
  · simp [buildCreative, h, ho, zeroLinkData, zeroVideoData]

theorem buildCreative_link (status : String) (req : Request) (accessToken : String)
    (h : req.VideoID = "") :
    (buildCreative status req accessToken).ObjectStroySpec.VideoData = zeroVideoData ∧
      (buildCreative status req accessToken).ObjectStroySpec.LinkData
        = { ImageHash := req.ImageHash,
            Link := if req.Objective = "PAGE_LIKES" then "https://facebook.com/" ++ req.Page.ID
              else req.CallToAction.Value.Link,
            Message := req.Message, CallToAction := req.CallToAction } := by
  by_cases ho : req.Objective = "PAGE_LIKES"
  · simp [buildCreative, h, ho, zeroLinkData, zeroVideoData]
  · simp [buildCreative, h, ho, zeroLinkData, zeroVideoData]

theorem buildCreative_fields (status : String) (req : Request) (accessToken : String) :
    (buildCreative status req accessToken).Title
        = (if req.Objective = "PAGE_LIKES" then req.Title else "") ∧
      (buildCreative status req accessToken).Name = req.CreativeName ∧
      (buildCreative status req accessToken).Status = status ∧
      (buildCreative status req accessToken).ObjectStroySpec.PageID = req.Page.ID ∧
      (buildCreative status req accessToken).AccessToken = accessToken := by
  by_cases hv : req.VideoID = "" <;> by_cases ho : req.Objective = "PAGE_LIKES" <;>
    simp [buildCreative, hv, ho]

/-- C14: `createCreative` posts the creative built by three rules, the first
that matches: with a video id, video data {image hash, video id, message,
call to action} and empty link data; else with objective PAGE_LIKES, link
data with the link `https://facebook.com/` followed by the page id, image
hash, message and call to action, and the title of the request; otherwise
link data with the link of the call to action, image hash, message and call
to action. In the two link cases the video data is empty. -/
theorem createCreative_applies_three_rules (f : campaign.facebook) (w : World) (req : Request)
    (accessToken : String) :
    (createCreative f w req accessToken).1.log
      = w.log ++ [Event.post
          (PostRequest.adcreatives req.AdAccount (buildCreative f.status req accessToken))
          (f.post w.log
            (PostRequest.adcreatives req.AdAccount (buildCreative f.status req accessToken)))] ∧
    (buildCreative f.status req accessToken).ObjectStroySpec.VideoData
      = (if req.VideoID ≠ "" then
          { ImageHash := req.ImageHash, Title := "", Message := req.Message,
            VideoID := req.VideoID, CallToAction := req.CallToAction }
        else zeroVideoData) ∧
    (buildCreative f.status req accessToken).ObjectStroySpec.LinkData
      = (if req.VideoID ≠ "" then zeroLinkData
        else if req.Objective = "PAGE_LIKES" then
          { ImageHash := req.ImageHash, Link := "https://facebook.com/" ++ req.Page.ID,
            Message := req.Message, CallToAction := req.CallToAction }
        else
          { ImageHash := req.ImageHash, Link := req.CallToAction.Value.Link,
            Message := req.Message, CallToAction := req.CallToAction }) ∧
    (buildCreative f.status req accessToken).Title
      = (if req.Objective = "PAGE_LIKES" then req.Title else "") ∧
    (buildCreative f.status req accessToken).Name = req.CreativeName ∧
    (buildCreative f.status req accessToken).ObjectStroySpec.PageID = req.Page.ID := by
  obtain ⟨ht, hn, _, hp, _⟩ := buildCreative_fields f.status req accessToken
  refine ⟨?_, ?_, ?_, ht, hn, hp⟩
  · unfold createCreative
    simp only
    split <;> rfl
  · by_cases hv : req.VideoID = ""
    · rw [if_neg (not_not.mpr hv)]; exact (buildCreative_link f.status req accessToken hv).1
    · rw [if_pos hv]; exact (buildCreative_video f.status req accessToken hv).1
  · by_cases hv : req.VideoID = ""
    · rw [if_neg (not_not.mpr hv), (buildCreative_link f.status req accessToken hv).2]
      by_cases ho : req.Objective = "PAGE_LIKES"
      · simp only [ho, if_true]
      · simp only [ho, if_false]
    · rw [if_pos hv]; exact (buildCreative_video f.status req accessToken hv).2

/-- C15, as stated, fails: the request of TestCreate with a video id and no
image hash is accepted by `checkRequest`, yet its creative has video data
with an empty thumbnail image hash, which the test client refuses. -/
theorem accepted_request_fails_creative_check :
    checkRequest { testRequest with VideoID := "1234", ImageHash := "" } = none ∧
      (buildCreative "ACTIVE" { testRequest with VideoID := "1234", ImageHash := "" }
        "unicorn60").ObjectStroySpec.VideoData ≠ zeroVideoData ∧
      (buildCreative "ACTIVE" { testRequest with VideoID := "1234", ImageHash := "" }
        "unicorn60").ObjectStroySpec.VideoData.ImageHash = "" ∧
      testCheckCreativeRequest "ACTIVE"
        (buildCreative "ACTIVE" { testRequest with VideoID := "1234", ImageHash := "" }
          "unicorn60") = some "Missing creative video thumbnail image" :=
  ⟨by with_unfolding_all decide, by decide, by decide, by decide⟩

theorem append_ne_empty (a b : String) (h : a ≠ "") : a ++ b ≠ "" := by
  intro hab
  have hl := congrArg String.length hab
  rw [String.length_append] at hl
  have ha : a.length = 0 := by
    have h0 : ("" : String).length = 0 := rfl
    omega
  apply h
  apply String.ext
  exact List.length_eq_zero.mp ha

/-- C15, amended: for a request accepted by `checkRequest`, a creative with
link data has a non-empty image hash and a creative with video data a
non-empty video id; when moreover the call-to-action type, the
call-to-action link value and the image hash of the request are non-empty,
the creative has the non-empty fields that the test client asks for, and with
a non-empty access token and a call-to-action type other than LIKE_PAGE it
passes the whole check of the test client. -/
theorem accepted_creative_passes_checks (status : String) (req : Request)
    (accessToken : String) (hacc : checkRequest req = none) :
    ((buildCreative status req accessToken).ObjectStroySpec.LinkData ≠ zeroLinkData →
      (buildCreative status req accessToken).ObjectStroySpec.LinkData.ImageHash ≠ "") ∧
    ((buildCreative status req accessToken).ObjectStroySpec.VideoData ≠ zeroVideoData →
      (buildCreative status req accessToken).ObjectStroySpec.VideoData.VideoID ≠ "") ∧
    (req.CallToAction.Typ ≠ "" → req.CallToAction.Value.Link ≠ "" → req.ImageHash ≠ "" →
      ((buildCreative status req accessToken).ObjectStroySpec.LinkData ≠ zeroLinkData →
        (buildCreative status req accessToken).ObjectStroySpec.LinkData.Link ≠ "" ∧
        (buildCreative status req accessToken).ObjectStroySpec.LinkData.ImageHash ≠ "" ∧
        (buildCreative status req accessToken).ObjectStroySpec.LinkData.CallToAction.Typ ≠ "" ∧
        (buildCreative status req accessToken).ObjectStroySpec.LinkData.CallToAction.Value.Link
          ≠ "") ∧
      ((buildCreative status req accessToken).ObjectStroySpec.VideoData ≠ zeroVideoData →
        (buildCreative status req accessToken).ObjectStroySpec.VideoData.VideoID ≠ "" ∧
        (buildCreative status req accessToken).ObjectStroySpec.VideoData.ImageHash ≠ "" ∧
        (buildCreative status req accessToken).ObjectStroySpec.VideoData.CallToAction.Typ ≠ "" ∧
        (buildCreative status req accessToken).ObjectStroySpec.VideoData.CallToAction.Value.Link
          ≠ "") ∧
      (accessToken ≠ "" → req.CallToAction.Typ ≠ "LIKE_PAGE" →
        testCheckCreativeRequest status (buildCreative status req accessToken) = none)) := by
  have hmedia : req.ImageHash ≠ "" ∨ req.VideoID ≠ "" := by
    by_contra hc
    rw [not_or, not_not, not_not] at hc
    unfold checkRequest at hacc
    rw [ite_some_eq_none, ite_some_eq_none, ite_some_eq_none, ite_some_eq_none,
      ite_some_eq_none, ite_some_eq_none, ite_some_eq_none, ite_some_eq_none, ite_some_eq_none,
      ite_some_eq_none, ite_some_eq_none, ite_some_eq_none, ite_some_eq_none, ite_some_eq_none,
      ite_some_eq_none, ite_some_eq_none] at hacc
    exact hacc.2.2.2.2.2.2.2.2.2.2.2.2.2.2.2.1 hc
  obtain ⟨_, _, hstatus, _, htoken⟩ := buildCreative_fields status req accessToken
  by_cases hv : req.VideoID = ""
  · obtain ⟨hvd, hld⟩ := buildCreative_link status req accessToken hv
    have himg : req.ImageHash ≠ "" := by
      rcases hmedia with h | h
      · exact h
      · exact absurd hv h
    refine ⟨fun _ => by rw [hld]; exact himg, fun h => absurd hvd h, ?_⟩
    intro htype hlink _
    have hl : (if req.Objective = "PAGE_LIKES" then "https://facebook.com/" ++ req.Page.ID
        else req.CallToAction.Value.Link) ≠ "" := by
      by_cases ho : req.Objective = "PAGE_LIKES"
      · rw [if_pos ho]; exact append_ne_empty _ _ (by decide)
      · rw [if_neg ho]; exact hlink
    refine ⟨fun _ => by rw [hld]; exact ⟨hl, himg, htype, hlink⟩, fun h => absurd hvd h, ?_⟩
    intro htok hlike
    have hne : (buildCreative status req accessToken).ObjectStroySpec.LinkData ≠ zeroLinkData := by
      rw [hld]
      intro hz
      exact himg (congrArg linkData.ImageHash hz)
    unfold testCheckCreativeRequest
    rw [htoken, hstatus, if_neg htok, if_neg (not_not.mpr rfl), if_pos hne, hld]
    simp only
    rw [if_neg htype, if_neg hl, if_neg himg, if_neg hlike, if_neg (fun h => hlink h.2)]
  · obtain ⟨hvd, hld⟩ := buildCreative_video status req accessToken hv
    refine ⟨fun h => absurd hld h, fun _ => by rw [hvd]; exact hv, ?_⟩
    intro htype hlink himg
    refine ⟨fun h => absurd hld h, fun _ => by rw [hvd]; exact ⟨hv, himg, htype, hlink⟩, ?_⟩
    intro htok hlike
    have hne : (buildCreative status req accessToken).ObjectStroySpec.VideoData ≠ zeroVideoData := by
      rw [hvd]
      intro hz
      exact hv (congrArg videoData.VideoID hz)
    unfold testCheckCreativeRequest
    rw [htoken, hstatus, if_neg htok, if_neg (not_not.mpr rfl), if_neg (not_not.mpr hld),
      if_pos hne, hvd]
    simp only
    rw [if_neg hv, if_neg himg, if_neg htype, if_neg hlike, if_neg (fun h => hlink h.2)]

theorem accepted_creative_passes_checks_witness :
    checkRequest testRequest = none ∧ testRequest.CallToAction.Typ ≠ "" ∧
      testRequest.CallToAction.Value.Link ≠ "" ∧ testRequest.ImageHash ≠ "" ∧
      ("unicorn60" : String) ≠ "" ∧ testRequest.CallToAction.Typ ≠ "LIKE_PAGE" ∧
      (buildCreative "ACTIVE" testRequest "unicorn60").ObjectStroySpec.LinkData ≠ zeroLinkData ∧
      ((buildCreative "ACTIVE" testRequest "unicorn60").ObjectStroySpec.LinkData.Link ≠ "" ∧
        (buildCreative "ACTIVE" testRequest "unicorn60").ObjectStroySpec.LinkData.ImageHash ≠ "" ∧
        (buildCreative "ACTIVE" testRequest "unicorn60").ObjectStroySpec.LinkData.CallToAction.Typ
          ≠ "" ∧
        (buildCreative "ACTIVE" testRequest
          "unicorn60").ObjectStroySpec.LinkData.CallToAction.Value.Link ≠ "") ∧
      testCheckCreativeRequest "ACTIVE" (buildCreative "ACTIVE" testRequest "unicorn60") = none :=
  ⟨by with_unfolding_all decide, by decide, by decide, by decide, by decide, by decide, by decide,
    ((accepted_creative_passes_checks "ACTIVE" testRequest "unicorn60"
        (by with_unfolding_all decide)).2.2 (by decide) (by decide) (by decide)).1 (by decide),
    ((accepted_creative_passes_checks "ACTIVE" testRequest "unicorn60"
        (by with_unfolding_all decide)).2.2 (by decide) (by decide) (by decide)).2.2
      (by decide) (by decide)⟩

/-! ### The guards of Create and the creation operations -/

/-- C12: when `checkRequest` rejects the request, `Create` returns the error
"Invalid Request" wrapping the cause and leaves the world as it was: no call
to the auth provider, the client or the store. When the request is accepted
and the auth provider reports `valid = false`, `Create` returns an error
wrapping `errInvalidToken`, and the only call made is the one to the auth
provider: no POST, no SetSegment, no StoreCampaign. -/
theorem create_guards_come_first (f : campaign.facebook) (w : World) (userID : String)
    (req : Request) (fuel : Nat) :
    (∀ err, checkRequest req = some err →
      Create f w userID req fuel
        = Run.ok (w, Except.error (Err.logged "Error" "Invalid Request" err))) ∧
    (∀ u, checkRequest req = none → f.getUser w.log userID = Except.ok (u, false) →
      Create f w userID req fuel
        = Run.ok ({ w with log := w.log ++ [Event.getUser userID] },
            Except.error (Err.logged "Warning"
              "Unable to create campaign because the user access token is not valid"
              Err.errInvalidToken))) := by
  constructor
  · intro err h
    unfold Create
    rw [h]
  · intro u h hu
    unfold Create
    rw [h]
    simp only
    unfold getValidUser
    rw [hu]
    rfl

theorem create_guards_come_first_witness :
    (checkRequest { testRequest with Segment := "" } = some Err.errorMissingSegment ∧
      Create testFacebook testWorld "andres" { testRequest with Segment := "" } 3
        = Run.ok (testWorld,
            Except.error (Err.logged "Error" "Invalid Request" Err.errorMissingSegment))) ∧
    (checkRequest testRequest = none ∧
      invalidTokenFacebook.getUser testWorld.log "andres"
        = Except.ok (some testUser, false) ∧
      Create invalidTokenFacebook testWorld "andres" testRequest 3
        = Run.ok ({ testWorld with log := testWorld.log ++ [Event.getUser "andres"] },
            Except.error (Err.logged "Warning"
              "Unable to create campaign because the user access token is not valid"
              Err.errInvalidToken))) :=
  ⟨⟨by with_unfolding_all decide,
      (create_guards_come_first testFacebook testWorld "andres"
        { testRequest with Segment := "" } 3).1 _ (by with_unfolding_all decide)⟩,
    ⟨by with_unfolding_all decide, rfl,
      (create_guards_come_first invalidTokenFacebook testWorld "andres" testRequest 3).2 _
        (by with_unfolding_all decide) rfl⟩⟩

/-- C13 fails on the code. The targeting built for an ad-set never has its
array `interests` written, and its array `life_events` lists the genes of
type interests. On the first chromosome of the population of TestCreate,
whose only active leaf is the gene "Unique" of type interests, `Genesis`
groups that gene under interests and nothing under life_events, while the
ad-set posted has a nil array `interests` and the gene in `life_events`. -/
theorem createAdSets_swaps_interests_and_life_events :
    (∀ s location gender ageMin ageMax genotype,
      (adSetTargeting s location gender ageMin ageMax genotype).Interests = none ∧
      (adSetTargeting s location gender ageMin ageMax genotype).LifeEvents
        = some (setTargeting s (genotype "interests"))) ∧
    (∃ genotype, Genesis basicStore 0 3 = Run.ok genotype ∧ genotype "interests" = [1] ∧
      genotype "life_events" = []) ∧
    ∃ w1 body t,
      createAdSets testFacebook { testWorld with accessToken := "unicorn60" } "act_1234123"
          "1234" "CONVERSIONS" "" testRequest.StartTime testRequest.EndTime "unicorn60"
          testRequest.Location testRequest.Gender 25 45 [0] 3
        = Run.ok (w1, Except.ok ["123412"]) ∧
      w1.log = [Event.randomName,
        Event.post (PostRequest.adsets "act_1234123" body) (PostResult.decoded "123412" none)] ∧
      body.Targeting = some t ∧ t.Interests = none ∧
      t.LifeEvents = some [{ RawName := "", Name := "", ID := "Unique", Typ := "", Path := none }] :=
  ⟨fun _ _ _ _ _ _ => ⟨rfl, rfl⟩, ⟨_, rfl, rfl, rfl⟩, ⟨_, _, _, rfl, rfl, rfl, rfl, rfl⟩⟩

/-- C16 fails on the code for `createAd`. For a client that answers every
POST with an error object `e`, `createCampaign`, `createAdSet` and
`createCreative` return the empty id and a `logger.Error` whose cause is `e`,
but the `logger.Error` that `createAd` returns has a nil cause. -/
theorem createAd_drops_platform_error (f : campaign.facebook) (w : World) (id name : String)
    (e : FacebookError) (adAccount campaignName accessToken objective budget : String)
    (categories : Option (List String)) (campaignID promotedObjectID startTime endTime : String)
    (t : targeting) (req : Request) (adsetID creativeID : String) :
    (createCampaign
        { f with post := fun _ _ => PostResult.decoded id (some e),
                 randomName := fun _ => Except.ok name }
        w adAccount campaignName accessToken objective budget categories).2
      = Except.error (Err.logged "Error"
          "Response from the creation of a campaign contained an error." (Err.platform e)) ∧
    (createAdSet
        { f with post := fun _ _ => PostResult.decoded id (some e),
                 randomName := fun _ => Except.ok name }
        w adAccount campaignID objective promotedObjectID startTime endTime accessToken t).2
      = Except.error (Err.logged "Error"
          "Response to create an adset contained an error." (Err.platform e)) ∧
    (createCreative
        { f with post := fun _ _ => PostResult.decoded id (some e),
                 randomName := fun _ => Except.ok name }
        w req accessToken).2
      = Except.error (Err.logged "Error"
          "The response to create a creative contained an error." (Err.platform e)) ∧
    (createAd
        { f with post := fun _ _ => PostResult.decoded id (some e),
                 randomName := fun _ => Except.ok name }
        w adAccount adsetID creativeID accessToken).2
      = Except.error (Err.loggedNil "Error" "The response to create an ad contained an error.") :=
  ⟨rfl, rfl, rfl, rfl⟩

/-! ### The chromosome constructor -/

/-- With draws at most 1 and `0 ≤ k ≤ |p|`, `Selection(p, k)` on distinct
chromosomes returns `k` distinct chromosomes of `p` and writes nothing but
`Fitness` fields. -/
theorem Selection_returns_distinct (d : Nat → ℚ) (quality : Chromosome → Except GoError ℚ)
    (s : Store) (p : List Ptr) (k : Int) (hk0 : 0 ≤ k) (hk : k ≤ p.length) (hd : ∀ n, d n ≤ 1)
    (hp : p.Nodup) :
    ∃ s1 r, Selection (New d quality) s p k = Run.ok (s1, Except.ok r) ∧
      (r.length : Int) = k ∧ (∀ c ∈ r, c ∈ p) ∧ r.Nodup ∧ SameUpToFitness s s1 := by
  show ∃ s1 r, standardSelection s p k d standardFitness = Run.ok (s1, Except.ok r) ∧ _
  by_cases heq : (p.length : Int) = k
  · subst heq
    exact ⟨s, p, standardSelection_equal d s p standardFitness, rfl, fun _ h => h, hp,
      SameUpToFitness.fitnessRefl s⟩
  · obtain ⟨s1, picks, rest, _, hsel, hlen, hperm, hsame, _⟩ :=
      standardSelection_picks d hd s p k hk0 (by omega)
    have hsort := SliceStable_perm
      (fun a b => decide ((s1.chromosomes b).Quality < (s1.chromosomes a).Quality)) picks
    have hpicks : picks.Nodup := (List.nodup_append.mp (hperm.nodup_iff.mpr hp)).1
    refine ⟨s1, _, hsel, ?_, ?_, hsort.nodup_iff.mpr hpicks, hsame⟩
    · rw [hsort.length_eq, hlen]; omega
    · intro c hc
      exact hperm.subset (List.mem_append_left rest (hsort.subset hc))

/-- On at least 5 distinct allocated chromosomes with gene structures of
bounded depth, for which the oracle succeeds, and with a sampler with values
in `[0, 1)`, `newPopulation` returns 30 distinct chromosomes; each has the
root of a chromosome of the initial population, the children of the genes are
untouched and the chromosomes are allocated. -/
theorem newPopulation_returns (d : Nat → ℚ)
    (quality : Chromosome → Except GoError ℚ) (s : Store) (p : List Ptr) (rate : ℚ) (n : Nat)
    (hlen : selectionSize ≤ p.length) (hnodup : p.Nodup)
    (horacle : oracleSucceeds quality s p = true)
    (hd : ∀ k, 0 ≤ d k ∧ d k < 1)
    (hfin : ∀ c ∈ p, level s n [(s.chromosomes c).Root] = [])
    (halloc : ∀ c ∈ p, c < s.next) :
    ∃ s3 result, newPopulation (New d quality) s p rate n = Run.ok (s3, Except.ok result) ∧
      result.length = populationSize ∧ result.Nodup ∧
      (∀ c ∈ result, ∃ e ∈ p, (s3.chromosomes c).Root = (s.chromosomes e).Root) ∧
      ∀ g, (s3.genes g).Children = (s.genes g).Children := by
  obtain ⟨s1, hfit, hgenes1, hnext1, _, hroot1⟩ := Fitness_succeeds d quality s p horacle
  obtain ⟨s2, elite, hsel, hel, hsub, hdistinct, hsame2⟩ :=
    Selection_returns_distinct d quality s1 p selectionSize (by decide) (by exact_mod_cast hlen)
      (fun k => le_of_lt (hd k).2) hnodup
  have hel5 : elite.length = selectionSize := by exact_mod_cast hel
  have hnext2 : s2.next = s.next := hsame2.2.1.trans hnext1
  have halloc2 : ∀ e ∈ elite, e < s2.next := fun e he => by
    rw [hnext2]; exact halloc e (hsub e he)
  have hroot2 : ∀ e, (s2.chromosomes e).Root = (s.chromosomes e).Root := fun e => by
    rw [(hsame2.2.2 e).2.1, hroot1 e]
  have hchild2 : ∀ g, (s2.genes g).Children = (s.genes g).Children := fun g => by
    rw [hsame2.1, hgenes1]
  have hfin2 : ∀ e ∈ elite, level s2 n [(s2.chromosomes e).Root] = [] := fun e he => by
    rw [hroot2 e, @level_of_children s s2 hchild2 n _]
    exact hfin e (hsub e he)
  obtain ⟨s3, hfill, _, hkeep, hcopy, hchild3⟩ :=
    specRoundRobinFill_returns d quality rate elite n hel5 (populationSize - selectionSize) 0 s2 elite
      halloc2 hfin2
  have hloop := fillLoop_eq_specRoundRobinFill (New d quality) rate elite n
    (populationSize - selectionSize) (populationSize + 1) s2 elite 0 0
    (by rw [hel5]; decide) (by decide) rfl (by decide)
  refine ⟨s3, elite ++ (List.range (populationSize - selectionSize)).map (fun i => s2.next + i),
    ?_, ?_, ?_, ?_, fun g => (hchild3 g).trans (hchild2 g)⟩
  · unfold newPopulation
    rw [hfit]
    simp only
    rw [hsel]
    simp only
    rw [hloop, hfill]
  · rw [List.length_append, List.length_map, List.length_range, hel5]; decide
  · rw [List.nodup_append]
    refine ⟨hdistinct, ?_, ?_⟩
    · exact (List.nodup_range _).map (fun a b h => Nat.add_left_cancel h)
    · intro a ha hb
      obtain ⟨i, _, hi⟩ := List.mem_map.mp hb
      have hlt := halloc2 a ha
      rw [← hi] at hlt
      exact absurd hlt (Nat.not_lt.mpr (Nat.le_add_right _ _))
  · intro c hc
    rcases List.mem_append.mp hc with he | hnew
    · exact ⟨c, hsub c he, by rw [hkeep c (halloc2 c he), hroot2 c]⟩
    · obtain ⟨i, hi, hci⟩ := List.mem_map.mp hnew
      obtain ⟨e, he, hce⟩ := hcopy i (List.mem_range.mp hi)
      have hemem : e ∈ elite := List.getElem?_mem he
      exact ⟨e, hsub e hemem, by rw [← hci, hce, hroot2 e]⟩

/-- Writing the id of a chromosome does not change what `Genesis` reads. -/
theorem Genesis_setID (s : Store) (c1 : Ptr) (id : String) (c : Ptr) (fuel : Nat) :
    Genesis (setID s c1 id) c fuel = Genesis s c fuel := by
  have hroot : ((setID s c1 id).chromosomes c).Root = (s.chromosomes c).Root := by
    by_cases h : c = c1
    · subst h
      simp [setID]
    · simp [setID, Function.update_noteq h]
  have hloop : ∀ root fuel queue result,
      genesisLoop (setID s c1 id) root fuel queue result = genesisLoop s root fuel queue result := by
    intro root fuel
    induction fuel with
    | zero => intro queue result; rfl
    | succ fuel ih =>
      intro queue result
      cases queue with
      | nil => rfl
      | cons q0 rest =>
        unfold genesisLoop
        simp only
        rw [ih]
        rfl
  unfold Genesis
  rw [hroot, hloop]

/-- When the random source gives a name and the platform answers an id and
no error object, `createAdSet` returns that id; it makes one ad-set creation
and writes nothing to the memory. -/
theorem createAdSet_returns (f : campaign.facebook) (w : World)
    (adAccount campaignID campaignObjective promotedObjectID startTime endTime
      accessToken : String) (t : targeting)
    (hpost : ∀ log r, ∃ id, f.post log r = PostResult.decoded id none)
    (hname : ∀ log, ∃ name, f.randomName log = Except.ok name) :
    ∃ id events, createAdSet f w adAccount campaignID campaignObjective promotedObjectID
        startTime endTime accessToken t = ({ w with log := w.log ++ events }, Except.ok id) ∧
      adSetIDs events = [id] ∧ campaignIDs events = [] := by
  obtain ⟨name, hn⟩ := hname w.log
  unfold createAdSet
  simp only [randomName, hn, record]
  generalize hbody : PostRequest.adsets adAccount _ = r
  obtain ⟨id, hid⟩ := hpost (w.log ++ [Event.randomName]) r
  rw [hid]
  refine ⟨id, [Event.randomName, Event.post r (PostResult.decoded id none)], ?_, ?_, ?_⟩
  · simp
  · rw [← hbody]
    rfl
  · rw [← hbody]
    rfl

/-- The loop of `createAdSets` on distinct chromosomes on which `Genesis`
returns: it returns one id for each chromosome, these are the ids brought
back by the ad-set creations it makes, in order, and chromosome number `i`
has id number `i` afterwards; nothing else is written. -/
theorem createAdSetsLoop_returns (f : campaign.facebook)
    (adAccount campaignID campaignObjective promotedObject startTime endTime
      accessToken : String) (location : geolocation)
    (gender : { l : List Int // l.length = 2 }) (ageMin ageMax : Int) (fuel : Nat)
    (hpost : ∀ log r, ∃ id, f.post log r = PostResult.decoded id none)
    (hname : ∀ log, ∃ name, f.randomName log = Except.ok name) :
    ∀ (population : List Ptr) (w : World) (adSets : List String), population.Nodup →
      (∀ c ∈ population, ∃ r, Genesis w.memory c fuel = Run.ok r) →
      ∃ w1 ids events,
        createAdSetsLoop f adAccount campaignID campaignObjective promotedObject startTime
          endTime accessToken location gender ageMin ageMax fuel w population adSets
          = Run.ok (w1, Except.ok (adSets ++ ids)) ∧
        w1.log = w.log ++ events ∧ adSetIDs events = ids ∧ campaignIDs events = [] ∧
        population.map (fun c => (w1.memory.chromosomes c).ID) = ids ∧
        w1.accessToken = w.accessToken ∧
        ∀ c, c ∉ population → w1.memory.chromosomes c = w.memory.chromosomes c := by
  intro population
  induction population with
  | nil =>
    intro w adSets _ _
    exact ⟨w, [], [], by simp [createAdSetsLoop], by simp, rfl, rfl, rfl, rfl, fun _ _ => rfl⟩
  | cons c rest ih =>
    intro w adSets hnodup hgen
    obtain ⟨genotype, hg⟩ := hgen c (List.mem_cons_self _ _)
    obtain ⟨id, ev, hcreate, hev1, hev2⟩ := createAdSet_returns f w adAccount campaignID
      campaignObjective promotedObject startTime endTime accessToken
      (adSetTargeting w.memory location gender ageMin ageMax genotype) hpost hname
    obtain ⟨hc, hrest⟩ := List.nodup_cons.mp hnodup
    obtain ⟨w2, ids, events, hrun, hlog, hids, hcamp, hmap, htok, hkeep⟩ :=
      ih { memory := setID w.memory c id, log := w.log ++ ev, accessToken := w.accessToken }
        (adSets ++ [id]) hrest
        (fun c1 hc1 => by
          obtain ⟨r, hr⟩ := hgen c1 (List.mem_cons_of_mem _ hc1)
          exact ⟨r, by rw [← hr]; exact Genesis_setID w.memory c id c1 fuel⟩)
    refine ⟨w2, id :: ids, ev ++ events, ?_, ?_, ?_, ?_, ?_, htok, ?_⟩
    · unfold createAdSetsLoop
      rw [hg]
      simp only
      rw [hcreate]
      simp only
      rw [hrun, List.append_assoc]
      rfl
    · rw [hlog, List.append_assoc]
    · unfold adSetIDs at hev1 hids ⊢
      rw [List.filterMap_append, hev1, hids]
      rfl
    · unfold campaignIDs at hev2 hcamp ⊢
      rw [List.filterMap_append, hev2, hcamp]
      rfl
    · rw [List.map_cons, hmap, hkeep c hc]
      simp [setID]
    · intro c1 hc1
      rw [List.mem_cons, not_or] at hc1
      rw [hkeep c1 hc1.2]
      simp [setID, Function.update_noteq hc1.1]

/-- When the random source gives a name and the platform answers an id and
no error object, `createAd` returns that id; it makes no ad-set or campaign
creation and writes nothing to the memory. -/
theorem createAd_returns (f : campaign.facebook) (w : World)
    (adAccount adsetID creativeID accessToken : String)
    (hpost : ∀ log r, ∃ id, f.post log r = PostResult.decoded id none)
    (hname : ∀ log, ∃ name, f.randomName log = Except.ok name) :
    ∃ id events, createAd f w adAccount adsetID creativeID accessToken
        = ({ w with log := w.log ++ events }, Except.ok id) ∧
      adSetIDs events = [] ∧ campaignIDs events = [] := by
  obtain ⟨name, hn⟩ := hname w.log
  unfold createAd
  simp only [randomName, hn, record]
  generalize hbody : PostRequest.ads adAccount _ = r
  obtain ⟨id, hid⟩ := hpost (w.log ++ [Event.randomName]) r
  rw [hid]
  refine ⟨id, [Event.randomName, Event.post r (PostResult.decoded id none)], ?_, ?_, ?_⟩
  · simp
  · rw [← hbody]
    rfl
  · rw [← hbody]
    rfl

/-- Method `createAds` returns one id for each ad-set; it makes no ad-set or
campaign creation and writes nothing to the memory. -/
theorem createAds_returns (f : campaign.facebook) (adAccount creativeID accessToken : String)
    (hpost : ∀ log r, ∃ id, f.post log r = PostResult.decoded id none)
    (hname : ∀ log, ∃ name, f.randomName log = Except.ok name) :
    ∀ (adsets : List String) (w : World) (ads : List String),
      ∃ w1 ids events, createAds f adAccount creativeID accessToken w adsets ads
          = (w1, Except.ok (ads ++ ids)) ∧
        w1.memory = w.memory ∧ w1.log = w.log ++ events ∧ w1.accessToken = w.accessToken ∧
        adSetIDs events = [] ∧ campaignIDs events = [] := by
  intro adsets
  induction adsets with
  | nil =>
    intro w ads
    exact ⟨w, [], [], by simp [createAds], rfl, by simp, rfl, rfl, rfl⟩
  | cons adset rest ih =>
    intro w ads
    obtain ⟨id, ev, hcreate, hev1, hev2⟩ :=
      createAd_returns f w adAccount adset creativeID accessToken hpost hname
    obtain ⟨w1, ids, events, hrun, hm, hl, ht, h1, h2⟩ :=
      ih { w with log := w.log ++ ev } (ads ++ [id])
    refine ⟨w1, id :: ids, ev ++ events, ?_, hm, ?_, ht, ?_, ?_⟩
    · unfold createAds
      rw [hcreate]
      simp only
      rw [hrun]
      simp
    · rw [hl, List.append_assoc]
    · unfold adSetIDs at hev1 h1 ⊢
      rw [List.filterMap_append, hev1, h1]
      rfl
    · unfold campaignIDs at hev2 h2 ⊢
      rw [List.filterMap_append, hev2, h2]
      rfl

/-- When the platform answers an id and no error object, `createCampaign`
returns that id; it makes one campaign creation, no ad-set creation, and
writes nothing to the memory. -/
theorem createCampaign_returns (f : campaign.facebook) (w : World)
    (adAccount name accessToken objective budget : String)
    (specialAdCategory : Option (List String))
    (hpost : ∀ log r, ∃ id, f.post log r = PostResult.decoded id none) :
    ∃ w1 id events, createCampaign f w adAccount name accessToken objective budget
        specialAdCategory = (w1, Except.ok id) ∧
      w1.memory = w.memory ∧ w1.log = w.log ++ events ∧ w1.accessToken = w.accessToken ∧
      adSetIDs events = [] ∧ campaignIDs events = [id] := by
  unfold createCampaign
  simp only [record]
  generalize hbody : PostRequest.campaigns adAccount _ = r
  obtain ⟨id, hid⟩ := hpost w.log r
  rw [hid]
  refine ⟨_, id, [Event.post r (PostResult.decoded id none)], rfl, rfl, rfl, rfl, ?_, ?_⟩
  · rw [← hbody]
    rfl
  · rw [← hbody]
    rfl

/-- When the platform answers an id and no error object, `createCreative`
returns that id; it makes no ad-set or campaign creation and writes nothing
to the memory. -/
theorem createCreative_returns (f : campaign.facebook) (w : World) (req : Request)
    (accessToken : String)
    (hpost : ∀ log r, ∃ id, f.post log r = PostResult.decoded id none) :
    ∃ w1 id events, createCreative f w req accessToken = (w1, Except.ok id) ∧
      w1.memory = w.memory ∧ w1.log = w.log ++ events ∧ w1.accessToken = w.accessToken ∧
      adSetIDs events = [] ∧ campaignIDs events = [] := by
  unfold createCreative
  simp only [record]
  generalize hbody : PostRequest.adcreatives req.AdAccount _ = r
  obtain ⟨id, hid⟩ := hpost w.log r
  rw [hid]
  refine ⟨_, id, [Event.post r (PostResult.decoded id none)], rfl, rfl, rfl, rfl, ?_, ?_⟩
  · rw [← hbody]
    rfl
  · rw [← hbody]
    rfl

/-- Sequencing after a step that gave a value runs the rest on that value. -/
theorem andThen_ok {α β : Type} (x : Run (World × Except Err α)) (w : World) (a : α)
    (rest : World → α → Run (World × Except Err β)) (h : x = Run.ok (w, Except.ok a)) :
    andThen x rest = rest w a := by
  rw [h]
  rfl

/-- C11, amended: for a request accepted by `checkRequest`, valid credentials, a stored
segment of at least 5 distinct allocated chromosomes on which the oracle
succeeds and whose genes form finite trees with a root that has a child, a
sampler with values in `[0, 1)`, a random source that gives names, platform
answers that carry an id and no error object, and store operations that
succeed, `Create` returns a nil error and a campaign: its id is the id
brought back by the one campaign creation, its budget and times are those of
the request, its targeting is the population of 30 chromosomes returned by
`newPopulation`, the id of chromosome number `i` being the id brought back by
ad-set creation number `i`, and its media list is the one descriptor taken
from the request; the campaign is the one handed to the store last. -/
theorem create_returns_campaign (f : campaign.facebook) (w : World) (userID : String)
    (req : Request) (fuel : Nat) (u : Facebook) (p : List Ptr) (n : Nat)
    (hreq : checkRequest req = none)
    (huser : ∀ log, f.getUser log userID = Except.ok (some u, true))
    (hpost : ∀ log r, ∃ id, f.post log r = PostResult.decoded id none)
    (hname : ∀ log, ∃ name, f.randomName log = Except.ok name)
    (hget : ∀ log, f.getSegment log userID req.Segment = Except.ok p)
    (hset : ∀ log population, f.setSegment log userID req.Segment population = none)
    (hstore : ∀ log c, f.storeCampaign log userID "facebook" req.AdAccount req.Segment c = none)
    (hlen : selectionSize ≤ p.length) (hnodup : p.Nodup)
    (halloc : ∀ c ∈ p, c < w.memory.next)
    (horacle : oracleSucceeds (f.quality u.AccessToken) w.memory p = true)
    (hd : ∀ k, 0 ≤ f.distribution k ∧ f.distribution k < 1)
    (htree : ∀ c ∈ p, IsGeneTree w.memory (w.memory.chromosomes c).Root n ∧
      (w.memory.genes (w.memory.chromosomes c).Root).Children ≠ [] ∧
      (breadthFirst w.memory n [(w.memory.chromosomes c).Root]).length ≤ fuel)
    (hfuel : n ≤ fuel) :
    ∃ w1 c s3 events,
      Create f w userID req fuel = Run.ok (w1, Except.ok c) ∧
      w1.log = w.log ++ events ∧
      events.getLast? = some (Event.storeCampaign userID "facebook" req.AdAccount req.Segment c) ∧
      campaignIDs events = [c.ID] ∧
      c.Budget = req.Budget ∧ c.StartTime = req.StartTime ∧ c.EndTime = req.EndTime ∧
      newPopulation (engine f u.AccessToken) w.memory p req.MutationRate fuel
        = Run.ok (s3, Except.ok c.Targeting) ∧
      c.Targeting.length = populationSize ∧
      c.Targeting.map (fun x => (w1.memory.chromosomes x).ID) = adSetIDs events ∧
      ∃ m, c.Media = [m] ∧ m.Title = req.Title ∧ m.Body = req.Message ∧
        m.VideoID = req.VideoID ∧ m.URL = req.MediaURL ∧ m.ImageHash = req.ImageHash := by
  have hfin : ∀ c ∈ p, level w.memory fuel [(w.memory.chromosomes c).Root] = [] :=
    fun c hc => level_mono w.memory _ n fuel (htree c hc).1.1 hfuel
  obtain ⟨s3, result, hnew, hlen30, hdistinct, hroots, hchild⟩ :=
    newPopulation_returns f.distribution (f.quality u.AccessToken) w.memory p req.MutationRate
      fuel hlen hnodup horacle hd hfin halloc
  have hgen : ∀ c ∈ result, ∃ r, Genesis s3 c fuel = Run.ok r := by
    intro c hc
    obtain ⟨e, he, hroot⟩ := hroots c hc
    obtain ⟨⟨t1, t2⟩, t3, t4⟩ := htree e he
    refine Genesis_returns s3 c n fuel ⟨?_, ?_⟩ ?_ ?_
    · rw [hroot, level_of_children hchild]
      exact t1
    · rw [hroot, breadthFirst_of_children hchild]
      exact t2
    · rw [hroot, hchild]
      exact t3
    · rw [hroot, breadthFirst_of_children hchild]
      exact t4
  have h1 : getValidUser f w userID
      = Run.ok (record w (Event.getUser userID), Except.ok u) := by
    simp [getValidUser, huser]
  unfold Create
  rw [hreq]
  simp only
  rw [andThen_ok _ _ _ _ h1]
  obtain ⟨W1, hW1, m1, l1, t1⟩ : ∃ W1 : World,
      W1 = { record w (Event.getUser userID) with accessToken := u.AccessToken } ∧
      W1.memory = w.memory ∧ W1.log = w.log ++ [Event.getUser userID] ∧
      W1.accessToken = u.AccessToken := ⟨_, rfl, rfl, rfl, rfl⟩
  rw [← hW1]
  clear hW1
  obtain ⟨W2, cid, ev2, h2, m2, l2, t2, a2, k2⟩ := createCampaign_returns f W1
    req.AdAccount req.Name u.AccessToken req.Objective req.Budget req.SpecialAdCategory hpost
  rw [andThen_ok _ _ _ _ (congrArg Run.ok h2)]
  have h3 : getSegment f W2 userID req.Segment
      = Run.ok (record W2 (Event.getSegment userID req.Segment), Except.ok p) := by
    simp [getSegment, hget]
  rw [andThen_ok _ _ _ _ h3]
  obtain ⟨W3, hW3, m3, l3, t3⟩ : ∃ W3 : World,
      W3 = record W2 (Event.getSegment userID req.Segment) ∧
      W3.memory = W2.memory ∧ W3.log = W2.log ++ [Event.getSegment userID req.Segment] ∧
      W3.accessToken = W2.accessToken := ⟨_, rfl, rfl, rfl, rfl⟩
  rw [← hW3]
  clear hW3
  have hmem3 : W3.memory = w.memory := by rw [m3, m2, m1]
  have htok3 : W3.accessToken = u.AccessToken := by rw [t3, t2, t1]
  have h4 : refresh f W3 p req.MutationRate fuel
      = Run.ok ({ W3 with memory := s3 }, Except.ok result) := by
    unfold refresh engine
    rw [hmem3, htok3, hnew]
  rw [andThen_ok _ _ _ _ h4]
  obtain ⟨W4, hW4, m4, l4, t4⟩ : ∃ W4 : World,
      W4 = { W3 with memory := s3 } ∧
      W4.memory = s3 ∧ W4.log = W3.log ∧ W4.accessToken = W3.accessToken :=
    ⟨_, rfl, rfl, rfl, rfl⟩
  rw [← hW4]
  clear hW4
  obtain ⟨W5, ids, ev5, h5, l5, a5, k5, hmap, t5, _⟩ := createAdSetsLoop_returns f req.AdAccount
    cid req.Objective
    (if req.Objective = "PAGE_LIKES" then req.Page.ID
      else if req.Objective = "CONVERSIONS" then req.PixelID else "")
    req.StartTime req.EndTime u.AccessToken req.Location req.Gender req.AgeMin req.AgeMax fuel
    hpost hname result W4 [] hdistinct (by rw [m4]; exact hgen)
  rw [List.nil_append] at h5
  have h5a : createAdSets f W4 req.AdAccount cid req.Objective
      (if req.Objective = "PAGE_LIKES" then req.Page.ID
        else if req.Objective = "CONVERSIONS" then req.PixelID else "")
      req.StartTime req.EndTime u.AccessToken req.Location req.Gender req.AgeMin req.AgeMax
      result fuel = Run.ok (W5, Except.ok ids) := h5
  rw [andThen_ok _ _ _ _ h5a]
  have h6 : setSegment f W5 userID req.Segment result
      = Run.ok (record W5 (Event.setSegment userID req.Segment result), Except.ok ()) := by
    simp [setSegment, hset]
  rw [andThen_ok _ _ _ _ h6]
  obtain ⟨W6, hW6, m6, l6⟩ : ∃ W6 : World,
      W6 = record W5 (Event.setSegment userID req.Segment result) ∧
      W6.memory = W5.memory ∧ W6.log = W5.log ++ [Event.setSegment userID req.Segment result] :=
    ⟨_, rfl, rfl, rfl⟩
  rw [← hW6]
  clear hW6
  obtain ⟨W7, creativeID, ev7, h7, m7, l7, _, a7, k7⟩ :=
    createCreative_returns f W6 req u.AccessToken hpost
  rw [andThen_ok _ _ _ _ (congrArg Run.ok h7)]
  obtain ⟨W8, ads, ev8, h8, m8, l8, _, a8, k8⟩ :=
    createAds_returns f req.AdAccount creativeID u.AccessToken hpost hname ids W7 []
  rw [andThen_ok _ _ _ _ (congrArg Run.ok h8)]
  have h9 : ∀ c, storeCampaign f W8 userID req.AdAccount req.Segment c
      = Run.ok (record W8 (Event.storeCampaign userID "facebook" req.AdAccount req.Segment c),
          Except.ok c) := by
    intro c
    simp [storeCampaign, hstore]
  have hlog : ∀ e, (record W8 e).log = w.log ++ ([Event.getUser userID] ++ ev2 ++
      [Event.getSegment userID req.Segment] ++ ev5 ++
      [Event.setSegment userID req.Segment result] ++ ev7 ++ ev8 ++ [e]) := by
    intro e
    simp only [record, l8, l7, l6, l5, l4, l3, l2, l1, List.append_assoc]
  have hmem : ∀ e, (record W8 e).memory = W5.memory := by
    intro e
    simp only [record, m8, m7, m6]
  refine ⟨_, _, s3, _, h9 _, hlog _, ?_, ?_, rfl, rfl, rfl, hnew, hlen30, ?_, _, rfl, rfl, rfl,
    rfl, rfl, rfl⟩
  · exact List.getLast?_concat _
  · simp only [campaignIDs, List.filterMap_append] at a2 k2 a5 k5 a7 k7 a8 k8 ⊢
    rw [k2, k5, k7, k8]
    rfl
  · rw [hmem]
    simp only [adSetIDs, List.filterMap_append] at a2 k2 a5 k5 a7 k7 a8 k8 ⊢
    rw [a2, a5, a7, a8, hmap]
    simp [adSetID]

theorem create_returns_campaign_witness :
    checkRequest testRequest = none ∧
    selectionSize ≤ ([0, 1, 2, 3, 4] : List Ptr).length ∧
    oracleSucceeds (testFacebook.quality testUser.AccessToken) testWorld.memory [0, 1, 2, 3, 4]
      = true ∧
    (∀ c ∈ ([0, 1, 2, 3, 4] : List Ptr),
      IsGeneTree testWorld.memory (testWorld.memory.chromosomes c).Root 2 ∧
      (testWorld.memory.genes (testWorld.memory.chromosomes c).Root).Children ≠ [] ∧
      (breadthFirst testWorld.memory 2 [(testWorld.memory.chromosomes c).Root]).length ≤ 3) ∧
    ∃ w1 c s3 events,
      Create testFacebook testWorld "andres" testRequest 3 = Run.ok (w1, Except.ok c) ∧
      w1.log = testWorld.log ++ events ∧
      events.getLast? = some (Event.storeCampaign "andres" "facebook" testRequest.AdAccount
        testRequest.Segment c) ∧
      campaignIDs events = [c.ID] ∧
      c.Budget = testRequest.Budget ∧ c.StartTime = testRequest.StartTime ∧
      c.EndTime = testRequest.EndTime ∧
      newPopulation (engine testFacebook testUser.AccessToken) testWorld.memory [0, 1, 2, 3, 4]
        testRequest.MutationRate 3 = Run.ok (s3, Except.ok c.Targeting) ∧
      c.Targeting.length = populationSize ∧
      c.Targeting.map (fun x => (w1.memory.chromosomes x).ID) = adSetIDs events ∧
      ∃ m, c.Media = [m] ∧ m.Title = testRequest.Title ∧ m.Body = testRequest.Message ∧
        m.VideoID = testRequest.VideoID ∧ m.URL = testRequest.MediaURL ∧
        m.ImageHash = testRequest.ImageHash :=
  ⟨by with_unfolding_all decide, by decide, by with_unfolding_all decide, by decide,
    create_returns_campaign testFacebook testWorld "andres" testRequest 3 testUser
      [0, 1, 2, 3, 4] 2 (by with_unfolding_all decide) (fun _ => rfl)
      (fun _ r => by cases r <;> exact ⟨_, rfl⟩) (fun _ => ⟨_, rfl⟩) (fun _ => rfl)
      (fun _ _ => rfl) (fun _ _ => rfl) (by decide) (by decide) (by decide)
      (by with_unfolding_all decide) (fun _ => ⟨le_refl _, zero_lt_one⟩) (by decide)
      (by decide)⟩

/-! ### The gender guard -/

/-- A guard that returns another error does not return the error `b`. -/
theorem ite_some_ne {α : Type} (c : Prop) [Decidable c] (a b : α) (x : Option α)
    (hab : a ≠ b) (hx : x ≠ some b) : (if c then some a else x) ≠ some b := by
  by_cases h : c
  · rw [if_pos h]
    exact fun he => hab (Option.some.inj he)
  · rw [if_neg h]
    exact hx

/-- C30: `checkRequest` never returns `errorMissingGender`: the field `Gender`
is an array of length 2, so the guard `len(req.Gender) == 0` does not hold;
the request of TestCreate with gender [0, 0] is accepted. -/
theorem checkRequest_never_missing_gender :
    (∀ req : Request, req.Gender.val.length = 2 ∧
      checkRequest req ≠ some Err.errorMissingGender) ∧
    checkRequest { testRequest with Gender := ⟨[0, 0], rfl⟩ } = none := by
  refine ⟨fun req => ⟨req.Gender.property, ?_⟩, by with_unfolding_all decide⟩
  have hg : ¬ req.Gender.val.length = 0 := by
    rw [req.Gender.property]
    decide
  unfold checkRequest
  refine ite_some_ne _ _ _ _ (by decide) ?_
  refine ite_some_ne _ _ _ _ (by decide) ?_
  refine ite_some_ne _ _ _ _ (by decide) ?_
  refine ite_some_ne _ _ _ _ (by decide) ?_
  refine ite_some_ne _ _ _ _ (by decide) ?_
  refine ite_some_ne _ _ _ _ (by decide) ?_
  refine ite_some_ne _ _ _ _ (by decide) ?_
  refine ite_some_ne _ _ _ _ (by decide) ?_
  refine ite_some_ne _ _ _ _ (by decide) ?_
  refine ite_some_ne _ _ _ _ (by decide) ?_
  rw [if_neg hg]
  refine ite_some_ne _ _ _ _ (by decide) ?_
  refine ite_some_ne _ _ _ _ (by decide) ?_
  refine ite_some_ne _ _ _ _ (by decide) ?_
  refine ite_some_ne _ _ _ _ (by decide) ?_
  refine ite_some_ne _ _ _ _ (by decide) ?_
  exact fun h => Option.noConfusion h

/-! ### The quality oracle -/

/-- Between two days at most 106751 days apart, about 292 years, the hours of
`Time.Sub` divided by 24 are the number of days between them. -/
theorem Hours_Sub (t u : Int) (h : |t - u| ≤ 106751) : Hours (Sub t u) / 24 = ((t - u : Int) : ℚ) := by
  obtain ⟨h1, h2⟩ := abs_le.mp h
  have hmax : ¬ (t - u) * 86400000000000 > maxDuration := by
    unfold maxDuration
    omega
  have hmin : ¬ (t - u) * 86400000000000 < minDuration := by
    unfold minDuration
    omega
  unfold Hours Sub
  rw [if_neg hmax, if_neg hmin]
  push_cast
  ring

/-- The loop of `compute` on rows that parse, with dates at most 106751 days
apart: it adds the quality of each row to the accumulator. -/
theorem computeLoop_sum (lib : Library) :
    ∀ (rows : List insightsRow) (acc : ℚ),
      (∀ row ∈ rows, readable lib row ∧ |daysOf lib row| ≤ 106751) →
      computeLoop lib rows acc = Except.ok (acc + (rows.map (specRowQuality lib)).sum) := by
  intro rows
  induction rows with
  | nil => intro acc _; simp [computeLoop]
  | cons row rest ih =>
    intro acc h
    obtain ⟨⟨⟨d1, h1⟩, ⟨d2, h2⟩, ⟨x1, h3⟩, ⟨x2, h4⟩, ⟨x3, h5⟩⟩, hdays⟩ :=
      h row (List.mem_cons_self _ _)
    have hd : daysOf lib row = d2 - d1 := by simp [daysOf, dayOf, h1, h2]
    rw [hd] at hdays
    have hq : specRowQuality lib row = (x1 * x2 / x3) / ((d2 - d1 : Int) : ℚ) := by
      simp [specRowQuality, floatOf, h3, h4, h5, hd]
    unfold computeLoop
    simp only [h1, h2, h3, h4, h5]
    rw [ih _ (fun r hr => h r (List.mem_cons_of_mem _ hr)), Hours_Sub d2 d1 hdays,
      List.map_cons, List.sum_cons, hq, add_assoc]

/-- C21: with the access token set and a response that carries no error
object, `compute` returns 0 when the response has no rows; when it has rows
that parse, with `cpm` not zero and `date_stop` other than `date_start` (and
the two at most 106751 days apart, the range of a `time.Duration`), it
returns, in exact arithmetic, the mean over the rows of
`(reach * unique_ctr / cpm) / days`, `days` being the number of days from
`date_start` to `date_stop`. -/
theorem compute_is_mean_of_rows (lib : Library) (qu : q) (c : Chromosome)
    (data : List insightsRow) (htoken : qu.accessToken ≠ "")
    (hget : qu.get c.ID qu.accessToken = InsightsResult.decoded data none) :
    (data = [] → compute lib qu c = Except.ok 0) ∧
    (data ≠ [] →
      (∀ row ∈ data, readable lib row ∧ floatOf lib row.Cpm ≠ 0 ∧ daysOf lib row ≠ 0 ∧
        |daysOf lib row| ≤ 106751) →
      compute lib qu c
        = Except.ok ((data.map (specRowQuality lib)).sum / (data.length : ℚ))) := by
  constructor
  · intro h
    subst h
    simp [compute, htoken, hget]
  · intro hne hrows
    have hlen : ¬ data.length = 0 := fun h => hne (List.length_eq_zero.mp h)
    have hloop := computeLoop_sum lib data 0 (fun row hr => ⟨(hrows row hr).1, (hrows row hr).2.2.2⟩)
    unfold compute
    rw [if_neg htoken, hget]
    simp only [if_neg hlen, hloop, zero_add]

theorem compute_is_mean_of_rows_witness :
    (sampleOracle []).accessToken ≠ "" ∧
    compute sampleLibrary (sampleOracle []) (basicStore.chromosomes 0) = Except.ok 0 ∧
    (∀ row ∈ [sampleRow], readable sampleLibrary row ∧ floatOf sampleLibrary row.Cpm ≠ 0 ∧
      daysOf sampleLibrary row ≠ 0 ∧ |daysOf sampleLibrary row| ≤ 106751) ∧
    specRowQuality sampleLibrary sampleRow = 125 / 2 ∧
    compute sampleLibrary (sampleOracle [sampleRow]) (basicStore.chromosomes 0)
      = Except.ok (([sampleRow].map (specRowQuality sampleLibrary)).sum
          / (([sampleRow] : List insightsRow).length : ℚ)) := by
  have hrows : ∀ row ∈ [sampleRow], readable sampleLibrary row ∧
      floatOf sampleLibrary row.Cpm ≠ 0 ∧ daysOf sampleLibrary row ≠ 0 ∧
      |daysOf sampleLibrary row| ≤ 106751 := by
    intro row hr
    rw [List.mem_singleton] at hr
    subst hr
    exact ⟨⟨⟨_, rfl⟩, ⟨_, rfl⟩, ⟨_, rfl⟩, ⟨_, rfl⟩, ⟨_, rfl⟩⟩, by with_unfolding_all decide,
      by decide, by decide⟩
  exact ⟨by decide,
    (compute_is_mean_of_rows sampleLibrary (sampleOracle []) (basicStore.chromosomes 0) []
      (by decide) rfl).1 rfl,
    hrows, by with_unfolding_all decide,
    (compute_is_mean_of_rows sampleLibrary (sampleOracle [sampleRow]) (basicStore.chromosomes 0)
      [sampleRow] (by decide) rfl).2 (by decide) hrows⟩

/-- With the conditions under which `Create` returns a campaign, except that
the roots of the stored chromosomes have no child, `Create` panics in the
first `Genesis` of `createAdSets` (create.go 390), whatever the fuel from 2
on. -/
theorem Create_childless_panics (f : campaign.facebook) (w : World) (userID : String)
    (req : Request) (fuel : Nat) (u : Facebook) (p : List Ptr)
    (hreq : checkRequest req = none)
    (huser : ∀ log, f.getUser log userID = Except.ok (some u, true))
    (hpost : ∀ log r, ∃ id, f.post log r = PostResult.decoded id none)
    (hget : ∀ log, f.getSegment log userID req.Segment = Except.ok p)
    (hlen : selectionSize ≤ p.length) (hnodup : p.Nodup)
    (halloc : ∀ c ∈ p, c < w.memory.next)
    (horacle : oracleSucceeds (f.quality u.AccessToken) w.memory p = true)
    (hd : ∀ k, 0 ≤ f.distribution k ∧ f.distribution k < 1)
    (hchildless : ∀ c ∈ p, (w.memory.genes (w.memory.chromosomes c).Root).Children = []) :
    Create f w userID req (fuel + 2) = Run.panic "index out of range [0] with length 0" := by
  have hfin : ∀ c ∈ p, level w.memory (fuel + 2) [(w.memory.chromosomes c).Root] = [] := by
    intro c hc
    refine level_mono w.memory _ 1 (fuel + 2) ?_ (by omega)
    show childrenOf w.memory [(w.memory.chromosomes c).Root] = []
    rw [childrenOf_singleton]
    exact hchildless c hc
  obtain ⟨s3, result, hnew, hlen30, _, hroots, hchild⟩ :=
    newPopulation_returns f.distribution (f.quality u.AccessToken) w.memory p req.MutationRate
      (fuel + 2) hlen hnodup horacle hd hfin halloc
  obtain ⟨c, rest, hresult⟩ : ∃ c rest, result = c :: rest := by
    cases result with
    | nil => exact absurd hlen30 (by decide)
    | cons c rest => exact ⟨c, rest, rfl⟩
  have hgen : Genesis s3 c (fuel + 2) = Run.panic "index out of range [0] with length 0" := by
    obtain ⟨e, he, hroot⟩ := hroots c (by rw [hresult]; exact List.mem_cons_self c rest)
    refine (Genesis_childless s3 c ?_).1 fuel
    rw [hroot, hchild]
    exact hchildless e he
  have h1 : getValidUser f w userID
      = Run.ok (record w (Event.getUser userID), Except.ok u) := by
    simp [getValidUser, huser]
  unfold Create
  rw [hreq]
  simp only
  rw [andThen_ok _ _ _ _ h1]
  obtain ⟨W1, hW1, m1, t1⟩ : ∃ W1 : World,
      W1 = { record w (Event.getUser userID) with accessToken := u.AccessToken } ∧
      W1.memory = w.memory ∧ W1.accessToken = u.AccessToken := ⟨_, rfl, rfl, rfl⟩
  rw [← hW1]
  clear hW1
  obtain ⟨W2, cid, ev2, h2, m2, _, t2, _, _⟩ := createCampaign_returns f W1
    req.AdAccount req.Name u.AccessToken req.Objective req.Budget req.SpecialAdCategory hpost
  rw [andThen_ok _ _ _ _ (congrArg Run.ok h2)]
  have h3 : getSegment f W2 userID req.Segment
      = Run.ok (record W2 (Event.getSegment userID req.Segment), Except.ok p) := by
    simp [getSegment, hget]
  rw [andThen_ok _ _ _ _ h3]
  obtain ⟨W3, hW3, m3, t3⟩ : ∃ W3 : World,
      W3 = record W2 (Event.getSegment userID req.Segment) ∧
      W3.memory = W2.memory ∧ W3.accessToken = W2.accessToken := ⟨_, rfl, rfl, rfl⟩
  rw [← hW3]
  clear hW3
  have hmem3 : W3.memory = w.memory := by rw [m3, m2, m1]
  have htok3 : W3.accessToken = u.AccessToken := by rw [t3, t2, t1]
  have h4 : refresh f W3 p req.MutationRate (fuel + 2)
      = Run.ok ({ W3 with memory := s3 }, Except.ok result) := by
    unfold refresh engine
    rw [hmem3, htok3, hnew]
  rw [andThen_ok _ _ _ _ h4]
  have h5 : createAdSets f { W3 with memory := s3 } req.AdAccount cid req.Objective
      (if req.Objective = "PAGE_LIKES" then req.Page.ID
        else if req.Objective = "CONVERSIONS" then req.PixelID else "")
      req.StartTime req.EndTime u.AccessToken req.Location req.Gender req.AgeMin req.AgeMax
      result (fuel + 2) = Run.panic "index out of range [0] with length 0" := by
    unfold createAdSets
    rw [hresult]
    unfold createAdSetsLoop
    simp only
    rw [hgen]
  rw [h5]
  rfl

/-- C11, as stated, fails: the request, the credentials, the platform answers
and the store operations are those of TestCreate, and the stored segment
holds five distinct chromosomes on which the oracle succeeds, but their roots
have no child. Then `Create` does not return: `createAdSets` calls `Genesis`
on the first chromosome of the new population, which indexes an empty queue
and panics, whatever the fuel from 2 on. -/
theorem create_panics_on_childless_roots :
    checkRequest testRequest = none ∧
    (∀ log, testFacebook.getUser log "andres" = Except.ok (some testUser, true)) ∧
    (∀ log r, ∃ id, testFacebook.post log r = PostResult.decoded id none) ∧
    (∀ log, ∃ name, testFacebook.randomName log = Except.ok name) ∧
    (∀ log, testFacebook.getSegment log "andres" testRequest.Segment
      = Except.ok [0, 1, 2, 3, 4]) ∧
    (∀ log population,
      testFacebook.setSegment log "andres" testRequest.Segment population = none) ∧
    (∀ log c, testFacebook.storeCampaign log "andres" "facebook" testRequest.AdAccount
      testRequest.Segment c = none) ∧
    selectionSize ≤ ([0, 1, 2, 3, 4] : List Ptr).length ∧
    oracleSucceeds (testFacebook.quality testUser.AccessToken) childlessWorld.memory
      [0, 1, 2, 3, 4] = true ∧
    (∀ c ∈ ([0, 1, 2, 3, 4] : List Ptr),
      (childlessWorld.memory.genes (childlessWorld.memory.chromosomes c).Root).Children = []) ∧
    ∀ fuel, Create testFacebook childlessWorld "andres" testRequest (fuel + 2)
      = Run.panic "index out of range [0] with length 0" :=
  ⟨by with_unfolding_all decide, fun _ => rfl, fun _ r => by cases r <;> exact ⟨_, rfl⟩,
    fun _ => ⟨_, rfl⟩, fun _ => rfl, fun _ _ => rfl, fun _ _ => rfl, by decide,
    by with_unfolding_all decide, fun _ _ => rfl,
    fun fuel => Create_childless_panics testFacebook childlessWorld "andres" testRequest fuel
      testUser [0, 1, 2, 3, 4] (by with_unfolding_all decide) (fun _ => rfl)
      (fun _ r => by cases r <;> exact ⟨_, rfl⟩) (fun _ => rfl) (by decide) (by decide)
      (by decide) (by with_unfolding_all decide) (fun _ => ⟨le_refl _, zero_lt_one⟩)
      (fun _ _ => rfl)⟩

end campaign

namespace campaigns

open genetic campaign

/-! ### The campaigns of a segment -/

/-- The comparison of `GetSegmentCampaigns` is the order of strings on the
attribute `secondSort`. -/
theorem less_iff_string_order (a b : sortKeys) :
    decide (stringLess b.SecondSort a.SecondSort) = true ↔ b.SecondSort < a.SecondSort := by
  rw [decide_eq_true_iff]
  unfold stringLess
  exact String.lt_iff_toList_lt.symm

/-- C22: with an empty user id `GetSegmentCampaigns` returns
`ErrorMissingUserID`, and with a user id and an empty segment
`ErrorMissingSegment`, in both cases without a query. With a user id and a
segment, when the one query made returns `records`, it returns the keys (the
campaign ids) of the records, one for each, in descending order of the
attribute `secondSort` (the end time) compared as strings, the records of
equal end time in the order of the query. -/
theorem getSegmentCampaigns_sorted_by_end_time (d : dynamo) (userID segment : String) :
    (userID = "" →
      GetSegmentCampaigns d userID segment = ([], Except.error StorageError.ErrorMissingUserID)) ∧
    (userID ≠ "" → segment = "" →
      GetSegmentCampaigns d userID segment
        = ([], Except.error StorageError.ErrorMissingSegment)) ∧
    ∀ records : List sortKeys, userID ≠ "" → segment ≠ "" →
      d.query (segmentQuery userID segment) = QueryResult.decoded records →
      ∃ sorted : List sortKeys, GetSegmentCampaigns d userID segment
          = ([segmentQuery userID segment], Except.ok (sorted.map (fun keys => keys.Key))) ∧
        sorted.Perm records ∧ (sorted.map (fun keys => keys.Key)).length = records.length ∧
        sorted.Pairwise (fun a b => ¬ stringLess a.SecondSort b.SecondSort) ∧
        ∀ t, sorted.filter (fun keys => decide (keys.SecondSort = t))
          = records.filter (fun keys => decide (keys.SecondSort = t)) := by
  refine ⟨?_, ?_, ?_⟩
  · intro h
    unfold GetSegmentCampaigns
    rw [if_pos h]
  · intro h1 h2
    unfold GetSegmentCampaigns
    rw [if_neg h1, if_pos h2]
  · intro records h1 h2 hq
    refine ⟨SliceStable (fun a b => decide (stringLess b.SecondSort a.SecondSort)) records,
      ?_, SliceStable_perm _ _, ?_, ?_, ?_⟩
    · unfold GetSegmentCampaigns
      rw [if_neg h1, if_neg h2, hq]
    · rw [List.length_map, (SliceStable_perm _ _).length_eq]
    · have h := SliceStable_descending_key (fun keys : sortKeys => keys.SecondSort) _
        less_iff_string_order records
      refine h.imp ?_
      intro a b hab hlt
      exact absurd (String.lt_iff_toList_lt.mpr hlt) (not_lt.mpr hab)
    · intro t
      exact SliceStable_stable_key (fun keys : sortKeys => keys.SecondSort) _
        less_iff_string_order _ t (fun a => decide_eq_true_iff) records

theorem getSegmentCampaigns_sorted_by_end_time_witness :
    GetSegmentCampaigns testDynamo "" "Trinacia"
      = ([], Except.error StorageError.ErrorMissingUserID) ∧
    GetSegmentCampaigns testDynamo "1234" ""
      = ([], Except.error StorageError.ErrorMissingSegment) ∧
    GetSegmentCampaigns testDynamo "1234" "Trinacia"
      = ([segmentQuery "1234" "Trinacia"], Except.ok ["12345", "1234"]) ∧
    ∃ sorted : List sortKeys, GetSegmentCampaigns testDynamo "1234" "Trinacia"
        = ([segmentQuery "1234" "Trinacia"], Except.ok (sorted.map (fun keys => keys.Key))) ∧
      sorted.Perm testRecords ∧
      (sorted.map (fun keys => keys.Key)).length = testRecords.length ∧
      sorted.Pairwise (fun a b => ¬ stringLess a.SecondSort b.SecondSort) ∧
      ∀ t, sorted.filter (fun keys => decide (keys.SecondSort = t))
        = testRecords.filter (fun keys => decide (keys.SecondSort = t)) :=
  ⟨(getSegmentCampaigns_sorted_by_end_time testDynamo "" "Trinacia").1 rfl,
    (getSegmentCampaigns_sorted_by_end_time testDynamo "1234" "").2.1 (by decide) rfl,
    by with_unfolding_all rfl,
    (getSegmentCampaigns_sorted_by_end_time testDynamo "1234" "Trinacia").2.2 testRecords
      (by decide) (by decide) rfl⟩

end campaigns
